import Mathlib

/-!
AGS plugin bridge (engines/ags/plugins/ags_plugin.cpp)

A shallow embedding of the plugin registry of the AGS engine: the fixed table
`plugins[MAXPLUGINS]`, the counters `numPlugins` and `pluginsWantingDebugHooks`,
registration from the game manifest, event subscription and event dispatch.

Conventions of the embedding
* C strings are `List Char` (no embedded NUL); byte buffers are `List Nat`.
* `int` / `int32` values are `Int`; the bit operators `&`, `|`, `~` are `bitAnd`,
  `bitOr`, `Int.lnot` (two's complement, exact on int32 values; `bitAnd` and `bitOr`
  are proved equal to `Int.land` and `Int.lor` below).
* A function pointer is `Option Nat`: `none` is `nullptr`, `some a` the address `a`.
* `quit` / `quitprintf` end the process: an operation that can reach them
  returns `Outcome.quit` carrying which call was reached.
* The callbacks of a plugin are foreign code. A dispatch function takes their behaviour as
  a parameter (a function of the callback address and the arguments) and records which
  slots it called; the callbacks do not alter the registry while a dispatch runs.
* `plugins` is a list of `MAXPLUGINS` records. An index outside the list (undefined
  behaviour in the source) reads a default record and writes nothing; the statements are
  about registries and indices for which this does not happen.
-/

namespace AGS3

/-! ## Data model -/

/-- The `#define MAXPLUGINS 20` of the source. -/
def MAXPLUGINS : Nat := 20

/-- The `const int PLUGIN_API_VERSION = 25` of the source. -/
def PLUGIN_API_VERSION : Nat := 25

/-- The `quit` / `quitprintf` calls of the modelled functions, one constructor per call site. -/
inductive Quit where
  /-- Message "!IAGSEngine::RequestEventHook: invalid event requested". -/
  | requestInvalidEvent
  /-- Message "!IAGSEngine::RequestEventHook: no callback AGS_EngineOnEvent function
  exported from plugin". -/
  | requestNoOnEvent
  /-- Message "Plugin requested AUDIODECODE, which is no longer supported". -/
  | requestAudioDecode
  /-- Message "!IAGSEngine::UnrequestEventHook: invalid event requested". -/
  | unrequestInvalidEvent
  /-- Message "Plugin ... is an old incompatible version." -/
  | oldIncompatibleVersion
  /-- Message "Plugin ... is not a valid AGS plugin (no engine startup entry point)". -/
  | noEngineStartup
  /-- Message "!IAGSEngine::GetSavedData: buffer too small". -/
  | savedDataBufferTooSmall
  /-- Message "IAGSEngine::PlaySoundChannel: streamed samples cannot loop". -/
  | streamedSamplesCannotLoop
  /-- Message "!IAGSEngine::PlaySoundChannel: MIDI already in use". -/
  | midiAlreadyInUse
  /-- Message "!IAGSEngine::PlaySoundChannel: unknown sound type". -/
  | unknownSoundType
  /-- Message "IAGSEngine::FRead: invalid file handle: %d". -/
  | fReadInvalidHandle
  /-- Message "IAGSEngine::FRead: file stream not set". -/
  | fReadStreamNotSet
  /-- Message "IAGSEngine::FWrite: invalid file handle: %d". -/
  | fWriteInvalidHandle
  /-- Message "IAGSEngine::FWrite: file stream not set". -/
  | fWriteStreamNotSet
  /-- Message "!AGSEngine::GetCharacter: invalid character request". -/
  | getCharacterInvalid
  /-- Message "!IAGSEngine::GetObject: invalid object". -/
  | getObjectInvalid
  /-- Message "IAGSEngine::QueueGameScriptFunction: invalid number of arguments". -/
  | queueInvalidNumberOfArguments
  deriving DecidableEq, Repr

/-- Result of an operation that either returns normally or ends the process through `quit`. -/
inductive Outcome (α : Type) where
  | ok (a : α)
  | quit (q : Quit)
  deriving DecidableEq, Repr

/-- The values of `Engine::GameInitError` that `pl_register_plugins` returns. -/
inductive GameInitError where
  | kGameInitErr_NoError
  | kGameInitErr_TooManyPlugins
  | kGameInitErr_PluginNameInvalid
  deriving DecidableEq, Repr

/-- What `Library::GetFunctionAddress` answers on a loaded module for the six symbols
the registration asks for (`AGS_PluginV2` is only tested against `nullptr`). -/
structure Module where
  AGS_PluginV2 : Bool
  AGS_EngineStartup : Option Nat
  AGS_EngineShutdown : Option Nat
  AGS_EngineOnEvent : Option Nat
  AGS_EngineDebugHook : Option Nat
  AGS_EngineInitGfx : Option Nat
  deriving DecidableEq, Repr

/-- The parts of the host that `ags_plugin.cpp` uses but does not define: the constants of
`ags_plugin.h` (values left open) and the behaviour of `Library::Load` on a plugin name
(`none`: the module could not be loaded). -/
structure Host where
  PLUGIN_FILENAME_MAX : Nat
  AGSE_SCRIPTDEBUG : Int
  AGSE_AUDIODECODE : Int
  AGSE_TOOHIGH : Int
  Load : List Char → Option Module

/-- The two data members of `IAGSEngine` that the registry writes. -/
structure IAGSEngine where
  version : Nat := 0
  pluginId : Nat := 0
  deriving DecidableEq, Repr

/-- The `struct EnginePlugin` of the source; the defaults are its constructor
(`library` holds the loaded module, if any). -/
structure EnginePlugin where
  filename : List Char := []
  library : Option Module := none
  available : Bool := false
  savedata : Option (List Nat) := none
  savedatasize : Int := 0
  wantHook : Int := 0
  invalidatedRegion : Int := 0
  engineStartup : Option Nat := none
  engineShutdown : Option Nat := none
  onEvent : Option Nat := none
  initGfxHook : Option Nat := none
  debugHook : Option Nat := none
  eiface : IAGSEngine := {}
  builtin : Bool := false
  deriving DecidableEq, Repr

instance : Inhabited EnginePlugin := ⟨{}⟩

/-- One entry of the plugin manifest (`Shared::PluginInfo`): the name and the saved data blob. -/
structure PluginInfo where
  Name : List Char
  Data : List Nat
  deriving DecidableEq, Repr

/-- The `DataLen` member of `PluginInfo`: the length of the blob. -/
def PluginInfo.DataLen (info : PluginInfo) : Nat := info.Data.length

/-- The globals of `ags_plugin.cpp` that registration, subscription and dispatch use:
`plugins`, `numPlugins`, `pluginsWantingDebugHooks`, and whether the script debug hook
is installed (`ccSetDebugHook(scriptDebugHook)` sets it, `ccSetDebugHook(nullptr)` clears it). -/
structure Registry where
  plugins : List EnginePlugin
  numPlugins : Nat
  pluginsWantingDebugHooks : Int
  ccDebugHook : Bool
  deriving DecidableEq, Repr

/-- The state at program start: twenty default-constructed records, both counters zero,
no debug hook installed. -/
def Registry.initial : Registry :=
  { plugins := List.replicate MAXPLUGINS {}, numPlugins := 0,
    pluginsWantingDebugHooks := 0, ccDebugHook := false }

/-- The expression `plugins[i]`. -/
def Registry.plugin (st : Registry) (i : Nat) : EnginePlugin := st.plugins.getD i {}

/-- An assignment through `plugins[i]`. -/
def Registry.setPlugin (st : Registry) (i : Nat) (p : EnginePlugin) : Registry :=
  { st with plugins := st.plugins.set i p }

/-! ## Bit operators -/

/-- The bits of `m` that are not bits of `n` (`m & ~n` on naturals). -/
def natDiff (m n : Nat) : Nat := m ^^^ (m &&& n)

/-- The operator `&` on two's complement integers. -/
def bitAnd : Int → Int → Int
  | Int.ofNat m, Int.ofNat n => Int.ofNat (m &&& n)
  | Int.ofNat m, Int.negSucc n => Int.ofNat (natDiff m n)
  | Int.negSucc m, Int.ofNat n => Int.ofNat (natDiff n m)
  | Int.negSucc m, Int.negSucc n => Int.negSucc (m ||| n)

/-- The operator `|` on two's complement integers. -/
def bitOr : Int → Int → Int
  | Int.ofNat m, Int.ofNat n => Int.ofNat (m ||| n)
  | Int.ofNat m, Int.negSucc n => Int.negSucc (natDiff n m)
  | Int.negSucc m, Int.ofNat n => Int.negSucc (natDiff m n)
  | Int.negSucc m, Int.negSucc n => Int.negSucc (m &&& n)

/-! ## String helpers -/

/-- Conversion of an unsigned length to `int` (wraps modulo 2^32). -/
def toInt32 (n : Nat) : Int :=
  if n % 2 ^ 32 < 2 ^ 31 then ((n % 2 ^ 32 : Nat) : Int) else ((n % 2 ^ 32 : Nat) : Int) - 2 ^ 32

/-- Modelled from the spec: `String::GetLast` is not in src; it gives the last character
of the string, or NUL when the string is empty. -/
def GetLast (s : List Char) : Char := s.getLast?.getD (Char.ofNat 0)

/-- Modelled from the spec: `ags_stricmp` is not in src; `ags_stricmp a b == 0` holds when
the two strings are equal case-insensitively. -/
def stricmpEq (a b : List Char) : Bool := a.map Char.toLower == b.map Char.toLower

/-- Modelled from the spec: `String::CompareRightNoCase` is not in src; the result is
non-zero (`true`) when the last `count` characters of `s` differ from the first `count`
characters of `ext`, compared case-insensitively. -/
def CompareRightNoCase (s ext : List Char) (count : Nat) : Bool :=
  !stricmpEq (s.drop (s.length - min s.length count)) (ext.take count)

/-- Modelled from the spec: `String::ClipRight` is not in src; it removes the last
`count` characters. -/
def ClipRight (s : List Char) (count : Nat) : List Char := s.take (s.length - count)

/-- The local `const String name_ext = ".dll"`. -/
def name_ext : List Char := ['.', 'd', 'l', 'l']

/-- The test `name.GetLast() == '!'` that marks an editor-only entry. -/
def editorOnly (info : PluginInfo) : Bool := GetLast info.Name == '!'

/-- The name test of `pl_register_plugins` that leads to `kGameInitErr_PluginNameInvalid`. -/
def nameInvalid (h : Host) (name : List Char) : Bool :=
  decide (name.length ≤ name_ext.length) ||
    decide (name.length > h.PLUGIN_FILENAME_MAX + name_ext.length) ||
    CompareRightNoCase name name_ext name_ext.length

/-- The string left in `apl->filename`: the name without its extension, copied by
`snprintf` into the buffer of `PLUGIN_FILENAME_MAX + 1` bytes, then the SnowRain rename. -/
def pluginFilename (h : Host) (name : List Char) : List Char :=
  let copied := (ClipRight name name_ext.length).take h.PLUGIN_FILENAME_MAX
  if stricmpEq copied "ags_SnowRain20".toList then "ags_snowrain".toList else copied

/-! ## Registration -/

/-- The part of the loop body of `pl_register_plugins` that loads the module and resolves
its entry points, applied to the record whose `filename` is already set. -/
def resolveImports (h : Host) (apl : EnginePlugin) : Outcome EnginePlugin :=
  match h.Load apl.filename with
  | some m =>
    if !m.AGS_PluginV2 then .quit .oldIncompatibleVersion
    else if m.AGS_EngineStartup.isNone then .quit .noEngineStartup
    else .ok { apl with
      library := some m
      engineStartup := m.AGS_EngineStartup
      engineShutdown := m.AGS_EngineShutdown
      onEvent := m.AGS_EngineOnEvent
      debugHook := m.AGS_EngineDebugHook
      initGfxHook := m.AGS_EngineInitGfx }
  | none => .ok { apl with library := none }

/-- The loop body from `EnginePlugin *apl = &plugins[numPlugins++]` to its end, on the
record found in the slot. -/
def fillSlot (h : Host) (info : PluginInfo) (slot : Nat) (old : EnginePlugin) :
    Outcome EnginePlugin :=
  let apl : EnginePlugin := { old with
    filename := pluginFilename h info.Name
    savedata := if info.DataLen ≠ 0 then some info.Data else old.savedata
    savedatasize := toInt32 info.DataLen }
  match resolveImports h apl with
  | .quit q => .quit q
  | .ok apl => .ok { apl with
      eiface := { pluginId := slot, version := PLUGIN_API_VERSION }
      wantHook := 0
      available := true }

/-- What one iteration of the loop of `pl_register_plugins` does. -/
inductive EntryResult where
  /-- The `continue` of an editor-only entry. -/
  | skipped
  /-- The `return` of an error code. -/
  | failed (e : GameInitError)
  /-- The end of the loop body was reached, with this registry. -/
  | registered (st : Registry)
  /-- A `quitprintf` was reached. -/
  | quit (q : Quit)
  deriving DecidableEq, Repr

/-- One iteration of the loop of `pl_register_plugins`, on the entry `info`. -/
def registerEntry (h : Host) (info : PluginInfo) (st : Registry) : EntryResult :=
  if editorOnly info then .skipped
  else if st.numPlugins = MAXPLUGINS then .failed .kGameInitErr_TooManyPlugins
  else if nameInvalid h info.Name then .failed .kGameInitErr_PluginNameInvalid
  else
    match fillSlot h info st.numPlugins (st.plugin st.numPlugins) with
    | .quit q => .quit q
    | .ok apl => .registered { (st.setPlugin st.numPlugins apl) with numPlugins := st.numPlugins + 1 }

/-- The loop of `pl_register_plugins` over the remaining entries. -/
def registerLoop (h : Host) : List PluginInfo → Registry → Outcome (GameInitError × Registry)
  | [], st => .ok (.kGameInitErr_NoError, st)
  | info :: rest, st =>
    match registerEntry h info st with
    | .skipped => registerLoop h rest st
    | .failed e => .ok (e, st)
    | .registered st1 => registerLoop h rest st1
    | .quit q => .quit q

/-- The function `pl_register_plugins`: the returned error code and the registry it leaves. -/
def pl_register_plugins (h : Host) (infos : List PluginInfo) (st : Registry) :
    Outcome (GameInitError × Registry) :=
  registerLoop h infos { st with numPlugins := 0 }

/-! ## Event subscription -/

/-- The method `IAGSEngine::RequestEventHook(event)` on the interface whose `pluginId`
member is `pluginId`. -/
def RequestEventHook (h : Host) (pluginId : Nat) (event : Int) (st : Registry) :
    Outcome Registry :=
  if event ≥ h.AGSE_TOOHIGH then .quit .requestInvalidEvent
  else if (st.plugin pluginId).onEvent = none then .quit .requestNoOnEvent
  else
    let st1 : Registry :=
      if bitAnd event h.AGSE_SCRIPTDEBUG ≠ 0 ∧
          bitAnd (st.plugin pluginId).wantHook h.AGSE_SCRIPTDEBUG = 0 then
        { st with pluginsWantingDebugHooks := st.pluginsWantingDebugHooks + 1, ccDebugHook := true }
      else st
    if bitAnd event h.AGSE_AUDIODECODE ≠ 0 then .quit .requestAudioDecode
    else
      .ok (st1.setPlugin pluginId
        { st1.plugin pluginId with wantHook := bitOr (st1.plugin pluginId).wantHook event })

/-- The method `IAGSEngine::UnrequestEventHook(event)` on the interface whose `pluginId`
member is `pluginId`. -/
def UnrequestEventHook (h : Host) (pluginId : Nat) (event : Int) (st : Registry) :
    Outcome Registry :=
  if event ≥ h.AGSE_TOOHIGH then .quit .unrequestInvalidEvent
  else
    let st1 : Registry :=
      if bitAnd event h.AGSE_SCRIPTDEBUG ≠ 0 ∧
          bitAnd (st.plugin pluginId).wantHook h.AGSE_SCRIPTDEBUG ≠ 0 then
        let c := st.pluginsWantingDebugHooks - 1
        { st with pluginsWantingDebugHooks := c,
                  ccDebugHook := if c < 1 then false else st.ccDebugHook }
      else st
    .ok (st1.setPlugin pluginId
      { st1.plugin pluginId with
        wantHook := bitAnd (st1.plugin pluginId).wantHook (Int.lnot event) })

/-! ## Shutdown -/

/-- The body of the loop of `pl_stop_plugins` for slot `a` (the call of `engineShutdown`
does not touch the registry). -/
def stopSlot (a : Nat) (st : Registry) : Registry :=
  let p := st.plugin a
  if p.available then
    st.setPlugin a { p with
      wantHook := 0
      savedata := none
      library := if p.builtin then p.library else none }
  else st

/-- The loop `for (a = ...; a < numPlugins; a++)` of `pl_stop_plugins` with `count`
iterations left. -/
def stopLoop : Nat → Nat → Registry → Registry
  | 0, _, st => st
  | count + 1, a, st => stopLoop count (a + 1) (stopSlot a st)

/-- The function `pl_stop_plugins`. -/
def pl_stop_plugins (st : Registry) : Registry :=
  let st0 : Registry := { st with ccDebugHook := false }
  { stopLoop st0.numPlugins 0 st0 with numPlugins := 0 }

/-! ## Dispatch -/

/-- The loop of `pl_run_plugin_hooks` at slot `i` with `count` iterations left. The result
is the returned value and the slots whose `onEvent` was called, in call order; `none` is a
call through a null `onEvent`. The callbacks are given by `onEventFn address event data`. -/
def runHooksLoop (onEventFn : Nat → Int → Int → Int) (st : Registry) (event data : Int) :
    Nat → Nat → Option (Int × List Nat)
  | 0, _ => some (0, [])
  | count + 1, i =>
    if bitAnd (st.plugin i).wantHook event ≠ 0 then
      match (st.plugin i).onEvent with
      | none => none
      | some f =>
        let retval := onEventFn f event data
        if retval ≠ 0 then some (retval, [i])
        else (runHooksLoop onEventFn st event data count (i + 1)).map
          (fun r => (r.1, i :: r.2))
    else runHooksLoop onEventFn st event data count (i + 1)

/-- The function `pl_run_plugin_hooks(event, data)`. -/
def pl_run_plugin_hooks (onEventFn : Nat → Int → Int → Int) (st : Registry)
    (event data : Int) : Option (Int × List Nat) :=
  runHooksLoop onEventFn st event data st.numPlugins 0

/-- The loop of `pl_run_plugin_debug_hooks` at slot `i` with `count` iterations left; the
callbacks are given by `debugHookFn address scriptfile linenum reserved`. -/
def runDebugHooksLoop (h : Host) (debugHookFn : Nat → List Char → Int → Int → Int)
    (st : Registry) (scriptfile : List Char) (linenum : Int) :
    Nat → Nat → Option (Int × List Nat)
  | 0, _ => some (0, [])
  | count + 1, i =>
    if bitAnd (st.plugin i).wantHook h.AGSE_SCRIPTDEBUG ≠ 0 then
      match (st.plugin i).debugHook with
      | none => none
      | some f =>
        let retval := debugHookFn f scriptfile linenum 0
        if retval ≠ 0 then some (retval, [i])
        else (runDebugHooksLoop h debugHookFn st scriptfile linenum count (i + 1)).map
          (fun r => (r.1, i :: r.2))
    else runDebugHooksLoop h debugHookFn st scriptfile linenum count (i + 1)

/-- The function `pl_run_plugin_debug_hooks(scriptfile, linenum)`. -/
def pl_run_plugin_debug_hooks (h : Host) (debugHookFn : Nat → List Char → Int → Int → Int)
    (st : Registry) (scriptfile : List Char) (linenum : Int) : Option (Int × List Nat) :=
  runDebugHooksLoop h debugHookFn st scriptfile linenum st.numPlugins 0

/-! ## Saved data -/

/-- The library function `memcpy(dst, src, n)` on byte lists: the first `n` bytes of `dst`
are replaced by the first `n` bytes of `src`. -/
def memcpy (dst src : List Nat) (n : Nat) : List Nat := src.take n ++ dst.drop n

/-- The method `IAGSEngine::GetSavedData(buffer, bufsize)` on the interface whose `pluginId`
member is `pluginId`: the returned value and the contents of `buffer` afterwards. A null
`savedata` is read as the empty byte list. -/
def GetSavedData (pluginId : Nat) (buffer : List Nat) (bufsize : Int) (st : Registry) :
    Outcome (Int × List Nat) :=
  let savedatasize := (st.plugin pluginId).savedatasize
  if bufsize < savedatasize then .quit .savedDataBufferTooSmall
  else if savedatasize > 0 then
    .ok (savedatasize,
      memcpy buffer ((st.plugin pluginId).savedata.getD []) savedatasize.toNat)
  else .ok (savedatasize, buffer)

/-! ## Startup, shutdown calls and queries -/

/-- The loop of `pl_startup_plugins` at slot `i` with `count` iterations left: the slots
whose `engineStartup` was called, in call order; `none` is a call through a null
`engineStartup`. -/
def startupLoop (st : Registry) : Nat → Nat → Option (List Nat)
  | 0, _ => some []
  | count + 1, i =>
    if (st.plugin i).available then
      match (st.plugin i).engineStartup with
      | none => none
      | some _ => (startupLoop st count (i + 1)).map (fun r => i :: r)
    else startupLoop st count (i + 1)

/-- The function `pl_startup_plugins`. -/
def pl_startup_plugins (st : Registry) : Option (List Nat) :=
  startupLoop st st.numPlugins 0

/-- The calls of `engineShutdown` that the loop of `pl_stop_plugins` makes from slot `a`
with `count` iterations left: the slots called, in call order. -/
def stopLoopCalls : Nat → Nat → Registry → List Nat
  | 0, _, _ => []
  | count + 1, a, st =>
    (if (st.plugin a).available ∧ (st.plugin a).engineShutdown ≠ none then [a] else []) ++
      stopLoopCalls count (a + 1) (stopSlot a st)

/-- The slots whose `engineShutdown` the function `pl_stop_plugins` calls, in call order. -/
def pl_stop_plugins_calls (st : Registry) : List Nat :=
  stopLoopCalls st.numPlugins 0 { st with ccDebugHook := false }

/-- The loop of `pl_is_plugin_loaded` at slot `i` with `count` iterations left. -/
def isPluginLoadedLoop (pl_name : List Char) (st : Registry) : Nat → Nat → Bool
  | 0, _ => false
  | count + 1, i =>
    if stricmpEq pl_name (st.plugin i).filename then (st.plugin i).available
    else isPluginLoadedLoop pl_name st count (i + 1)

/-- The function `pl_is_plugin_loaded(pl_name)`; `none` is a null `pl_name`. -/
def pl_is_plugin_loaded (pl_name : Option (List Char)) (st : Registry) : Bool :=
  match pl_name with
  | none => false
  | some name => isPluginLoadedLoop name st st.numPlugins 0

/-! ## Sound -/

/-- The constants that `PlaySoundChannel` compares with; they are defined in headers that
are not in src, their values are left open. -/
structure SoundConsts where
  PSND_WAVE : Int
  PSND_MP3STREAM : Int
  PSND_MP3STATIC : Int
  PSND_OGGSTREAM : Int
  PSND_OGGSTATIC : Int
  PSND_MIDI : Int
  PSND_MOD : Int
  SCHAN_SPEECH : Int
  MUS_MIDI : Int

/-- What `PlaySoundChannel` reads from the engine: `play.IsNonBlockingVoiceSpeech()`,
`play.silent_midi`, `current_music_type`, and whether the loader called for a sound type
gives a clip (`none` is a null `SOUNDCLIP`). -/
structure SoundWorld where
  IsNonBlockingVoiceSpeech : Bool
  silent_midi : Int
  current_music_type : Int
  loadClip : Int → Option Nat

/-- The calls by which `PlaySoundChannel` acts on the audio system. -/
inductive SoundCall where
  | stop_and_destroy_channel (channel : Int)
  | stop_voice_nonblocking
  /-- The loader of the sound type (`my_load_wave`, `my_load_mp3`, ...); each loader takes
  some of `volume` and `loop`. -/
  | my_load (soundType volume loop : Int)
  | set_volume (volume : Int)
  | set_clip_to_channel (channel : Int) (clip : Option Nat)
  deriving DecidableEq, Repr

/-- How a run of `PlaySoundChannel` ends. -/
inductive PlayEnd where
  /-- The function returned. -/
  | returned
  /-- A `quit` was reached. -/
  | quit (q : Quit)
  /-- The call `newcha->set_volume` was made on a null clip. -/
  | nullClip
  deriving DecidableEq, Repr

/-- The tail of `PlaySoundChannel` for the tracker and MIDI types: load, set the volume on
the clip, assign it to the channel. -/
def loadWithVolume (w : SoundWorld) (channel soundType volume loop : Int) :
    List SoundCall × PlayEnd :=
  match w.loadClip soundType with
  | none => ([.my_load soundType volume loop], .nullClip)
  | some clip =>
    ([.my_load soundType volume loop, .set_volume volume,
      .set_clip_to_channel channel (some clip)], .returned)

/-- The part of `PlaySoundChannel` after the streaming check: the dispatch on `soundType`. -/
def loadByType (c : SoundConsts) (w : SoundWorld) (channel soundType volume loop : Int) :
    List SoundCall × PlayEnd :=
  if soundType = c.PSND_WAVE ∨ soundType = c.PSND_MP3STREAM ∨ soundType = c.PSND_OGGSTREAM ∨
      soundType = c.PSND_MP3STATIC ∨ soundType = c.PSND_OGGSTATIC then
    ([.my_load soundType volume loop,
      .set_clip_to_channel channel (w.loadClip soundType)], .returned)
  else if soundType = c.PSND_MIDI then
    if w.silent_midi ≠ 0 ∨ w.current_music_type = c.MUS_MIDI then ([], .quit .midiAlreadyInUse)
    else loadWithVolume w channel soundType volume loop
  else if soundType = c.PSND_MOD then loadWithVolume w channel soundType volume loop
  else ([], .quit .unknownSoundType)

/-- The method `IAGSEngine::PlaySoundChannel(channel, soundType, volume, loop, filename)`:
the calls it makes on the audio system, in order, and how it ends. -/
def PlaySoundChannel (c : SoundConsts) (w : SoundWorld) (channel soundType volume loop : Int) :
    List SoundCall × PlayEnd :=
  let stopped : List SoundCall :=
    .stop_and_destroy_channel channel ::
      (if channel = c.SCHAN_SPEECH ∧ w.IsNonBlockingVoiceSpeech = true
        then [.stop_voice_nonblocking] else [])
  if (soundType = c.PSND_MP3STREAM ∨ soundType = c.PSND_OGGSTREAM) ∧ loop ≠ 0 then
    (stopped, .quit .streamedSamplesCannotLoop)
  else
    (stopped ++ (loadByType c w channel soundType volume loop).1,
      (loadByType c w channel soundType volume loop).2)

/-! ## Script calls -/

/-- The two values of `ScriptInstType` that the plugin interface passes on. -/
inductive ScriptInstType where
  | kScInstGame
  | kScInstRoom
  deriving DecidableEq, Repr

/-- What the script bridge reads from the engine: the flag `inside_script` and the value
that `RunScriptFunctionIfExists(instance, name, numArgs, params)` returns. -/
structure ScriptWorld where
  inside_script : Int
  RunScriptFunctionIfExists : ScriptInstType → List Char → Int → List Int → Int

/-- The calls by which the script bridge acts on the script engine. -/
inductive ScriptCall where
  | RunScriptFunctionIfExists (inst : ScriptInstType) (name : List Char) (numArgs : Int)
      (params : List Int)
  | run_another (name : List Char) (inst : ScriptInstType) (numArgs : Int) (p1 p2 : Int)
  deriving DecidableEq, Repr

/-- The expression `globalScript ? kScInstGame : kScInstRoom`. -/
def instOf (globalScript : Int) : ScriptInstType :=
  if globalScript ≠ 0 then .kScInstGame else .kScInstRoom

/-- The method `IAGSEngine::CanRunScriptFunctionNow`. -/
def CanRunScriptFunctionNow (w : ScriptWorld) : Int :=
  if w.inside_script ≠ 0 then 0 else 1

/-- The method `IAGSEngine::CallGameScriptFunction`: the returned value and the calls made
on the script engine. -/
def CallGameScriptFunction (w : ScriptWorld) (name : List Char)
    (globalScript numArgs arg1 arg2 arg3 : Int) : Int × List ScriptCall :=
  if w.inside_script ≠ 0 then (-300, [])
  else
    (w.RunScriptFunctionIfExists (instOf globalScript) name numArgs [arg1, arg2, arg3],
      [.RunScriptFunctionIfExists (instOf globalScript) name numArgs [arg1, arg2, arg3]])

/-- The method `IAGSEngine::QueueGameScriptFunction`: the calls made on the script engine
and the `quit` reached, if any. -/
def QueueGameScriptFunction (w : ScriptWorld) (name : List Char)
    (globalScript numArgs arg1 arg2 : Int) : List ScriptCall × Option Quit :=
  if ¬ (w.inside_script ≠ 0) then
    ((CallGameScriptFunction w name globalScript numArgs arg1 arg2 0).2, none)
  else if numArgs < 0 ∨ numArgs > 2 then ([], some .queueInvalidNumberOfArguments)
  else ([.run_another name (instOf globalScript) numArgs arg1 arg2], none)

/-! ## File handle -/

/-- The statics `pl_file_handle` and `pl_file_stream` (`none` is a null stream). -/
structure FileState where
  pl_file_handle : Int
  pl_file_stream : Option Nat
  deriving DecidableEq, Repr

/-- The initial values `-1` and `nullptr` of the two statics. -/
def FileState.initial : FileState := { pl_file_handle := -1, pl_file_stream := none }

/-- The function `pl_set_file_handle(data, stream)`. -/
def pl_set_file_handle (data : Int) (stream : Option Nat) (_f : FileState) : FileState :=
  { pl_file_handle := data, pl_file_stream := stream }

/-- The function `pl_clear_file_handle()`. -/
def pl_clear_file_handle (_f : FileState) : FileState :=
  { pl_file_handle := -1, pl_file_stream := none }

/-- The method `IAGSEngine::FRead(buffer, len, handle)`; `streamRead stream len` is what
`stream->Read(buffer, len)` returns. -/
def FRead (streamRead : Nat → Int → Int) (f : FileState) (len handle : Int) : Outcome Int :=
  if handle ≠ f.pl_file_handle then .quit .fReadInvalidHandle
  else
    match f.pl_file_stream with
    | none => .quit .fReadStreamNotSet
    | some stream => .ok (streamRead stream len)

/-- The method `IAGSEngine::FWrite(buffer, len, handle)`; `streamWrite stream len` is what
`stream->Write(buffer, len)` returns. -/
def FWrite (streamWrite : Nat → Int → Int) (f : FileState) (len handle : Int) : Outcome Int :=
  if handle ≠ f.pl_file_handle then .quit .fWriteInvalidHandle
  else
    match f.pl_file_stream with
    | none => .quit .fWriteStreamNotSet
    | some stream => .ok (streamWrite stream len)

/-! ## Characters and objects -/

/-- The method `IAGSEngine::GetCharacter(charnum)` in a game with `numcharacters`
characters: the index of the element of `game.chars` whose address is returned. -/
def GetCharacter (numcharacters : Int) (charnum : Int) : Outcome Int :=
  if charnum ≥ numcharacters then .quit .getCharacterInvalid else .ok charnum

/-- The method `IAGSEngine::GetObject(num)` in a room with `numobj` objects: the index of
the element of `croom->obj` whose address is returned. -/
def GetObject (numobj : Int) (num : Int) : Outcome Int :=
  if num ≥ numobj then .quit .getObjectInvalid else .ok num

/-! ## Raw bitmap surfaces -/

/-- The value an `int` holds after an arithmetic result `x` (two's complement wrap). -/
def wrapInt32 (x : Int) : Int := (x + 2 ^ 31) % 2 ^ 32 - 2 ^ 31

/-- The method `IAGSEngine::GetRawBitmapSurface(bmp)` on the interface with `pluginId`;
`stage` is the allegro bitmap of the stage back buffer (`none` when there is no stage
buffer). The returned pixel pointer is not modelled. -/
def GetRawBitmapSurface (stage : Option Nat) (pluginId : Nat) (bmp : Nat) (st : Registry) :
    Registry :=
  if stage = some bmp then
    st.setPlugin pluginId { st.plugin pluginId with invalidatedRegion := 0 }
  else st

/-- The method `IAGSEngine::ReleaseBitmapSurface(bmp)`: whether it calls
`invalidate_screen()`. -/
def ReleaseBitmapSurface (stage : Option Nat) (pluginId : Nat) (bmp : Nat) (st : Registry) :
    Bool :=
  decide (stage = some bmp) && decide ((st.plugin pluginId).invalidatedRegion = 0)

/-- The method `IAGSEngine::MarkRegionDirty` (the call of `invalidate_rect` does not touch
the registry). -/
def MarkRegionDirty (pluginId : Nat) (st : Registry) : Registry :=
  st.setPlugin pluginId
    { st.plugin pluginId with
      invalidatedRegion := wrapInt32 ((st.plugin pluginId).invalidatedRegion + 1) }

/-! ## Built-in plugins -/

/-- The five functions of a statically linked plugin, as addresses. -/
structure BuiltinFns where
  AGS_EngineStartup : Nat
  AGS_EngineShutdown : Nat
  AGS_EngineOnEvent : Nat
  AGS_EngineDebugHook : Nat
  AGS_EngineInitGfx : Nat
  deriving DecidableEq, Repr

/-- The build configuration that `pl_use_builtin_plugin` depends on: the two preprocessor
conditions and the functions of the namespace of each statically linked plugin. -/
structure Build where
  BUILTIN_PLUGINS : Bool
  AGS_PLATFORM_OS_IOS : Bool
  fns : List Char → BuiltinFns

/-- The seven assignments of one branch of `pl_use_builtin_plugin`. -/
def useBuiltin (f : BuiltinFns) (apl : EnginePlugin) : EnginePlugin :=
  { apl with
    engineStartup := some f.AGS_EngineStartup
    engineShutdown := some f.AGS_EngineShutdown
    onEvent := some f.AGS_EngineOnEvent
    debugHook := some f.AGS_EngineDebugHook
    initGfxHook := some f.AGS_EngineInitGfx
    available := true
    builtin := true }

/-- The function `pl_use_builtin_plugin(apl)`: the returned value and the record afterwards. -/
def pl_use_builtin_plugin (b : Build) (apl : EnginePlugin) : Bool × EnginePlugin :=
  if b.BUILTIN_PLUGINS then
    if stricmpEq apl.filename "agsflashlight".toList then
      (true, useBuiltin (b.fns "agsflashlight".toList) apl)
    else if stricmpEq apl.filename "agsblend".toList then
      (true, useBuiltin (b.fns "agsblend".toList) apl)
    else if stricmpEq apl.filename "ags_snowrain".toList then
      (true, useBuiltin (b.fns "ags_snowrain".toList) apl)
    else if stricmpEq apl.filename "ags_parallax".toList then
      (true, useBuiltin (b.fns "ags_parallax".toList) apl)
    else if stricmpEq apl.filename "agspalrender".toList then
      (true, useBuiltin (b.fns "agspalrender".toList) apl)
    else if b.AGS_PLATFORM_OS_IOS && stricmpEq apl.filename "agstouch".toList then
      (true, useBuiltin (b.fns "agstouch".toList) apl)
    else (false, apl)
  else (false, apl)

/-! ## Subscription query -/

/-- The loop of `pl_any_want_hook` at slot `i` with `count` iterations left. -/
def anyWantHookLoop (st : Registry) (event : Int) : Nat → Nat → Bool
  | 0, _ => false
  | count + 1, i =>
    if bitAnd (st.plugin i).wantHook event ≠ 0 then true
    else anyWantHookLoop st event count (i + 1)

/-- The function `pl_any_want_hook(event)`. -/
def pl_any_want_hook (st : Registry) (event : Int) : Bool :=
  anyWantHookLoop st event st.numPlugins 0

/-! ## Reachable states and the vocabulary of the statements -/

/-- The registries the program can be in: the initial one, and those left by
`pl_register_plugins`, by `RequestEventHook` / `UnrequestEventHook` called by a registered
plugin, and by `pl_stop_plugins`. -/
inductive Reachable (h : Host) : Registry → Prop where
  | initial : Reachable h Registry.initial
  | register (st : Registry) (infos : List PluginInfo) (e : GameInitError) (st1 : Registry) :
      Reachable h st → pl_register_plugins h infos st = .ok (e, st1) → Reachable h st1
  | request (st : Registry) (pluginId : Nat) (event : Int) (st1 : Registry) :
      Reachable h st → pluginId < st.numPlugins →
      RequestEventHook h pluginId event st = .ok st1 → Reachable h st1
  | unrequest (st : Registry) (pluginId : Nat) (event : Int) (st1 : Registry) :
      Reachable h st → pluginId < st.numPlugins →
      UnrequestEventHook h pluginId event st = .ok st1 → Reachable h st1
  | stop (st : Registry) : Reachable h st → Reachable h (pl_stop_plugins st)

/-- The non-editor-only entries of a manifest, in manifest order. -/
def realEntries (infos : List PluginInfo) : List PluginInfo :=
  infos.filter (fun i => !editorOnly i)

/-- The module found for an entry, if any, passes both checks that otherwise end in
`quitprintf`: it exports `AGS_PluginV2` and `AGS_EngineStartup`. -/
def loadsCleanly (h : Host) (info : PluginInfo) : Bool :=
  match h.Load (pluginFilename h info.Name) with
  | some m => m.AGS_PluginV2 && m.AGS_EngineStartup.isSome
  | none => true

/-- The record `p` holds the manifest entry `info`, registered in slot `slot`. -/
def Stored (h : Host) (info : PluginInfo) (slot : Nat) (p : EnginePlugin) : Prop :=
  p.filename = pluginFilename h info.Name ∧ p.eiface.pluginId = slot ∧
  p.eiface.version = PLUGIN_API_VERSION ∧
  p.savedatasize = toInt32 info.DataLen ∧
  (info.DataLen ≠ 0 → p.savedata = some info.Data) ∧
  p.wantHook = 0 ∧ p.available = true

/-- The test `plugins[i].wantHook & event` of the dispatch loops. -/
def wantsEvent (st : Registry) (event : Int) (i : Nat) : Bool :=
  decide (bitAnd (st.plugin i).wantHook event ≠ 0)

/-- The value the `onEvent` callback of slot `i` returns for `(event, data)`. -/
def onEventResult (onEventFn : Nat → Int → Int → Int) (st : Registry) (event data : Int)
    (i : Nat) : Int :=
  match (st.plugin i).onEvent with
  | some f => onEventFn f event data
  | none => 0

/-- The value the `debugHook` callback of slot `i` returns for `(scriptfile, linenum, 0)`. -/
def debugHookResult (debugHookFn : Nat → List Char → Int → Int → Int) (st : Registry)
    (scriptfile : List Char) (linenum : Int) (i : Nat) : Int :=
  match (st.plugin i).debugHook with
  | some f => debugHookFn f scriptfile linenum 0
  | none => 0

/-- The registry in which every record has its `debugHook` in the place of `onEvent`. -/
def debugAsOnEvent (st : Registry) : Registry :=
  { st with plugins := st.plugins.map (fun p => { p with onEvent := p.debugHook }) }

/-- Number of indices below `n` at which `f` holds. -/
def countUpTo (f : Nat → Bool) : Nat → Nat
  | 0 => 0
  | n + 1 => countUpTo f n + (if f n then 1 else 0)

/-- Number of registered plugins whose `wantHook` mask contains `AGSE_SCRIPTDEBUG`. -/
def debugSubscribers (h : Host) (st : Registry) : Nat :=
  countUpTo (wantsEvent st h.AGSE_SCRIPTDEBUG) st.numPlugins

/-- A subscription call made by a plugin through its interface. -/
inductive HookCall where
  | request (pluginId : Nat) (event : Int)
  | unrequest (pluginId : Nat) (event : Int)
  deriving DecidableEq, Repr

/-- The `pluginId` of the interface a call is made on. -/
def HookCall.caller : HookCall → Nat
  | .request p _ => p
  | .unrequest p _ => p

/-- Runs one subscription call. -/
def applyCall (h : Host) (c : HookCall) (st : Registry) : Outcome Registry :=
  match c with
  | .request p e => RequestEventHook h p e st
  | .unrequest p e => UnrequestEventHook h p e st

/-- Runs subscription calls one after the other; a `quit` ends the run. -/
def applyCalls (h : Host) : List HookCall → Registry → Outcome Registry
  | [], st => .ok st
  | c :: cs, st =>
    match applyCall h c st with
    | .ok st1 => applyCalls h cs st1
    | .quit q => .quit q

/-- What the loop body of `pl_stop_plugins` leaves of a record. -/
def stoppedRecord (p : EnginePlugin) : EnginePlugin :=
  if p.available then
    { p with wantHook := 0, savedata := none, library := if p.builtin then p.library else none }
  else p

/-- A call a plugin makes on the surface part of its interface. -/
inductive SurfaceCall where
  | get (pluginId : Nat) (bmp : Nat)
  | release (pluginId : Nat) (bmp : Nat)
  | markDirty (pluginId : Nat)
  deriving DecidableEq, Repr

/-- The registry after one surface call (`ReleaseBitmapSurface` does not write to it). -/
def applySurface (stage : Option Nat) (c : SurfaceCall) (st : Registry) : Registry :=
  match c with
  | .get p bmp => GetRawBitmapSurface stage p bmp st
  | .release _ _ => st
  | .markDirty p => MarkRegionDirty p st

/-- The registry after a run of surface calls. -/
def applySurfaces (stage : Option Nat) : List SurfaceCall → Registry → Registry
  | [], st => st
  | c :: cs, st => applySurfaces stage cs (applySurface stage c st)

/-- Number of `MarkRegionDirty` calls that plugin `p` makes in a run of surface calls. -/
def dirtyCount (p : Nat) : List SurfaceCall → Nat
  | [] => 0
  | c :: cs => (if c = .markDirty p then 1 else 0) + dirtyCount p cs

/-- The names that `pl_use_builtin_plugin` knows in a build, in the order it tests them. -/
def builtinNames (b : Build) : List (List Char) :=
  if b.BUILTIN_PLUGINS then
    ["agsflashlight".toList, "agsblend".toList, "ags_snowrain".toList,
      "ags_parallax".toList, "agspalrender".toList] ++
      (if b.AGS_PLATFORM_OS_IOS then ["agstouch".toList] else [])
  else []

/-! ## Concrete hosts and manifests used in the evaluations -/

/-- A module that exports every entry point, at addresses `base + 1 .. base + 5`. -/
def fullModule (base : Nat) : Module :=
  { AGS_PluginV2 := true, AGS_EngineStartup := some (base + 1),
    AGS_EngineShutdown := some (base + 2), AGS_EngineOnEvent := some (base + 3),
    AGS_EngineDebugHook := some (base + 4), AGS_EngineInitGfx := some (base + 5) }

/-- A host with the constants of the AGS plugin API header on which no module can be loaded. -/
def bareHost : Host :=
  { PLUGIN_FILENAME_MAX := 49, AGSE_SCRIPTDEBUG := 0x2000, AGSE_AUDIODECODE := 0x4000,
    AGSE_TOOHIGH := 0x80000, Load := fun _ => none }

/-- A manifest entry without saved data. -/
def entry (name : String) : PluginInfo := { Name := name.toList, Data := [] }

/-- A module that exports the marker, the startup entry point and `AGS_EngineOnEvent`,
but no debug hook. -/
def eventOnlyModule (base : Nat) : Module :=
  { AGS_PluginV2 := true, AGS_EngineStartup := some (base + 1),
    AGS_EngineShutdown := none, AGS_EngineOnEvent := some (base + 3),
    AGS_EngineDebugHook := none, AGS_EngineInitGfx := none }

/-- A host on which `agsblend` and `ags_snowrain` load as full modules and `noDebug` as a
module without debug hook; nothing else can be loaded. -/
def demoHost : Host :=
  { bareHost with
    Load := fun name =>
      if stricmpEq name "agsblend".toList then some (fullModule 10)
      else if stricmpEq name "ags_snowrain".toList then some (fullModule 20)
      else if stricmpEq name "noDebug".toList then some (eventOnlyModule 30)
      else none }

/-- A host on which every name loads a module of the old plugin API (no `AGS_PluginV2`). -/
def oldModuleHost : Host :=
  { bareHost with Load := fun _ => some { fullModule 0 with AGS_PluginV2 := false } }

/-- The manifest `pluga.dll`, `plugb.dll`, ... of `n` distinct well-formed names. -/
def manyEntries (n : Nat) : List PluginInfo :=
  (List.range n).map fun i =>
    { Name := "plug".toList ++ [Char.ofNat (97 + i)] ++ ".dll".toList, Data := [] }

/-- A manifest with an editor-only entry between two plugins, the second with saved data. -/
def demoManifest : List PluginInfo :=
  [entry "agsblend.dll", entry "editor.dll!", { Name := "noDebug.DLL".toList, Data := [7, 8, 9] }]

/-- The registry left by `pl_register_plugins` on the registry `st` (`st` itself when
registration ends in `quit`). -/
def registeredFrom (h : Host) (infos : List PluginInfo) (st : Registry) : Registry :=
  match pl_register_plugins h infos st with
  | .ok (_, st1) => st1
  | .quit _ => st

/-- The registry left by `pl_register_plugins` on the initial registry. -/
def registered (h : Host) (infos : List PluginInfo) : Registry :=
  registeredFrom h infos Registry.initial

/-- The registry after `RequestEventHook` (unchanged when the call ends in `quit`). -/
def subscribed (h : Host) (pluginId : Nat) (event : Int) (st : Registry) : Registry :=
  match RequestEventHook h pluginId event st with
  | .ok st1 => st1
  | .quit _ => st

/-- Three plugins with callbacks, freshly registered on the demo host. -/
def threeRegistered : Registry :=
  registered demoHost [entry "agsblend.dll", entry "ags_SnowRain20.dll", entry "noDebug.dll"]

/-- Three plugins with callbacks, all subscribed to event 1 (key press). -/
def threeSubscribed : Registry :=
  subscribed demoHost 2 1 (subscribed demoHost 1 1 (subscribed demoHost 0 1 threeRegistered))

/-- Callbacks for the evaluations: the `onEvent` of the second plugin (address 23) answers 7,
that of the third (address 33) answers 9, every other one 0. -/
def demoOnEvent (address : Nat) (_event _data : Int) : Int :=
  if address = 23 then 7 else if address = 33 then 9 else 0

/-- Debug callbacks for the evaluations: the hook at address 24 answers 4, every other one 0. -/
def demoDebugHook (address : Nat) (_scriptfile : List Char) (_linenum _reserved : Int) : Int :=
  if address = 24 then 4 else 0

/-- The relation the subscription calls keep between the table, the debug-interest counter
and the debug hook: the counter is the number of registered plugins subscribed to
`AGSE_SCRIPTDEBUG`, and the hook is installed exactly when the counter is positive. -/
def DebugInv (h : Host) (st : Registry) : Prop :=
  st.numPlugins ≤ st.plugins.length ∧
  st.pluginsWantingDebugHooks = (debugSubscribers h st : Int) ∧
  (st.ccDebugHook = true ↔ 0 < st.pluginsWantingDebugHooks)

/-- The registry after a run of subscription calls (the starting one when a call ends
in `quit`). -/
def afterCalls (h : Host) (calls : List HookCall) (st : Registry) : Registry :=
  match applyCalls h calls st with
  | .ok st1 => st1
  | .quit _ => st

/-- Two plugins with an `onEvent` callback, freshly registered on the demo host. -/
def twoRegistered : Registry :=
  registered demoHost [entry "ags_snowrain.dll", entry "noDebug.dll"]

/-- The first session of the C9 scenario ended: of two registered plugins the first
subscribed to the script-debug event, then `pl_stop_plugins` ran. -/
def stoppedSession : Registry :=
  pl_stop_plugins (subscribed demoHost 0 0x2000 twoRegistered)

/-- The next session of the C9 scenario: the same manifest registered again. -/
def nextSession : Registry :=
  registeredFrom demoHost [entry "ags_snowrain.dll", entry "noDebug.dll"] stoppedSession

/-- One plugin registered on the demo host with a saved blob of three bytes. -/
def blobRegistered : Registry :=
  registered demoHost [{ Name := "agsblend.dll".toList, Data := [7, 8, 9] }]

/-- Two entries registered on the host on which no module can be loaded. -/
def unloadedRegistered : Registry :=
  registered bareHost [entry "agsblend.dll", entry "abcde.dll"]

/-- One entry that loads and one that does not, registered on the demo host. -/
def mixedRegistered : Registry :=
  registered demoHost [entry "agsblend.dll", entry "missing.dll"]

/-- A second session on the demo host: `agsblend.dll` was registered and stopped, then
`missing.dll`, which cannot be loaded, is registered. -/
def staleRegistered : Registry :=
  registeredFrom demoHost [entry "missing.dll"]
    (pl_stop_plugins (registered demoHost [entry "agsblend.dll"]))

/-- The sound constants with the values of the AGS headers. -/
def agsSound : SoundConsts :=
  { PSND_WAVE := 1, PSND_MP3STREAM := 2, PSND_MP3STATIC := 3, PSND_OGGSTREAM := 4,
    PSND_OGGSTATIC := 5, PSND_MIDI := 6, PSND_MOD := 7, SCHAN_SPEECH := 2, MUS_MIDI := 1 }

/-- An engine in which non-blocking voice speech is playing, no MIDI is in use and every
sound loads as clip 1. -/
def speakingWorld : SoundWorld :=
  { IsNonBlockingVoiceSpeech := true, silent_midi := 0, current_music_type := 0,
    loadClip := fun _ => some 1 }

/-- A script engine that is inside a script; every script function answers 7. -/
def busyScript : ScriptWorld :=
  { inside_script := 1, RunScriptFunctionIfExists := fun _ _ _ _ => 7 }

/-- A script engine that is not inside a script; every script function answers 7. -/
def idleScript : ScriptWorld :=
  { inside_script := 0, RunScriptFunctionIfExists := fun _ _ _ _ => 7 }

/-- A desktop build with the built-in plugins linked in; the functions of the plugin named
`n` are at the addresses `10 * n.length + 1` to `10 * n.length + 5`. -/
def desktopBuild : Build :=
  { BUILTIN_PLUGINS := true, AGS_PLATFORM_OS_IOS := false,
    fns := fun n =>
      { AGS_EngineStartup := 10 * n.length + 1, AGS_EngineShutdown := 10 * n.length + 2,
        AGS_EngineOnEvent := 10 * n.length + 3, AGS_EngineDebugHook := 10 * n.length + 4,
        AGS_EngineInitGfx := 10 * n.length + 5 } }

/-! # Properties -/

/-! ## Reading and writing the table -/

theorem plugin_setPlugin_self (st : Registry) (i : Nat) (p : EnginePlugin)
    (hi : i < st.plugins.length) : (st.setPlugin i p).plugin i = p := by
  simp [Registry.plugin, Registry.setPlugin, List.getD_eq_getElem?_getD, hi]

theorem plugin_setPlugin_ne (st : Registry) (i j : Nat) (p : EnginePlugin) (hij : i ≠ j) :
    (st.setPlugin i p).plugin j = st.plugin j := by
  simp [Registry.plugin, Registry.setPlugin, List.getD_eq_getElem?_getD, List.getElem?_set, hij]

theorem plugin_setPlugin_out (st : Registry) (i j : Nat) (p : EnginePlugin)
    (hi : st.plugins.length ≤ i) : (st.setPlugin i p).plugin j = st.plugin j := by
  by_cases hij : i = j
  · subst hij
    have h1 : (st.plugins.set i p)[i]? = none := by
      apply List.getElem?_eq_none
      simpa using hi
    have h2 : st.plugins[i]? = none := List.getElem?_eq_none hi
    simp [Registry.plugin, Registry.setPlugin, List.getD_eq_getElem?_getD, h1, h2]
  · exact plugin_setPlugin_ne st i j p hij

theorem length_setPlugin (st : Registry) (i : Nat) (p : EnginePlugin) :
    (st.setPlugin i p).plugins.length = st.plugins.length := by
  simp [Registry.setPlugin]

/-! ## Registration: one entry -/

theorem fillSlot_ok (h : Host) (info : PluginInfo) (slot : Nat) (old : EnginePlugin)
    (hl : loadsCleanly h info = true) :
    ∃ apl, fillSlot h info slot old = .ok apl ∧ Stored h info slot apl := by
  unfold loadsCleanly at hl
  unfold fillSlot resolveImports
  cases hm : h.Load (pluginFilename h info.Name) with
  | none =>
    simp only [hm, Stored]
    refine ⟨_, rfl, rfl, rfl, rfl, rfl, ?_, rfl, rfl⟩
    intro hd
    simp [hd]
  | some m =>
    simp only [hm, Bool.and_eq_true] at hl
    obtain ⟨h1, h2⟩ := hl
    have h3 : m.AGS_EngineStartup.isNone = false := by
      cases hs : m.AGS_EngineStartup <;> simp_all
    simp only [hm, h1, h3, Stored]
    refine ⟨_, rfl, rfl, rfl, rfl, rfl, ?_, rfl, rfl⟩
    intro hd
    simp [hd]

theorem fillSlot_quit (h : Host) (info : PluginInfo) (slot : Nat) (old : EnginePlugin)
    (hl : loadsCleanly h info = false) :
    ∃ q, fillSlot h info slot old = .quit q := by
  unfold loadsCleanly at hl
  unfold fillSlot resolveImports
  cases hm : h.Load (pluginFilename h info.Name) with
  | none => simp [hm] at hl
  | some m =>
    simp only [hm] at hl
    cases h1 : m.AGS_PluginV2
    · exact ⟨.oldIncompatibleVersion, by simp [hm, h1]⟩
    · have h3 : m.AGS_EngineStartup.isNone = true := by
        cases hs : m.AGS_EngineStartup <;> simp_all
      exact ⟨.noEngineStartup, by simp [hm, h1, h3]⟩

theorem registerEntry_registered (h : Host) (info : PluginInfo) (st : Registry)
    (hed : editorOnly info = false) (hn : st.numPlugins ≠ MAXPLUGINS)
    (hwf : nameInvalid h info.Name = false) (hl : loadsCleanly h info = true) :
    ∃ apl, Stored h info st.numPlugins apl ∧
      registerEntry h info st =
        .registered { (st.setPlugin st.numPlugins apl) with numPlugins := st.numPlugins + 1 } := by
  obtain ⟨apl, h1, h2⟩ := fillSlot_ok h info st.numPlugins (st.plugin st.numPlugins) hl
  exact ⟨apl, h2, by simp [registerEntry, hed, hn, hwf, h1]⟩

theorem realEntries_cons_skip (info : PluginInfo) (rest : List PluginInfo)
    (hed : editorOnly info = true) : realEntries (info :: rest) = realEntries rest := by
  simp [realEntries, hed]

theorem realEntries_cons_keep (info : PluginInfo) (rest : List PluginInfo)
    (hed : editorOnly info = false) : realEntries (info :: rest) = info :: realEntries rest := by
  simp [realEntries, hed]

/-! ## Registration: the loop -/

theorem registerLoop_ok (h : Host) : ∀ (infos : List PluginInfo) (st : Registry),
    st.plugins.length = MAXPLUGINS →
    st.numPlugins + (realEntries infos).length ≤ MAXPLUGINS →
    (∀ i ∈ realEntries infos, nameInvalid h i.Name = false) →
    (∀ i ∈ realEntries infos, loadsCleanly h i = true) →
    ∃ st1, registerLoop h infos st = .ok (.kGameInitErr_NoError, st1) ∧
      st1.numPlugins = st.numPlugins + (realEntries infos).length ∧
      st1.plugins.length = MAXPLUGINS ∧
      st1.pluginsWantingDebugHooks = st.pluginsWantingDebugHooks ∧
      st1.ccDebugHook = st.ccDebugHook ∧
      (∀ j, j < st.numPlugins → st1.plugin j = st.plugin j) ∧
      (∀ k e, (realEntries infos)[k]? = some e →
        Stored h e (st.numPlugins + k) (st1.plugin (st.numPlugins + k))) := by
  intro infos
  induction infos with
  | nil =>
    intro st hsize _ _ _
    exact ⟨st, rfl, by simp [realEntries], hsize, rfl, rfl, fun _ _ => rfl,
      by simp [realEntries]⟩
  | cons info rest ih =>
    intro st hsize hcount hwf hload
    cases hed : editorOnly info with
    | true =>
      rw [realEntries_cons_skip info rest hed] at hcount hwf hload ⊢
      obtain ⟨st1, h1, h2⟩ := ih st hsize hcount hwf hload
      exact ⟨st1, by simp [registerLoop, registerEntry, hed, h1], h2⟩
    | false =>
      rw [realEntries_cons_keep info rest hed] at hcount hwf hload ⊢
      simp only [List.length_cons] at hcount
      have hn : st.numPlugins ≠ MAXPLUGINS := by omega
      obtain ⟨apl, hst, hreg⟩ := registerEntry_registered h info st hed hn
        (hwf info (List.mem_cons_self _ _)) (hload info (List.mem_cons_self _ _))
      have hlt : st.numPlugins < st.plugins.length := by omega
      obtain ⟨st1, h1, h2, h3, h4, h5, h6, h7⟩ :=
        ih { (st.setPlugin st.numPlugins apl) with numPlugins := st.numPlugins + 1 }
          (by simpa [Registry.setPlugin] using hsize)
          (by simp only; omega)
          (fun i hi => hwf i (List.mem_cons_of_mem _ hi))
          (fun i hi => hload i (List.mem_cons_of_mem _ hi))
      have hget : ∀ j, j ≤ st.numPlugins → st1.plugin j = (st.setPlugin st.numPlugins apl).plugin j := by
        intro j hj
        have := h6 j (by simp only; omega)
        simpa [Registry.plugin] using this
      refine ⟨st1, by simp [registerLoop, hreg, h1], ?_, h3, ?_, ?_, ?_, ?_⟩
      · simp only [List.length_cons] at h2 ⊢
        omega
      · simpa [Registry.setPlugin] using h4
      · simpa [Registry.setPlugin] using h5
      · intro j hj
        rw [hget j (by omega)]
        exact plugin_setPlugin_ne st _ _ apl (by omega)
      · intro k e hk
        cases k with
        | zero =>
          simp only [List.getElem?_cons_zero, Option.some.injEq] at hk
          subst hk
          rw [Nat.add_zero, hget _ (le_refl _), plugin_setPlugin_self st _ apl hlt]
          exact hst
        | succ k =>
          simp only [List.getElem?_cons_succ] at hk
          have := h7 k e hk
          simp only at this
          have e1 : st.numPlugins + 1 + k = st.numPlugins + (k + 1) := by omega
          rw [e1] at this
          exact this

theorem registerEntry_registered_inv (h : Host) (info : PluginInfo) (st st1 : Registry)
    (hr : registerEntry h info st = .registered st1) :
    editorOnly info = false ∧ st.numPlugins ≠ MAXPLUGINS ∧ nameInvalid h info.Name = false ∧
    ∃ apl, fillSlot h info st.numPlugins (st.plugin st.numPlugins) = .ok apl ∧
      st1 = { (st.setPlugin st.numPlugins apl) with numPlugins := st.numPlugins + 1 } := by
  unfold registerEntry at hr
  split at hr
  · cases hr
  · split at hr
    · cases hr
    · split at hr
      · cases hr
      · split at hr
        · cases hr
        · rename_i h1 h2 h3 _ apl hf
          injection hr with hr
          exact ⟨by simpa using h1, h2, by simpa using h3, apl, hf, hr.symm⟩

theorem registerLoop_append (h : Host) (rest : List PluginInfo) :
    ∀ (pre : List PluginInfo) (st st1 : Registry),
    registerLoop h pre st = .ok (.kGameInitErr_NoError, st1) →
    registerLoop h (pre ++ rest) st = registerLoop h rest st1 := by
  intro pre
  induction pre with
  | nil =>
    intro st st1 hpre
    simp only [registerLoop, Outcome.ok.injEq, Prod.mk.injEq, true_and] at hpre
    simp [hpre]
  | cons info pre ih =>
    intro st st1 hpre
    simp only [List.cons_append, registerLoop] at hpre ⊢
    cases hre : registerEntry h info st with
    | skipped =>
      rw [hre] at hpre
      exact ih st st1 hpre
    | failed e =>
      rw [hre] at hpre
      simp only [Outcome.ok.injEq, Prod.mk.injEq] at hpre
      have hst := hpre.2
      have he := hpre.1
      subst he
      unfold registerEntry at hre
      split at hre
      · cases hre
      · split at hre
        · cases hre
        · split at hre
          · cases hre
          · split at hre <;> cases hre
    | registered st2 =>
      rw [hre] at hpre
      exact ih st2 st1 hpre
    | quit q =>
      rw [hre] at hpre
      cases hpre

theorem registerLoop_numPlugins_le (h : Host) :
    ∀ (infos : List PluginInfo) (st : Registry) (e : GameInitError) (st1 : Registry),
    st.numPlugins ≤ MAXPLUGINS → registerLoop h infos st = .ok (e, st1) →
    st1.numPlugins ≤ MAXPLUGINS := by
  intro infos
  induction infos with
  | nil =>
    intro st e st1 hle hr
    simp only [registerLoop, Outcome.ok.injEq, Prod.mk.injEq] at hr
    rw [← hr.2]
    exact hle
  | cons info rest ih =>
    intro st e st1 hle hr
    simp only [registerLoop] at hr
    cases hre : registerEntry h info st with
    | skipped =>
      rw [hre] at hr
      exact ih st e st1 hle hr
    | failed e2 =>
      rw [hre] at hr
      simp only [Outcome.ok.injEq, Prod.mk.injEq] at hr
      rw [← hr.2]
      exact hle
    | registered st2 =>
      rw [hre] at hr
      obtain ⟨_, hne, _, apl, _, hst2⟩ := registerEntry_registered_inv h info st st2 hre
      refine ih st2 e st1 ?_ hr
      rw [hst2]
      simp only
      omega
    | quit q =>
      rw [hre] at hr
      cases hr

/-! ## C1: dense slot assignment -/

/-- C1 (as amended): for every manifest whose non-editor-only entries number at most
`MAXPLUGINS`, all have a well-formed name, and none resolves to a module that fails the
`AGS_PluginV2` / `AGS_EngineStartup` checks, `pl_register_plugins` returns
`kGameInitErr_NoError`, `numPlugins` is the number of non-editor-only entries, and for every
`k < numPlugins` the `k`-th such entry is stored in `plugins[k]` with `eiface.pluginId = k`. -/
theorem register_assigns_dense_slots (h : Host) (infos : List PluginInfo) (st : Registry)
    (hsize : st.plugins.length = MAXPLUGINS)
    (hcount : (realEntries infos).length ≤ MAXPLUGINS)
    (hwf : ∀ i ∈ realEntries infos, nameInvalid h i.Name = false)
    (hload : ∀ i ∈ realEntries infos, loadsCleanly h i = true) :
    ∃ st1, pl_register_plugins h infos st = .ok (.kGameInitErr_NoError, st1) ∧
      st1.numPlugins = (realEntries infos).length ∧
      ∀ k, k < st1.numPlugins →
        ∃ e, (realEntries infos)[k]? = some e ∧ Stored h e k (st1.plugin k) ∧
          (st1.plugin k).eiface.pluginId = k := by
  obtain ⟨st1, h1, h2, _, _, _, _, h7⟩ :=
    registerLoop_ok h infos { st with numPlugins := 0 } hsize (by simpa using hcount) hwf hload
  simp only [Nat.zero_add] at h2 h7
  refine ⟨st1, h1, h2, ?_⟩
  intro k hk
  rw [h2] at hk
  have hget : (realEntries infos)[k]? = some ((realEntries infos)[k]) :=
    List.getElem?_eq_getElem hk
  exact ⟨_, hget, h7 k _ hget, (h7 k _ hget).2.1⟩

/-- Witness of C1: the demo manifest (two plugins around an editor-only entry) on the demo host. -/
theorem register_assigns_dense_slots_witness :
    ∃ st1, pl_register_plugins demoHost demoManifest Registry.initial =
        .ok (.kGameInitErr_NoError, st1) ∧
      st1.numPlugins = (realEntries demoManifest).length ∧
      ∀ k, k < st1.numPlugins →
        ∃ e, (realEntries demoManifest)[k]? = some e ∧ Stored demoHost e k (st1.plugin k) ∧
          (st1.plugin k).eiface.pluginId = k :=
  register_assigns_dense_slots demoHost demoManifest Registry.initial
    (by decide) (by decide) (by decide) (by decide)

/-- Counterexample to C1 as stated: a manifest of one well-formed, uniquely named entry does
not make `pl_register_plugins` return when the module found for it lacks `AGS_PluginV2`:
the function ends in `quitprintf`. -/
theorem register_quits_on_old_module :
    (realEntries [entry "abcde.dll"]).length ≤ MAXPLUGINS ∧
    (∀ i ∈ realEntries [entry "abcde.dll"], nameInvalid oldModuleHost i.Name = false) ∧
    ([entry "abcde.dll"].map (fun i => i.Name)).Nodup ∧
    pl_register_plugins oldModuleHost [entry "abcde.dll"] Registry.initial =
      .quit .oldIncompatibleVersion := by
  decide

/-! ## C2: the twenty-first entry -/

/-- C2 (as amended): when the first `MAXPLUGINS` non-editor-only entries of a manifest are
well-formed and load without a fatal error, and a further non-editor-only entry `e` follows
them, `pl_register_plugins` returns `kGameInitErr_TooManyPlugins` at `e` and leaves exactly
the registry that registering the entries before `e` leaves: neither `e` nor a later entry
is registered and `numPlugins = MAXPLUGINS`. Whenever `pl_register_plugins` returns,
`numPlugins ≤ MAXPLUGINS`. -/
theorem register_too_many_at_next_entry (h : Host) (pre post : List PluginInfo)
    (e : PluginInfo) (st : Registry)
    (hsize : st.plugins.length = MAXPLUGINS)
    (hpre : (realEntries pre).length = MAXPLUGINS)
    (hwf : ∀ i ∈ realEntries pre, nameInvalid h i.Name = false)
    (hload : ∀ i ∈ realEntries pre, loadsCleanly h i = true)
    (he : editorOnly e = false) :
    (∃ st1, pl_register_plugins h pre st = .ok (.kGameInitErr_NoError, st1) ∧
      pl_register_plugins h (pre ++ e :: post) st = .ok (.kGameInitErr_TooManyPlugins, st1) ∧
      st1.numPlugins = MAXPLUGINS) ∧
    (∀ infos s err s1, pl_register_plugins h infos s = .ok (err, s1) →
      s1.numPlugins ≤ MAXPLUGINS) := by
  constructor
  · obtain ⟨st1, h1, h2, _⟩ :=
      registerLoop_ok h pre { st with numPlugins := 0 } hsize (by simp [hpre]) hwf hload
    simp only [Nat.zero_add] at h2
    refine ⟨st1, h1, ?_, by rw [h2, hpre]⟩
    unfold pl_register_plugins
    rw [registerLoop_append h (e :: post) pre _ st1 h1]
    simp [registerLoop, registerEntry, he, h2, hpre]
  · intro infos s err s1 hr
    exact registerLoop_numPlugins_le h infos _ err s1 (by simp) hr

/-- Witness of C2: twenty distinct plugins followed by two more entries. -/
theorem register_too_many_at_next_entry_witness :
    (∃ st1, pl_register_plugins bareHost (manyEntries 20) Registry.initial =
        .ok (.kGameInitErr_NoError, st1) ∧
      pl_register_plugins bareHost (manyEntries 20 ++ entry "late.dll" :: [entry "more.dll"])
        Registry.initial = .ok (.kGameInitErr_TooManyPlugins, st1) ∧
      st1.numPlugins = MAXPLUGINS) ∧
    (∀ infos s err s1, pl_register_plugins bareHost infos s = .ok (err, s1) →
      s1.numPlugins ≤ MAXPLUGINS) :=
  register_too_many_at_next_entry bareHost (manyEntries 20) [entry "more.dll"]
    (entry "late.dll") Registry.initial (by decide) (by decide) (by decide) (by decide)
    (by decide)

/-- Counterexample to C2 as stated: a manifest with twenty-one valid entries behind a
malformed one returns `kGameInitErr_PluginNameInvalid`, not `kGameInitErr_TooManyPlugins`;
and a manifest of twenty-one valid entries whose first module is of the old plugin API ends
in `quitprintf` before the twenty-first entry is reached. -/
theorem register_name_error_before_too_many :
    MAXPLUGINS < ((entry "x" :: manyEntries 21).filter
      (fun i => !editorOnly i && !nameInvalid bareHost i.Name)).length ∧
    pl_register_plugins bareHost (entry "x" :: manyEntries 21) Registry.initial =
      .ok (.kGameInitErr_PluginNameInvalid, Registry.initial) ∧
    MAXPLUGINS < ((manyEntries 21).filter
      (fun i => !editorOnly i && !nameInvalid oldModuleHost i.Name)).length ∧
    pl_register_plugins oldModuleHost (manyEntries 21) Registry.initial =
      .quit .oldIncompatibleVersion := by
  decide

/-! ## C3: the shape of a name -/

theorem nameInvalid_iff (h : Host) (name : List Char) :
    nameInvalid h name = true ↔
      (name.length ≤ 4 ∨ name.length > h.PLUGIN_FILENAME_MAX + 4 ∨
        (name.drop (name.length - 4)).map Char.toLower ≠ ['.', 'd', 'l', 'l']) := by
  have hext : List.map Char.toLower (List.take 4 ['.', 'd', 'l', 'l']) = ['.', 'd', 'l', 'l'] := by
    decide
  by_cases hlen : name.length ≤ 4
  · simp [nameInvalid, name_ext, hlen]
  · have hmin : min name.length 4 = 4 := by omega
    simp only [nameInvalid, name_ext, CompareRightNoCase, stricmpEq, List.length_cons,
      List.length_nil, Nat.zero_add, Nat.reduceAdd, hmin, hext, hlen, decide_False,
      Bool.false_or, Bool.or_eq_true, decide_eq_true_eq, Bool.not_eq_true', beq_eq_false_iff_ne,
      ne_eq, false_or, gt_iff_lt]

theorem pluginFilename_of_valid (h : Host) (name : List Char)
    (hv : nameInvalid h name = false) :
    pluginFilename h name =
      if stricmpEq (name.take (name.length - 4)) "ags_SnowRain20".toList
      then "ags_snowrain".toList else name.take (name.length - 4) := by
  have hlen : ¬ name.length > h.PLUGIN_FILENAME_MAX + 4 := by
    intro hc
    have := (nameInvalid_iff h name).2 (Or.inr (Or.inl hc))
    rw [hv] at this
    cases this
  have htake : List.take h.PLUGIN_FILENAME_MAX (List.take (name.length - 4) name) =
      List.take (name.length - 4) name := by
    apply List.take_of_length_le
    simp only [List.length_take]
    omega
  simp only [pluginFilename, ClipRight, name_ext, List.length_cons, List.length_nil,
    Nat.zero_add, Nat.reduceAdd, htake]

/-- C3 (as amended): a non-editor-only entry reached while fewer than `MAXPLUGINS` plugins
are registered is rejected with `kGameInitErr_PluginNameInvalid` if and only if its name has
length at most 4, or length above `PLUGIN_FILENAME_MAX + 4`, or its last four characters are
not ".dll" case-insensitively; the rejection ends the loop with the registry unchanged.
Otherwise, when the module found for it passes the two fatal checks, it is registered in
slot `numPlugins` under its name without the 4-character suffix, except that a name equal to
"ags_SnowRain20" case-insensitively is registered as "ags_snowrain"; when the module fails a
check the function ends in `quitprintf`. -/
theorem entry_rejected_iff_name_shape (h : Host) (info : PluginInfo) (st : Registry)
    (hsize : st.plugins.length = MAXPLUGINS)
    (hed : editorOnly info = false) (hn : st.numPlugins < MAXPLUGINS) :
    (registerEntry h info st = .failed .kGameInitErr_PluginNameInvalid ↔
      (info.Name.length ≤ 4 ∨ info.Name.length > h.PLUGIN_FILENAME_MAX + 4 ∨
        (info.Name.drop (info.Name.length - 4)).map Char.toLower ≠ ['.', 'd', 'l', 'l'])) ∧
    (registerEntry h info st = .failed .kGameInitErr_PluginNameInvalid →
      ∀ rest, registerLoop h (info :: rest) st = .ok (.kGameInitErr_PluginNameInvalid, st)) ∧
    (registerEntry h info st ≠ .failed .kGameInitErr_PluginNameInvalid →
      loadsCleanly h info = true →
      ∃ st1, registerEntry h info st = .registered st1 ∧
        st1.numPlugins = st.numPlugins + 1 ∧
        (st1.plugin st.numPlugins).filename =
          (if stricmpEq (info.Name.take (info.Name.length - 4)) "ags_SnowRain20".toList
           then "ags_snowrain".toList else info.Name.take (info.Name.length - 4)) ∧
        Stored h info st.numPlugins (st1.plugin st.numPlugins) ∧
        ∀ j, j ≠ st.numPlugins → st1.plugin j = st.plugin j) ∧
    (registerEntry h info st ≠ .failed .kGameInitErr_PluginNameInvalid →
      loadsCleanly h info = false → ∃ q, registerEntry h info st = .quit q) := by
  have hne : st.numPlugins ≠ MAXPLUGINS := by omega
  have hiff : registerEntry h info st = .failed .kGameInitErr_PluginNameInvalid ↔
      nameInvalid h info.Name = true := by
    cases hv : nameInvalid h info.Name with
    | true => simp [registerEntry, hed, hne, hv]
    | false =>
      simp only [registerEntry, hed, hne, hv, Bool.false_eq_true, if_false, iff_false]
      cases fillSlot h info st.numPlugins (st.plugin st.numPlugins) <;> simp
  refine ⟨hiff.trans (nameInvalid_iff h info.Name), ?_, ?_, ?_⟩
  · intro hf rest
    simp [registerLoop, hf]
  · intro hnf hl
    have hv : nameInvalid h info.Name = false := by
      cases hv : nameInvalid h info.Name with
      | true => exact absurd (hiff.2 hv) hnf
      | false => rfl
    obtain ⟨apl, hst, hreg⟩ := registerEntry_registered h info st hed hne hv hl
    have hself : ({ (st.setPlugin st.numPlugins apl) with
        numPlugins := st.numPlugins + 1 } : Registry).plugin st.numPlugins = apl :=
      plugin_setPlugin_self st _ apl (by omega)
    refine ⟨_, hreg, rfl, ?_, ?_, ?_⟩
    · rw [hself, hst.1, pluginFilename_of_valid h info.Name hv]
    · rw [hself]
      exact hst
    · intro j hj
      exact plugin_setPlugin_ne st _ j apl (Ne.symm hj)
  · intro hnf hl
    have hv : nameInvalid h info.Name = false := by
      cases hv : nameInvalid h info.Name with
      | true => exact absurd (hiff.2 hv) hnf
      | false => rfl
    obtain ⟨q, hq⟩ := fillSlot_quit h info st.numPlugins (st.plugin st.numPlugins) hl
    exact ⟨q, by simp [registerEntry, hed, hne, hv, hq]⟩

/-- Witness of C3: the entry `noDebug.DLL` reached after one plugin was registered. -/
theorem entry_rejected_iff_name_shape_witness :
    (registerEntry demoHost { Name := "noDebug.DLL".toList, Data := [7, 8, 9] }
        { Registry.initial with numPlugins := 1 } = .failed .kGameInitErr_PluginNameInvalid ↔
      ("noDebug.DLL".toList.length ≤ 4 ∨
        "noDebug.DLL".toList.length > demoHost.PLUGIN_FILENAME_MAX + 4 ∨
        ("noDebug.DLL".toList.drop ("noDebug.DLL".toList.length - 4)).map Char.toLower ≠
          ['.', 'd', 'l', 'l'])) ∧
    ("noDebug.DLL".toList.take ("noDebug.DLL".toList.length - 4) = "noDebug".toList) :=
  ⟨(entry_rejected_iff_name_shape demoHost { Name := "noDebug.DLL".toList, Data := [7, 8, 9] }
      { Registry.initial with numPlugins := 1 } (by decide) (by decide) (by decide)).1,
    by decide⟩

/-- Counterexample to C3 as stated: the well-formed entry `ags_SnowRain20.dll` is not
registered under its name with the suffix removed, but as `ags_snowrain`; and the
well-formed entry `abcde.dll` is not registered at all when its module is of the old plugin
API: the function ends in `quitprintf`. -/
theorem snowrain_registered_under_other_name :
    editorOnly (entry "ags_SnowRain20.dll") = false ∧
    nameInvalid bareHost (entry "ags_SnowRain20.dll").Name = false ∧
    (∃ st1, pl_register_plugins bareHost [entry "ags_SnowRain20.dll"] Registry.initial =
        .ok (.kGameInitErr_NoError, st1) ∧
      (st1.plugin 0).filename = "ags_snowrain".toList ∧
      (st1.plugin 0).filename ≠ "ags_SnowRain20".toList) ∧
    nameInvalid oldModuleHost (entry "abcde.dll").Name = false ∧
    registerEntry oldModuleHost (entry "abcde.dll") Registry.initial =
      .quit .oldIncompatibleVersion := by
  refine ⟨by decide, by decide, ⟨_, rfl, ?_, ?_⟩, by decide, by decide⟩ <;> decide

/-! ## C4: names that collide -/

theorem stricmpEq_iff (a b : List Char) :
    stricmpEq a b = true ↔ a.map Char.toLower = b.map Char.toLower := by
  simp [stricmpEq]

theorem pluginFilename_stricmpEq (h : Host) (a b : List Char)
    (hab : stricmpEq (ClipRight a 4) (ClipRight b 4) = true) :
    stricmpEq (pluginFilename h a) (pluginFilename h b) = true := by
  rw [stricmpEq_iff] at hab
  have hcopied : (List.take h.PLUGIN_FILENAME_MAX (ClipRight a 4)).map Char.toLower =
      (List.take h.PLUGIN_FILENAME_MAX (ClipRight b 4)).map Char.toLower := by
    rw [List.map_take, List.map_take, hab]
  have hlen : name_ext.length = 4 := rfl
  unfold pluginFilename
  simp only [hlen]
  by_cases hs : stricmpEq (List.take h.PLUGIN_FILENAME_MAX (ClipRight a 4))
      "ags_SnowRain20".toList = true
  · have hs2 : stricmpEq (List.take h.PLUGIN_FILENAME_MAX (ClipRight b 4))
        "ags_SnowRain20".toList = true := by
      rw [stricmpEq_iff] at hs ⊢
      rw [← hcopied]
      exact hs
    rw [if_pos hs, if_pos hs2, stricmpEq_iff]
  · have hs2 : ¬ stricmpEq (List.take h.PLUGIN_FILENAME_MAX (ClipRight b 4))
        "ags_SnowRain20".toList = true := by
      rw [stricmpEq_iff] at hs ⊢
      rw [← hcopied]
      exact hs
    rw [if_neg hs, if_neg hs2, stricmpEq_iff]
    exact hcopied

/-- C4 (as amended): `pl_register_plugins` makes no check for colliding names. In a manifest
whose non-editor-only entries number at most `MAXPLUGINS`, are well-formed and load without
a fatal error, two entries (the `a`-th and the `b`-th non-editor-only ones) whose names are
equal case-insensitively after stripping ".dll" are both registered: the function returns
`kGameInitErr_NoError` and slots `a` and `b` both hold an available plugin, under file names
that are equal case-insensitively. -/
theorem register_accepts_colliding_names (h : Host) (infos : List PluginInfo) (st : Registry)
    (hsize : st.plugins.length = MAXPLUGINS)
    (hcount : (realEntries infos).length ≤ MAXPLUGINS)
    (hwf : ∀ i ∈ realEntries infos, nameInvalid h i.Name = false)
    (hload : ∀ i ∈ realEntries infos, loadsCleanly h i = true)
    (a b : Nat) (ea eb : PluginInfo) (hab : a < b)
    (ha : (realEntries infos)[a]? = some ea) (hb : (realEntries infos)[b]? = some eb)
    (hsame : stricmpEq (ClipRight ea.Name 4) (ClipRight eb.Name 4) = true) :
    ∃ st1, pl_register_plugins h infos st = .ok (.kGameInitErr_NoError, st1) ∧
      a < b ∧ b < st1.numPlugins ∧
      (st1.plugin a).available = true ∧ (st1.plugin b).available = true ∧
      (st1.plugin a).eiface.pluginId = a ∧ (st1.plugin b).eiface.pluginId = b ∧
      stricmpEq (st1.plugin a).filename (st1.plugin b).filename = true := by
  obtain ⟨st1, h1, h2, _, _, _, _, h7⟩ :=
    registerLoop_ok h infos { st with numPlugins := 0 } hsize (by simpa using hcount) hwf hload
  simp only [Nat.zero_add] at h2 h7
  have hsa := h7 a ea ha
  have hsb := h7 b eb hb
  have hblt : b < (realEntries infos).length := by
    by_contra hc
    rw [List.getElem?_eq_none (by omega)] at hb
    cases hb
  refine ⟨st1, h1, hab, by omega, hsa.2.2.2.2.2.2, hsb.2.2.2.2.2.2, hsa.2.1, hsb.2.1, ?_⟩
  rw [hsa.1, hsb.1]
  exact pluginFilename_stricmpEq h ea.Name eb.Name hsame

/-- Witness of C4: `agsblend.dll` and `AGSBlend.DLL` around an editor-only entry. -/
theorem register_accepts_colliding_names_witness :
    ∃ st1, pl_register_plugins demoHost
        [entry "agsblend.dll", entry "tool.dll!", entry "AGSBlend.DLL"] Registry.initial =
        .ok (.kGameInitErr_NoError, st1) ∧
      0 < 1 ∧ 1 < st1.numPlugins ∧
      (st1.plugin 0).available = true ∧ (st1.plugin 1).available = true ∧
      (st1.plugin 0).eiface.pluginId = 0 ∧ (st1.plugin 1).eiface.pluginId = 1 ∧
      stricmpEq (st1.plugin 0).filename (st1.plugin 1).filename = true :=
  register_accepts_colliding_names demoHost
    [entry "agsblend.dll", entry "tool.dll!", entry "AGSBlend.DLL"] Registry.initial
    (by decide) (by decide) (by decide) (by decide) 0 1 (entry "agsblend.dll")
    (entry "AGSBlend.DLL") (by decide) (by decide) (by decide) (by decide)

/-- Counterexample to C4 as stated: the manifest `abcde.dll`, `ABCDE.DLL` is accepted with
`kGameInitErr_NoError` and both entries registered, in slots 0 and 1. -/
theorem duplicate_names_both_registered :
    stricmpEq (ClipRight (entry "abcde.dll").Name 4) (ClipRight (entry "ABCDE.DLL").Name 4)
      = true ∧
    ∃ st1, pl_register_plugins bareHost [entry "abcde.dll", entry "ABCDE.DLL"]
        Registry.initial = .ok (.kGameInitErr_NoError, st1) ∧
      st1.numPlugins = 2 ∧
      (st1.plugin 0).filename = "abcde".toList ∧ (st1.plugin 0).available = true ∧
      (st1.plugin 1).filename = "ABCDE".toList ∧ (st1.plugin 1).available = true := by
  refine ⟨by decide, _, rfl, ?_, ?_, ?_, ?_, ?_⟩ <;> decide

/-! ## C5: editor-only entries -/

theorem registerLoop_realEntries (h : Host) : ∀ (infos : List PluginInfo) (st : Registry),
    registerLoop h (realEntries infos) st = registerLoop h infos st := by
  intro infos
  induction infos with
  | nil => intro st; rfl
  | cons info rest ih =>
    intro st
    cases hed : editorOnly info with
    | true =>
      rw [realEntries_cons_skip info rest hed, ih st]
      simp [registerLoop, registerEntry, hed]
    | false =>
      rw [realEntries_cons_keep info rest hed]
      simp only [registerLoop]
      cases registerEntry h info st with
      | skipped => exact ih st
      | failed e => rfl
      | registered st1 => exact ih st1
      | quit q => rfl

theorem not_editorOnly_eq (info : PluginInfo) :
    (!editorOnly info) = decide (info.Name.getLast? ≠ some '!') := by
  unfold editorOnly GetLast
  cases hl : info.Name.getLast? with
  | none =>
    have h0 : (Char.ofNat 0 == '!') = false := by decide
    simp [h0]
  | some c =>
    by_cases hc : c = '!'
    · simp [hc]
    · simp [hc]

/-- C5: editor-only entries are silently skipped. For every manifest and every registry,
`pl_register_plugins` has the same outcome (the same result code and the same registry, or
the same `quit`) as on the manifest from which every entry whose name ends in '!' has been
removed, wherever those entries stand and whatever else their names look like. -/
theorem editor_only_entries_are_skipped (h : Host) (infos : List PluginInfo) (st : Registry) :
    pl_register_plugins h infos st =
      pl_register_plugins h (infos.filter (fun i => decide (i.Name.getLast? ≠ some '!'))) st := by
  have hf : (infos.filter (fun i => decide (i.Name.getLast? ≠ some '!'))) = realEntries infos := by
    unfold realEntries
    congr 1
    funext i
    exact (not_editorOnly_eq i).symm
  rw [hf]
  exact (registerLoop_realEntries h infos _).symm

/-! ## Facts that hold in every reachable registry -/

theorem natDiff_eq_ldiff (m n : Nat) : natDiff m n = Nat.ldiff m n := by
  apply Nat.eq_of_testBit_eq
  intro i
  rw [Nat.testBit_ldiff]
  simp only [natDiff, Nat.testBit_xor, Nat.testBit_and]
  cases m.testBit i <;> cases n.testBit i <;> rfl

theorem bitAnd_eq_land (a b : Int) : bitAnd a b = Int.land a b := by
  cases a <;> cases b <;> simp [bitAnd, Int.land, natDiff_eq_ldiff]

theorem bitOr_eq_lor (a b : Int) : bitOr a b = Int.lor a b := by
  cases a <;> cases b <;> simp [bitOr, Int.lor, natDiff_eq_ldiff]

theorem testBit_bitAnd (a b : Int) (k : Nat) :
    Int.testBit (bitAnd a b) k = (Int.testBit a k && Int.testBit b k) := by
  rw [bitAnd_eq_land]
  exact Int.testBit_land a b k

theorem testBit_bitOr (a b : Int) (k : Nat) :
    Int.testBit (bitOr a b) k = (Int.testBit a k || Int.testBit b k) := by
  rw [bitOr_eq_lor]
  exact Int.testBit_lor a b k

theorem zero_land (x : Int) : bitAnd 0 x = 0 := by
  cases x with
  | ofNat n =>
    show Int.ofNat (0 &&& n) = 0
    simp
  | negSucc n =>
    show Int.ofNat (natDiff 0 n) = 0
    simp [natDiff]

theorem plugin_out (st : Registry) (i : Nat) (hi : st.plugins.length ≤ i) :
    st.plugin i = {} := by
  simp [Registry.plugin, List.getD_eq_getElem?_getD, List.getElem?_eq_none hi]

theorem fillSlot_ok_inv (h : Host) (info : PluginInfo) (slot : Nat) (old apl : EnginePlugin)
    (hf : fillSlot h info slot old = .ok apl) :
    Stored h info slot apl ∧ loadsCleanly h info = true := by
  cases hl : loadsCleanly h info with
  | true =>
    obtain ⟨apl1, h1, h2⟩ := fillSlot_ok h info slot old hl
    rw [h1] at hf
    injection hf with hf
    subst hf
    exact ⟨h2, rfl⟩
  | false =>
    obtain ⟨q, hq⟩ := fillSlot_quit h info slot old hl
    rw [hq] at hf
    cases hf

theorem registerLoop_wantHook (h : Host) :
    ∀ (infos : List PluginInfo) (st : Registry) (e : GameInitError) (st1 : Registry),
    (∀ i, i < st.numPlugins → (st.plugin i).wantHook = 0) →
    registerLoop h infos st = .ok (e, st1) →
    (∀ i, i < st1.numPlugins → (st1.plugin i).wantHook = 0) ∧
      st1.plugins.length = st.plugins.length := by
  intro infos
  induction infos with
  | nil =>
    intro st e st1 hz hr
    simp only [registerLoop, Outcome.ok.injEq, Prod.mk.injEq] at hr
    rw [← hr.2]
    exact ⟨hz, rfl⟩
  | cons info rest ih =>
    intro st e st1 hz hr
    simp only [registerLoop] at hr
    cases hre : registerEntry h info st with
    | skipped =>
      rw [hre] at hr
      exact ih st e st1 hz hr
    | failed e2 =>
      rw [hre] at hr
      simp only [Outcome.ok.injEq, Prod.mk.injEq] at hr
      rw [← hr.2]
      exact ⟨hz, rfl⟩
    | registered st2 =>
      rw [hre] at hr
      obtain ⟨_, _, _, apl, hfill, hst2⟩ := registerEntry_registered_inv h info st st2 hre
      have hapl := (fillSlot_ok_inv h info _ _ apl hfill).1
      have hz2 : ∀ i, i < st2.numPlugins → (st2.plugin i).wantHook = 0 := by
        intro i hi
        rw [hst2] at hi ⊢
        simp only at hi
        by_cases hin : i = st.numPlugins
        · subst hin
          by_cases hlen : st.numPlugins < st.plugins.length
          · have : ({ (st.setPlugin st.numPlugins apl) with
                numPlugins := st.numPlugins + 1 } : Registry).plugin st.numPlugins = apl :=
              plugin_setPlugin_self st _ apl hlen
            rw [this]
            exact hapl.2.2.2.2.2.1
          · have : ({ (st.setPlugin st.numPlugins apl) with
                numPlugins := st.numPlugins + 1 } : Registry).plugin st.numPlugins = {} :=
              plugin_out _ _ (by simp [Registry.setPlugin]; omega)
            rw [this]
        · have : ({ (st.setPlugin st.numPlugins apl) with
              numPlugins := st.numPlugins + 1 } : Registry).plugin i = st.plugin i :=
            plugin_setPlugin_ne st _ i apl (Ne.symm hin)
          rw [this]
          exact hz i (by omega)
      obtain ⟨h1, h2⟩ := ih st2 e st1 hz2 hr
      refine ⟨h1, ?_⟩
      rw [h2, hst2]
      simp [Registry.setPlugin]
    | quit q =>
      rw [hre] at hr
      cases hr

theorem register_wantHook (h : Host) (infos : List PluginInfo) (st : Registry)
    (e : GameInitError) (st1 : Registry)
    (hr : pl_register_plugins h infos st = .ok (e, st1)) :
    (∀ i, i < st1.numPlugins → (st1.plugin i).wantHook = 0) ∧
      st1.plugins.length = st.plugins.length ∧ st1.numPlugins ≤ MAXPLUGINS :=
  have h1 := registerLoop_wantHook h infos { st with numPlugins := 0 } e st1
    (fun i hi => absurd hi (Nat.not_lt_zero i)) hr
  ⟨h1.1, h1.2, registerLoop_numPlugins_le h infos _ e st1 (Nat.zero_le _) hr⟩

theorem request_ok_inv (h : Host) (p : Nat) (event : Int) (st st1 : Registry)
    (hr : RequestEventHook h p event st = .ok st1) :
    (st.plugin p).onEvent ≠ none ∧ st1.numPlugins = st.numPlugins ∧
    st1.plugins = st.plugins.set p
      { st.plugin p with wantHook := bitOr (st.plugin p).wantHook event } := by
  unfold RequestEventHook at hr
  by_cases h1 : event ≥ h.AGSE_TOOHIGH
  · rw [if_pos h1] at hr
    cases hr
  rw [if_neg h1] at hr
  by_cases h2 : (st.plugin p).onEvent = none
  · rw [if_pos h2] at hr
    cases hr
  rw [if_neg h2] at hr
  dsimp only at hr
  by_cases h3 : bitAnd event h.AGSE_AUDIODECODE ≠ 0
  · rw [if_pos h3] at hr
    cases hr
  rw [if_neg h3] at hr
  injection hr with hr
  subst hr
  refine ⟨h2, ?_, ?_⟩
  · split <;> rfl
  · split <;> rfl

theorem unrequest_ok_inv (h : Host) (p : Nat) (event : Int) (st st1 : Registry)
    (hr : UnrequestEventHook h p event st = .ok st1) :
    st1.numPlugins = st.numPlugins ∧
    st1.plugins = st.plugins.set p
      { st.plugin p with wantHook := bitAnd (st.plugin p).wantHook (Int.lnot event) } := by
  unfold UnrequestEventHook at hr
  by_cases h1 : event ≥ h.AGSE_TOOHIGH
  · rw [if_pos h1] at hr
    cases hr
  rw [if_neg h1] at hr
  dsimp only at hr
  injection hr with hr
  subst hr
  constructor
  · split <;> rfl
  · split <;> rfl

theorem plugin_of_set (st st1 : Registry) (p : Nat) (x : EnginePlugin)
    (hp : st1.plugins = st.plugins.set p x) (i : Nat) :
    st1.plugin i = if i = p ∧ p < st.plugins.length then x else st.plugin i := by
  have e1 : st1.plugin i = (st.setPlugin p x).plugin i := by
    simp [Registry.plugin, Registry.setPlugin, hp]
  rw [e1]
  by_cases hip : i = p
  · subst hip
    by_cases hlen : i < st.plugins.length
    · simp [hlen, plugin_setPlugin_self st i x hlen]
    · simp [hlen, plugin_setPlugin_out st i i x (by omega)]
  · simp [hip, plugin_setPlugin_ne st p i x (Ne.symm hip)]

theorem stop_numPlugins (st : Registry) : (pl_stop_plugins st).numPlugins = 0 := rfl

/-- In every reachable registry a registered plugin with a non-zero `wantHook` mask has an
`onEvent` callback. -/
theorem reachable_hooks_backed (h : Host) (st : Registry) (hr : Reachable h st) :
    ∀ i, i < st.numPlugins → (st.plugin i).wantHook ≠ 0 → (st.plugin i).onEvent ≠ none := by
  induction hr with
  | initial =>
    intro i hi
    exact absurd hi (Nat.not_lt_zero i)
  | register st infos e st1 _ hreg _ =>
    intro i hi hw
    exact absurd ((register_wantHook h infos st e st1 hreg).1 i hi) hw
  | request st p event st1 _ _ hreq ih =>
    obtain ⟨hon, hn, hp⟩ := request_ok_inv h p event st st1 hreq
    intro i hi hw
    rw [plugin_of_set st st1 p _ hp i] at hw ⊢
    split
    · exact hon
    · rename_i hc
      rw [if_neg hc] at hw
      exact ih i (by omega) hw
  | unrequest st p event st1 _ _ hreq ih =>
    obtain ⟨hn, hp⟩ := unrequest_ok_inv h p event st st1 hreq
    intro i hi hw
    rw [plugin_of_set st st1 p _ hp i] at hw ⊢
    split
    · rename_i hc
      rw [if_pos hc] at hw
      simp only at hw ⊢
      rw [← hc.1]
      apply ih i (by omega)
      intro hz
      rw [← hc.1] at hw
      rw [hz, zero_land] at hw
      exact hw rfl
    · rename_i hc
      rw [if_neg hc] at hw
      exact ih i (by omega) hw
  | stop st _ _ =>
    intro i hi
    rw [stop_numPlugins] at hi
    exact absurd hi (Nat.not_lt_zero i)

/-! ## C6: dispatch -/

theorem runHooksLoop_spec (onEventFn : Nat → Int → Int → Int) (st : Registry)
    (event data : Int) :
    ∀ (count i : Nat),
    (∀ j, i ≤ j → j < i + count → wantsEvent st event j = true →
      (st.plugin j).onEvent ≠ none) →
    ∃ retval invoked, runHooksLoop onEventFn st event data count i = some (retval, invoked) ∧
      invoked.Pairwise (· < ·) ∧
      (∀ j ∈ invoked, i ≤ j ∧ j < i + count ∧ wantsEvent st event j = true) ∧
      (retval ≠ 0 → ∃ k ∈ invoked, onEventResult onEventFn st event data k = retval ∧
        (∀ j ∈ invoked, j ≤ k) ∧
        (∀ j ∈ invoked, j ≠ k → onEventResult onEventFn st event data j = 0) ∧
        (∀ j, i ≤ j → j < k → wantsEvent st event j = true → j ∈ invoked)) ∧
      (retval = 0 → (∀ j ∈ invoked, onEventResult onEventFn st event data j = 0) ∧
        (∀ j, i ≤ j → j < i + count → wantsEvent st event j = true → j ∈ invoked)) := by
  intro count
  induction count with
  | zero =>
    intro i _
    refine ⟨0, [], rfl, List.Pairwise.nil, ?_, ?_, ?_⟩
    · intro j hj
      cases hj
    · intro hne
      exact absurd rfl hne
    · intro _
      refine ⟨fun j hj => (by cases hj), ?_⟩
      intro j h1 h2
      omega
  | succ count ih =>
    intro i hback
    obtain ⟨r, inv, hrun, hsorted, hmem, hnz, hz⟩ := ih (i + 1) (by
      intro j h1 h2 h3
      exact hback j (by omega) (by omega) h3)
    by_cases hw : bitAnd (st.plugin i).wantHook event ≠ 0
    · have hwi : wantsEvent st event i = true := by simp [wantsEvent, hw]
      have hon := hback i (le_refl _) (by omega) hwi
      obtain ⟨f, hf⟩ := Option.ne_none_iff_exists'.mp hon
      have hres : onEventResult onEventFn st event data i = onEventFn f event data := by
        simp [onEventResult, hf]
      by_cases hret : onEventFn f event data ≠ 0
      · refine ⟨onEventFn f event data, [i], ?_, List.pairwise_singleton _ _, ?_, ?_, ?_⟩
        · simp [runHooksLoop, hw, hf, hret]
        · intro j hj
          rw [List.mem_singleton] at hj
          subst hj
          exact ⟨le_refl _, by omega, hwi⟩
        · intro _
          refine ⟨i, List.mem_singleton_self i, hres, ?_, ?_, ?_⟩
          · intro j hj
            rw [List.mem_singleton] at hj
            omega
          · intro j hj hne
            rw [List.mem_singleton] at hj
            exact absurd hj hne
          · intro j h1 h2
            omega
        · intro h0
          exact absurd h0 hret
      · have hret0 : onEventFn f event data = 0 := not_not.mp hret
        refine ⟨r, i :: inv, ?_, ?_, ?_, ?_, ?_⟩
        · simp [runHooksLoop, hw, hf, hret0, hrun]
        · rw [List.pairwise_cons]
          exact ⟨fun j hj => Nat.lt_of_succ_le (hmem j hj).1, hsorted⟩
        · intro j hj
          rw [List.mem_cons] at hj
          rcases hj with hj | hj
          · subst hj
            exact ⟨le_refl _, by omega, hwi⟩
          · obtain ⟨h1, h2, h3⟩ := hmem j hj
            exact ⟨by omega, by omega, h3⟩
        · intro hr
          obtain ⟨k, hk, hkres, hlast, hothers, hcover⟩ := hnz hr
          have hik : i < k := by have := (hmem k hk).1; omega
          refine ⟨k, List.mem_cons_of_mem _ hk, hkres, ?_, ?_, ?_⟩
          · intro j hj
            rw [List.mem_cons] at hj
            rcases hj with hj | hj
            · omega
            · exact hlast j hj
          · intro j hj hne
            rw [List.mem_cons] at hj
            rcases hj with hj | hj
            · subst hj
              rw [hres, hret0]
            · exact hothers j hj hne
          · intro j h1 h2 h3
            by_cases hji : j = i
            · subst hji
              exact List.mem_cons_self _ _
            · exact List.mem_cons_of_mem _ (hcover j (by omega) h2 h3)
        · intro hr
          obtain ⟨hall, hcover⟩ := hz hr
          constructor
          · intro j hj
            rw [List.mem_cons] at hj
            rcases hj with hj | hj
            · subst hj
              rw [hres, hret0]
            · exact hall j hj
          · intro j h1 h2 h3
            by_cases hji : j = i
            · subst hji
              exact List.mem_cons_self _ _
            · exact List.mem_cons_of_mem _ (hcover j (by omega) (by omega) h3)
    · have hwi : wantsEvent st event i = false := by simp [wantsEvent, hw]
      refine ⟨r, inv, ?_, hsorted, ?_, ?_, ?_⟩
      · simp [runHooksLoop, hw, hrun]
      · intro j hj
        obtain ⟨h1, h2, h3⟩ := hmem j hj
        exact ⟨by omega, by omega, h3⟩
      · intro hr
        obtain ⟨k, hk, hkres, hlast, hothers, hcover⟩ := hnz hr
        refine ⟨k, hk, hkres, hlast, hothers, ?_⟩
        intro j h1 h2 h3
        by_cases hji : j = i
        · subst hji
          rw [hwi] at h3
          cases h3
        · exact hcover j (by omega) h2 h3
      · intro hr
        obtain ⟨hall, hcover⟩ := hz hr
        refine ⟨hall, ?_⟩
        intro j h1 h2 h3
        by_cases hji : j = i
        · subst hji
          rw [hwi] at h3
          cases h3
        · exact hcover j (by omega) (by omega) h3

theorem wantsEvent_wantHook_ne (st : Registry) (event : Int) (j : Nat)
    (hw : wantsEvent st event j = true) : (st.plugin j).wantHook ≠ 0 := by
  intro hz
  simp [wantsEvent, hz, zero_land] at hw

/-- C6: dispatch is a short-circuiting broadcast in slot order. In every reachable registry
`pl_run_plugin_hooks(event, data)` returns, and the slots whose `onEvent` it called are in
increasing order, all registered, with a mask overlapping `event` and a non-null `onEvent`.
A non-zero return value is the result of the last slot called, every slot called before it
returned 0, every subscribed slot before it was called, and no later slot was called. The
return value is 0 exactly when every called handler returned 0, and then every subscribed
slot was called; when no registered plugin is subscribed nothing is called and 0 returned. -/
theorem dispatch_short_circuits (h : Host) (onEventFn : Nat → Int → Int → Int)
    (st : Registry) (hr : Reachable h st) (event data : Int) :
    ∃ retval invoked, pl_run_plugin_hooks onEventFn st event data = some (retval, invoked) ∧
      invoked.Pairwise (· < ·) ∧
      (∀ j ∈ invoked, j < st.numPlugins ∧ wantsEvent st event j = true ∧
        (st.plugin j).onEvent ≠ none) ∧
      (retval ≠ 0 → ∃ k ∈ invoked, onEventResult onEventFn st event data k = retval ∧
        (∀ j ∈ invoked, j ≤ k) ∧
        (∀ j ∈ invoked, j ≠ k → onEventResult onEventFn st event data j = 0) ∧
        (∀ j, j < k → wantsEvent st event j = true → j ∈ invoked)) ∧
      (retval = 0 ↔ ∀ j ∈ invoked, onEventResult onEventFn st event data j = 0) ∧
      (retval = 0 → ∀ j, j < st.numPlugins → wantsEvent st event j = true → j ∈ invoked) ∧
      ((∀ j, j < st.numPlugins → wantsEvent st event j = false) →
        retval = 0 ∧ invoked = []) := by
  have hback := reachable_hooks_backed h st hr
  obtain ⟨r, inv, hrun, hsorted, hmem, hnz, hz⟩ :=
    runHooksLoop_spec onEventFn st event data st.numPlugins 0 (by
      intro j _ h2 h3
      exact hback j (by omega) (wantsEvent_wantHook_ne st event j h3))
  have hmem2 : ∀ j ∈ inv, j < st.numPlugins ∧ wantsEvent st event j = true ∧
      (st.plugin j).onEvent ≠ none := by
    intro j hj
    obtain ⟨_, h2, h3⟩ := hmem j hj
    exact ⟨by omega, h3, hback j (by omega) (wantsEvent_wantHook_ne st event j h3)⟩
  have hnz2 : r ≠ 0 → ∃ k ∈ inv, onEventResult onEventFn st event data k = r ∧
      (∀ j ∈ inv, j ≤ k) ∧
      (∀ j ∈ inv, j ≠ k → onEventResult onEventFn st event data j = 0) ∧
      (∀ j, j < k → wantsEvent st event j = true → j ∈ inv) := by
    intro hne
    obtain ⟨k, hk, h1, h2, h3, h4⟩ := hnz hne
    exact ⟨k, hk, h1, h2, h3, fun j hj hw => h4 j (Nat.zero_le _) hj hw⟩
  refine ⟨r, inv, hrun, hsorted, hmem2, hnz2, ?_, ?_, ?_⟩
  · constructor
    · intro h0
      exact (hz h0).1
    · intro hall
      by_contra hne
      obtain ⟨k, hk, h1, _⟩ := hnz2 hne
      exact hne (h1 ▸ hall k hk)
  · intro h0 j hj hw
    exact (hz h0).2 j (Nat.zero_le _) (by omega) hw
  · intro hnone
    have hnil : inv = [] := by
      apply List.eq_nil_iff_forall_not_mem.mpr
      intro j hj
      obtain ⟨h1, h2, _⟩ := hmem2 j hj
      rw [hnone j h1] at h2
      cases h2
    refine ⟨?_, hnil⟩
    by_contra hne
    obtain ⟨k, hk, _⟩ := hnz2 hne
    rw [hnil] at hk
    cases hk

theorem threeRegistered_reachable : Reachable demoHost threeRegistered :=
  Reachable.register Registry.initial
    [entry "agsblend.dll", entry "ags_SnowRain20.dll", entry "noDebug.dll"]
    .kGameInitErr_NoError threeRegistered Reachable.initial (by decide)

theorem threeSubscribed_reachable : Reachable demoHost threeSubscribed := by
  have r1 : Reachable demoHost (subscribed demoHost 0 1 threeRegistered) :=
    Reachable.request threeRegistered 0 1 _ threeRegistered_reachable (by decide) (by decide)
  have r2 : Reachable demoHost (subscribed demoHost 1 1 (subscribed demoHost 0 1 threeRegistered)) :=
    Reachable.request _ 1 1 _ r1 (by decide) (by decide)
  exact Reachable.request _ 2 1 _ r2 (by decide) (by decide)

/-- Witness of C6: three plugins subscribed to event 1, the second answers 7: the third is
not called and 7 is returned. -/
theorem dispatch_short_circuits_witness :
    pl_run_plugin_hooks demoOnEvent threeSubscribed 1 0 = some (7, [0, 1]) ∧
    ∃ retval invoked,
      pl_run_plugin_hooks demoOnEvent threeSubscribed 1 0 = some (retval, invoked) ∧
      invoked.Pairwise (· < ·) ∧
      (retval = 0 ↔ ∀ j ∈ invoked, onEventResult demoOnEvent threeSubscribed 1 0 j = 0) := by
  refine ⟨by decide, ?_⟩
  obtain ⟨r, inv, h1, h2, _, _, h5, _⟩ :=
    dispatch_short_circuits demoHost demoOnEvent threeSubscribed threeSubscribed_reachable 1 0
  exact ⟨r, inv, h1, h2, h5⟩

/-! ## C7: debug dispatch -/

theorem plugin_debugAsOnEvent (st : Registry) (j : Nat) :
    (debugAsOnEvent st).plugin j = { st.plugin j with onEvent := (st.plugin j).debugHook } := by
  simp only [Registry.plugin, debugAsOnEvent, List.getD_eq_getElem?_getD, List.getElem?_map]
  cases st.plugins[j]? <;> rfl

theorem runDebugHooksLoop_eq (h : Host) (debugHookFn : Nat → List Char → Int → Int → Int)
    (st : Registry) (scriptfile : List Char) (linenum data : Int) :
    ∀ (count i : Nat),
    runDebugHooksLoop h debugHookFn st scriptfile linenum count i =
      runHooksLoop (fun f _ _ => debugHookFn f scriptfile linenum 0) (debugAsOnEvent st)
        h.AGSE_SCRIPTDEBUG data count i := by
  intro count
  induction count with
  | zero => intro i; rfl
  | succ count ih =>
    intro i
    simp only [runDebugHooksLoop, runHooksLoop, plugin_debugAsOnEvent, ih]

/-- C7: `pl_run_plugin_debug_hooks(scriptfile, linenum)` is the generic dispatch for the
event `AGSE_SCRIPTDEBUG` with `debugHook` in the place of `onEvent`: it has the outcome of
`pl_run_plugin_hooks` on the registry whose `onEvent` pointers are the `debugHook` pointers,
with callbacks that call `debugHook(scriptfile, linenum, 0)`. When every registered plugin
whose mask contains `AGSE_SCRIPTDEBUG` has a debug hook, it returns, the slots called are in
increasing order and all have the bit in their mask, a non-zero return value is the result
of the last slot called with every earlier subscribed slot called and answering 0, and the
return value is 0 exactly when every called hook returned 0, all subscribed slots having
been called. -/
theorem debug_dispatch_is_generic_dispatch (h : Host)
    (debugHookFn : Nat → List Char → Int → Int → Int) (st : Registry)
    (scriptfile : List Char) (linenum : Int) :
    (∀ data, pl_run_plugin_debug_hooks h debugHookFn st scriptfile linenum =
      pl_run_plugin_hooks (fun f _ _ => debugHookFn f scriptfile linenum 0) (debugAsOnEvent st)
        h.AGSE_SCRIPTDEBUG data) ∧
    ((∀ j, j < st.numPlugins → wantsEvent st h.AGSE_SCRIPTDEBUG j = true →
        (st.plugin j).debugHook ≠ none) →
      ∃ retval invoked,
        pl_run_plugin_debug_hooks h debugHookFn st scriptfile linenum = some (retval, invoked) ∧
        invoked.Pairwise (· < ·) ∧
        (∀ j ∈ invoked, j < st.numPlugins ∧ wantsEvent st h.AGSE_SCRIPTDEBUG j = true) ∧
        (retval ≠ 0 → ∃ k ∈ invoked,
          debugHookResult debugHookFn st scriptfile linenum k = retval ∧
          (∀ j ∈ invoked, j ≤ k) ∧
          (∀ j ∈ invoked, j ≠ k → debugHookResult debugHookFn st scriptfile linenum j = 0) ∧
          (∀ j, j < k → wantsEvent st h.AGSE_SCRIPTDEBUG j = true → j ∈ invoked)) ∧
        (retval = 0 ↔ ∀ j ∈ invoked, debugHookResult debugHookFn st scriptfile linenum j = 0) ∧
        (retval = 0 → ∀ j, j < st.numPlugins → wantsEvent st h.AGSE_SCRIPTDEBUG j = true →
          j ∈ invoked)) := by
  have heq : ∀ data, pl_run_plugin_debug_hooks h debugHookFn st scriptfile linenum =
      pl_run_plugin_hooks (fun f _ _ => debugHookFn f scriptfile linenum 0) (debugAsOnEvent st)
        h.AGSE_SCRIPTDEBUG data := by
    intro data
    exact runDebugHooksLoop_eq h debugHookFn st scriptfile linenum data st.numPlugins 0
  refine ⟨heq, ?_⟩
  intro hback
  have hwants : ∀ j, wantsEvent (debugAsOnEvent st) h.AGSE_SCRIPTDEBUG j =
      wantsEvent st h.AGSE_SCRIPTDEBUG j := by
    intro j
    simp [wantsEvent, plugin_debugAsOnEvent]
  have hres : ∀ j, onEventResult (fun f _ _ => debugHookFn f scriptfile linenum 0)
      (debugAsOnEvent st) h.AGSE_SCRIPTDEBUG 0 j =
      debugHookResult debugHookFn st scriptfile linenum j := by
    intro j
    simp [onEventResult, debugHookResult, plugin_debugAsOnEvent]
  obtain ⟨r, inv, hrun, hsorted, hmem, hnz, hz⟩ :=
    runHooksLoop_spec (fun f _ _ => debugHookFn f scriptfile linenum 0) (debugAsOnEvent st)
      h.AGSE_SCRIPTDEBUG 0 st.numPlugins 0 (by
        intro j _ h2 h3
        rw [hwants] at h3
        rw [plugin_debugAsOnEvent]
        exact hback j (by omega) h3)
  simp only [hwants, hres] at hmem hnz hz
  have hnz2 : r ≠ 0 → ∃ k ∈ inv, debugHookResult debugHookFn st scriptfile linenum k = r ∧
      (∀ j ∈ inv, j ≤ k) ∧
      (∀ j ∈ inv, j ≠ k → debugHookResult debugHookFn st scriptfile linenum j = 0) ∧
      (∀ j, j < k → wantsEvent st h.AGSE_SCRIPTDEBUG j = true → j ∈ inv) := by
    intro hne
    obtain ⟨k, hk, h1, h2, h3, h4⟩ := hnz hne
    exact ⟨k, hk, h1, h2, h3, fun j hj hw => h4 j (Nat.zero_le _) hj hw⟩
  refine ⟨r, inv, ?_, hsorted, ?_, hnz2, ?_, ?_⟩
  · rw [heq 0]
    exact hrun
  · intro j hj
    obtain ⟨_, h2, h3⟩ := hmem j hj
    exact ⟨by omega, h3⟩
  · constructor
    · intro h0
      exact (hz h0).1
    · intro hall
      by_contra hne
      obtain ⟨k, hk, h1, _⟩ := hnz2 hne
      exact hne (h1 ▸ hall k hk)
  · intro h0 j hj hw
    exact (hz h0).2 j (Nat.zero_le _) (by omega) hw

/-- Witness of C7: one plugin with a debug hook, subscribed to the script-debug event. -/
theorem debug_dispatch_is_generic_dispatch_witness :
    pl_run_plugin_debug_hooks demoHost demoDebugHook
      (subscribed demoHost 0 0x2000 (registered demoHost [entry "ags_snowrain.dll"]))
      "room1.asc".toList 12 = some (4, [0]) ∧
    ∃ retval invoked,
      pl_run_plugin_debug_hooks demoHost demoDebugHook
        (subscribed demoHost 0 0x2000 (registered demoHost [entry "ags_snowrain.dll"]))
        "room1.asc".toList 12 = some (retval, invoked) ∧
      invoked.Pairwise (· < ·) := by
  refine ⟨by decide, ?_⟩
  obtain ⟨r, inv, h1, h2, _⟩ :=
    (debug_dispatch_is_generic_dispatch demoHost demoDebugHook
      (subscribed demoHost 0 0x2000 (registered demoHost [entry "ags_snowrain.dll"]))
      "room1.asc".toList 12).2 (by decide)
  exact ⟨r, inv, h1, h2⟩

/-! ## C8: the debug-interest counter within a session -/

theorem nat_and_two_pow_ne_zero (m k : Nat) : m &&& 2 ^ k ≠ 0 ↔ m.testBit k = true := by
  constructor
  · intro hne
    by_contra hb
    apply hne
    apply Nat.eq_of_testBit_eq
    intro i
    rw [Nat.testBit_and, Nat.testBit_two_pow, Nat.zero_testBit]
    by_cases hki : k = i
    · subst hki
      simp [hb]
    · simp [hki]
  · intro hb hz
    have := Nat.testBit_and m (2 ^ k) k
    rw [hz, Nat.zero_testBit, hb, Nat.testBit_two_pow_self] at this
    cases this

theorem nat_ldiff_two_pow_ne_zero (m k : Nat) :
    Nat.ldiff (2 ^ k) m ≠ 0 ↔ m.testBit k = false := by
  constructor
  · intro hne
    by_contra hb
    apply hne
    apply Nat.eq_of_testBit_eq
    intro i
    rw [Nat.testBit_ldiff, Nat.testBit_two_pow, Nat.zero_testBit]
    by_cases hki : k = i
    · subst hki
      simp at hb
      simp [hb]
    · simp [hki]
  · intro hb hz
    have := Nat.testBit_ldiff (2 ^ k) m k
    rw [hz, Nat.zero_testBit, hb, Nat.testBit_two_pow_self] at this
    cases this

theorem land_two_pow_ne_zero (x : Int) (k : Nat) :
    bitAnd x (2 ^ k) ≠ 0 ↔ Int.testBit x k = true := by
  rw [bitAnd_eq_land]
  have h2 : (2 : Int) ^ k = ((2 ^ k : Nat) : Int) := by norm_cast
  rw [h2]
  cases x with
  | ofNat m =>
    show ((m &&& 2 ^ k : Nat) : Int) ≠ 0 ↔ m.testBit k = true
    rw [← nat_and_two_pow_ne_zero m k]
    exact Iff.not Int.natCast_eq_zero
  | negSucc m =>
    show ((Nat.ldiff (2 ^ k) m : Nat) : Int) ≠ 0 ↔ (!m.testBit k) = true
    rw [Bool.not_eq_true', ← nat_ldiff_two_pow_ne_zero m k]
    exact Iff.not Int.natCast_eq_zero

theorem wantsEvent_eq_testBit (h : Host) (k : Nat) (hSD : h.AGSE_SCRIPTDEBUG = 2 ^ k)
    (st : Registry) (i : Nat) :
    wantsEvent st h.AGSE_SCRIPTDEBUG i = Int.testBit (st.plugin i).wantHook k := by
  rw [Bool.eq_iff_iff, ← land_two_pow_ne_zero, ← hSD]
  simp [wantsEvent]

theorem countUpTo_congr (f g : Nat → Bool) :
    ∀ n, (∀ i, i < n → g i = f i) → countUpTo g n = countUpTo f n := by
  intro n
  induction n with
  | zero => intro _; rfl
  | succ n ih =>
    intro hfg
    simp only [countUpTo]
    rw [ih (fun i hi => hfg i (by omega)), hfg n (by omega)]

theorem countUpTo_update (f g : Nat → Bool) (p : Nat) (hfg : ∀ i, i ≠ p → g i = f i) :
    ∀ n, p < n →
    countUpTo g n + (if f p then 1 else 0) = countUpTo f n + (if g p then 1 else 0) := by
  intro n
  induction n with
  | zero => intro hp; omega
  | succ n ih =>
    intro hp
    simp only [countUpTo]
    by_cases hpn : p = n
    · subst hpn
      rw [countUpTo_congr f g p (fun i hi => hfg i (by omega))]
      omega
    · have := ih (by omega)
      rw [hfg n (fun hc => hpn hc.symm)]
      omega

theorem request_ok_counter (h : Host) (p : Nat) (event : Int) (st st1 : Registry)
    (hr : RequestEventHook h p event st = .ok st1) :
    st1.pluginsWantingDebugHooks =
      (if bitAnd event h.AGSE_SCRIPTDEBUG ≠ 0 ∧
          bitAnd (st.plugin p).wantHook h.AGSE_SCRIPTDEBUG = 0
        then st.pluginsWantingDebugHooks + 1 else st.pluginsWantingDebugHooks) ∧
    st1.ccDebugHook =
      (if bitAnd event h.AGSE_SCRIPTDEBUG ≠ 0 ∧
          bitAnd (st.plugin p).wantHook h.AGSE_SCRIPTDEBUG = 0
        then true else st.ccDebugHook) := by
  unfold RequestEventHook at hr
  by_cases h1 : event ≥ h.AGSE_TOOHIGH
  · rw [if_pos h1] at hr
    cases hr
  rw [if_neg h1] at hr
  by_cases h2 : (st.plugin p).onEvent = none
  · rw [if_pos h2] at hr
    cases hr
  rw [if_neg h2] at hr
  dsimp only at hr
  by_cases h3 : bitAnd event h.AGSE_AUDIODECODE ≠ 0
  · rw [if_pos h3] at hr
    cases hr
  rw [if_neg h3] at hr
  injection hr with hr
  subst hr
  constructor
  · split <;> rfl
  · split <;> rfl

theorem unrequest_ok_counter (h : Host) (p : Nat) (event : Int) (st st1 : Registry)
    (hr : UnrequestEventHook h p event st = .ok st1) :
    st1.pluginsWantingDebugHooks =
      (if bitAnd event h.AGSE_SCRIPTDEBUG ≠ 0 ∧
          bitAnd (st.plugin p).wantHook h.AGSE_SCRIPTDEBUG ≠ 0
        then st.pluginsWantingDebugHooks - 1 else st.pluginsWantingDebugHooks) ∧
    st1.ccDebugHook =
      (if bitAnd event h.AGSE_SCRIPTDEBUG ≠ 0 ∧
          bitAnd (st.plugin p).wantHook h.AGSE_SCRIPTDEBUG ≠ 0
        then (if st.pluginsWantingDebugHooks - 1 < 1 then false else st.ccDebugHook)
        else st.ccDebugHook) := by
  unfold UnrequestEventHook at hr
  by_cases h1 : event ≥ h.AGSE_TOOHIGH
  · rw [if_pos h1] at hr
    cases hr
  rw [if_neg h1] at hr
  dsimp only at hr
  injection hr with hr
  subst hr
  constructor
  · split <;> rfl
  · split <;> rfl

theorem request_keeps_debugInv (h : Host) (k : Nat) (hSD : h.AGSE_SCRIPTDEBUG = 2 ^ k)
    (p : Nat) (event : Int) (st st1 : Registry) (hp : p < st.numPlugins)
    (hinv : DebugInv h st) (hr : RequestEventHook h p event st = .ok st1) :
    DebugInv h st1 ∧ st1.numPlugins = st.numPlugins := by
  obtain ⟨hlen, hcount, htrap⟩ := hinv
  obtain ⟨_, hn, hset⟩ := request_ok_inv h p event st st1 hr
  obtain ⟨hc1, ht1⟩ := request_ok_counter h p event st st1 hr
  have hplen : p < st.plugins.length := by omega
  have hother : ∀ i, i ≠ p → wantsEvent st1 h.AGSE_SCRIPTDEBUG i =
      wantsEvent st h.AGSE_SCRIPTDEBUG i := by
    intro i hi
    simp [wantsEvent, plugin_of_set st st1 p _ hset i, hi]
  have hself : wantsEvent st1 h.AGSE_SCRIPTDEBUG p =
      (wantsEvent st h.AGSE_SCRIPTDEBUG p || Int.testBit event k) := by
    rw [wantsEvent_eq_testBit h k hSD, wantsEvent_eq_testBit h k hSD,
      plugin_of_set st st1 p _ hset p, if_pos ⟨rfl, hplen⟩]
    exact testBit_bitOr _ _ _
  have hupd := countUpTo_update (wantsEvent st h.AGSE_SCRIPTDEBUG)
    (wantsEvent st1 h.AGSE_SCRIPTDEBUG) p hother st.numPlugins hp
  have hev : bitAnd event h.AGSE_SCRIPTDEBUG ≠ 0 ↔ Int.testBit event k = true := by
    rw [hSD]
    exact land_two_pow_ne_zero event k
  have hw : bitAnd (st.plugin p).wantHook h.AGSE_SCRIPTDEBUG = 0 ↔
      wantsEvent st h.AGSE_SCRIPTDEBUG p = false := by
    simp [wantsEvent]
  simp only [hev, hw] at hc1 ht1
  refine ⟨⟨?_, ?_, ?_⟩, hn⟩
  · rw [hn, hset, List.length_set]
    exact hlen
  · unfold debugSubscribers at hcount ⊢
    rw [hn, hc1]
    rw [hself] at hupd
    cases hE : Int.testBit event k <;> cases hF : wantsEvent st h.AGSE_SCRIPTDEBUG p <;>
      simp [hE, hF] at hupd ⊢ <;> omega
  · unfold debugSubscribers at hcount
    rw [hc1, ht1]
    cases hE : Int.testBit event k <;> cases hF : wantsEvent st h.AGSE_SCRIPTDEBUG p <;>
      simp [hE, hF] <;> first | exact htrap | omega

theorem unrequest_keeps_debugInv (h : Host) (k : Nat) (hSD : h.AGSE_SCRIPTDEBUG = 2 ^ k)
    (p : Nat) (event : Int) (st st1 : Registry) (hp : p < st.numPlugins)
    (hinv : DebugInv h st) (hr : UnrequestEventHook h p event st = .ok st1) :
    DebugInv h st1 ∧ st1.numPlugins = st.numPlugins := by
  obtain ⟨hlen, hcount, htrap⟩ := hinv
  obtain ⟨hn, hset⟩ := unrequest_ok_inv h p event st st1 hr
  obtain ⟨hc1, ht1⟩ := unrequest_ok_counter h p event st st1 hr
  have hplen : p < st.plugins.length := by omega
  have hother : ∀ i, i ≠ p → wantsEvent st1 h.AGSE_SCRIPTDEBUG i =
      wantsEvent st h.AGSE_SCRIPTDEBUG i := by
    intro i hi
    simp [wantsEvent, plugin_of_set st st1 p _ hset i, hi]
  have hself : wantsEvent st1 h.AGSE_SCRIPTDEBUG p =
      (wantsEvent st h.AGSE_SCRIPTDEBUG p && !Int.testBit event k) := by
    rw [wantsEvent_eq_testBit h k hSD, wantsEvent_eq_testBit h k hSD,
      plugin_of_set st st1 p _ hset p, if_pos ⟨rfl, hplen⟩]
    show Int.testBit (bitAnd (st.plugin p).wantHook (Int.lnot event)) k = _
    rw [testBit_bitAnd, Int.testBit_lnot]
  have hupd := countUpTo_update (wantsEvent st h.AGSE_SCRIPTDEBUG)
    (wantsEvent st1 h.AGSE_SCRIPTDEBUG) p hother st.numPlugins hp
  have hev : bitAnd event h.AGSE_SCRIPTDEBUG ≠ 0 ↔ Int.testBit event k = true := by
    rw [hSD]
    exact land_two_pow_ne_zero event k
  have hw : bitAnd (st.plugin p).wantHook h.AGSE_SCRIPTDEBUG ≠ 0 ↔
      wantsEvent st h.AGSE_SCRIPTDEBUG p = true := by
    simp [wantsEvent]
  simp only [hev, hw] at hc1 ht1
  refine ⟨⟨?_, ?_, ?_⟩, hn⟩
  · rw [hn, hset, List.length_set]
    exact hlen
  · unfold debugSubscribers at hcount ⊢
    rw [hn, hc1]
    rw [hself] at hupd
    cases hE : Int.testBit event k <;> cases hF : wantsEvent st h.AGSE_SCRIPTDEBUG p <;>
      simp [hE, hF] at hupd ⊢ <;> omega
  · unfold debugSubscribers at hcount
    rw [hc1, ht1]
    cases hE : Int.testBit event k <;> cases hF : wantsEvent st h.AGSE_SCRIPTDEBUG p <;>
      simp [hE, hF] <;> first | exact htrap | skip
    rw [htrap]
    omega

theorem applyCalls_keeps_debugInv (h : Host) (k : Nat) (hSD : h.AGSE_SCRIPTDEBUG = 2 ^ k) :
    ∀ (calls : List HookCall) (st st1 : Registry), DebugInv h st →
    (∀ c ∈ calls, c.caller < st.numPlugins) → applyCalls h calls st = .ok st1 →
    DebugInv h st1 ∧ st1.numPlugins = st.numPlugins := by
  intro calls
  induction calls with
  | nil =>
    intro st st1 hinv _ hr
    simp only [applyCalls, Outcome.ok.injEq] at hr
    subst hr
    exact ⟨hinv, rfl⟩
  | cons c cs ih =>
    intro st st1 hinv hcallers hr
    simp only [applyCalls] at hr
    cases hc : applyCall h c st with
    | quit q =>
      rw [hc] at hr
      cases hr
    | ok st2 =>
      rw [hc] at hr
      have hp := hcallers c (List.mem_cons_self _ _)
      have hstep : DebugInv h st2 ∧ st2.numPlugins = st.numPlugins := by
        cases c with
        | request p e => exact request_keeps_debugInv h k hSD p e st st2 hp hinv hc
        | unrequest p e => exact unrequest_keeps_debugInv h k hSD p e st st2 hp hinv hc
      obtain ⟨h1, h2⟩ := ih st2 st1 hstep.1
        (fun c2 hc2 => by rw [hstep.2]; exact hcallers c2 (List.mem_cons_of_mem _ hc2)) hr
      exact ⟨h1, by rw [h2, hstep.2]⟩

theorem countUpTo_false (f : Nat → Bool) : ∀ n, (∀ i, i < n → f i = false) →
    countUpTo f n = 0 := by
  intro n
  induction n with
  | zero => intro _; rfl
  | succ n ih =>
    intro hf
    simp [countUpTo, ih (fun i hi => hf i (by omega)), hf n (by omega)]

/-- C8: starting from a freshly registered session with the debug-interest counter at 0 and
no debug hook installed, after any sequence of `RequestEventHook` / `UnrequestEventHook`
calls made by registered plugins the debug hook is installed if and only if
`pluginsWantingDebugHooks > 0`, and the counter is the number of plugins subscribed to
`AGSE_SCRIPTDEBUG`. From such a state a debug-step subscription by a plugin not yet
subscribed raises the counter by exactly 1 and leaves the hook installed; an unsubscription
by a subscribed plugin lowers it by exactly 1 and leaves the hook removed exactly when the
counter is back at 0. -/
theorem debug_trap_follows_counter (h : Host) (k : Nat) (hSD : h.AGSE_SCRIPTDEBUG = 2 ^ k)
    (infos : List PluginInfo) (s : Registry) (err : GameInitError) (st0 : Registry)
    (hsize : s.plugins.length = MAXPLUGINS)
    (hreg : pl_register_plugins h infos s = .ok (err, st0))
    (hc0 : st0.pluginsWantingDebugHooks = 0) (ht0 : st0.ccDebugHook = false)
    (calls : List HookCall) (hcallers : ∀ c ∈ calls, c.caller < st0.numPlugins)
    (st : Registry) (hrun : applyCalls h calls st0 = .ok st) :
    (st.ccDebugHook = true ↔ 0 < st.pluginsWantingDebugHooks) ∧
    st.pluginsWantingDebugHooks = (debugSubscribers h st : Int) ∧
    (∀ p event st1, p < st.numPlugins → RequestEventHook h p event st = .ok st1 →
      bitAnd event h.AGSE_SCRIPTDEBUG ≠ 0 → wantsEvent st h.AGSE_SCRIPTDEBUG p = false →
      st1.pluginsWantingDebugHooks = st.pluginsWantingDebugHooks + 1 ∧
        st1.ccDebugHook = true ∧ wantsEvent st1 h.AGSE_SCRIPTDEBUG p = true) ∧
    (∀ p event st1, p < st.numPlugins → UnrequestEventHook h p event st = .ok st1 →
      bitAnd event h.AGSE_SCRIPTDEBUG ≠ 0 → wantsEvent st h.AGSE_SCRIPTDEBUG p = true →
      st1.pluginsWantingDebugHooks = st.pluginsWantingDebugHooks - 1 ∧
        (st1.ccDebugHook = false ↔ st1.pluginsWantingDebugHooks = 0) ∧
        wantsEvent st1 h.AGSE_SCRIPTDEBUG p = false) := by
  obtain ⟨hz, hlen, hle⟩ := register_wantHook h infos s err st0 hreg
  have hinv0 : DebugInv h st0 := by
    refine ⟨by rw [hlen, hsize]; exact hle, ?_, ?_⟩
    · unfold debugSubscribers
      rw [hc0, countUpTo_false]
      · rfl
      · intro i hi
        simp [wantsEvent, hz i hi, zero_land]
    · rw [hc0, ht0]
      simp
  obtain ⟨hinv, hn⟩ := applyCalls_keeps_debugInv h k hSD calls st0 st hinv0 hcallers hrun
  refine ⟨hinv.2.2, hinv.2.1, ?_, ?_⟩
  · intro p event st1 hp hreq hev hw
    obtain ⟨hc1, ht1⟩ := request_ok_counter h p event st st1 hreq
    obtain ⟨_, _, hset⟩ := request_ok_inv h p event st st1 hreq
    have hw0 : bitAnd (st.plugin p).wantHook h.AGSE_SCRIPTDEBUG = 0 := by
      simpa [wantsEvent] using hw
    rw [if_pos ⟨hev, hw0⟩] at hc1 ht1
    refine ⟨hc1, ht1, ?_⟩
    have hplen : p < st.plugins.length := Nat.lt_of_lt_of_le hp hinv.1
    rw [wantsEvent_eq_testBit h k hSD, plugin_of_set st st1 p _ hset p, if_pos ⟨rfl, hplen⟩]
    show Int.testBit (bitOr (st.plugin p).wantHook event) k = true
    rw [testBit_bitOr, (land_two_pow_ne_zero event k).1 (hSD ▸ hev)]
    simp
  · intro p event st1 hp hreq hev hw
    obtain ⟨hinv1, _⟩ := unrequest_keeps_debugInv h k hSD p event st st1 hp hinv hreq
    obtain ⟨hc1, _⟩ := unrequest_ok_counter h p event st st1 hreq
    obtain ⟨_, hset⟩ := unrequest_ok_inv h p event st st1 hreq
    have hw1 : bitAnd (st.plugin p).wantHook h.AGSE_SCRIPTDEBUG ≠ 0 := by
      simpa [wantsEvent] using hw
    rw [if_pos ⟨hev, hw1⟩] at hc1
    refine ⟨hc1, ?_, ?_⟩
    · have h3 := hinv1.2.2
      have h2 := hinv1.2.1
      constructor
      · intro hf
        have : ¬ 0 < st1.pluginsWantingDebugHooks := by
          rw [← h3, hf]
          simp
        omega
      · intro hzero
        cases hb : st1.ccDebugHook with
        | false => rfl
        | true =>
          have := h3.1 hb
          omega
    · have hplen : p < st.plugins.length := Nat.lt_of_lt_of_le hp hinv.1
      rw [wantsEvent_eq_testBit h k hSD, plugin_of_set st st1 p _ hset p, if_pos ⟨rfl, hplen⟩]
      show Int.testBit (bitAnd (st.plugin p).wantHook (Int.lnot event)) k = false
      rw [testBit_bitAnd, Int.testBit_lnot, (land_two_pow_ne_zero event k).1 (hSD ▸ hev)]
      simp

/-- Witness of C8: two plugins subscribe to the script-debug event (counter 2), one
unsubscribes (counter 1, hook still installed), the other unsubscribes (counter 0, hook
removed). -/
theorem debug_trap_follows_counter_witness :
    (afterCalls demoHost [.request 0 0x2000, .request 1 0x2000]
        twoRegistered).pluginsWantingDebugHooks = 2 ∧
    (afterCalls demoHost [.request 0 0x2000, .request 1 0x2000, .unrequest 0 0x2000]
        twoRegistered).pluginsWantingDebugHooks = 1 ∧
    (afterCalls demoHost [.request 0 0x2000, .request 1 0x2000, .unrequest 0 0x2000]
        twoRegistered).ccDebugHook = true ∧
    (afterCalls demoHost
        [.request 0 0x2000, .request 1 0x2000, .unrequest 0 0x2000, .unrequest 1 0x2000]
        twoRegistered).pluginsWantingDebugHooks = 0 ∧
    (afterCalls demoHost
        [.request 0 0x2000, .request 1 0x2000, .unrequest 0 0x2000, .unrequest 1 0x2000]
        twoRegistered).ccDebugHook = false ∧
    ((afterCalls demoHost [.request 0 0x2000, .request 1 0x2000, .unrequest 0 0x2000]
        twoRegistered).ccDebugHook = true ↔
      0 < (afterCalls demoHost [.request 0 0x2000, .request 1 0x2000, .unrequest 0 0x2000]
        twoRegistered).pluginsWantingDebugHooks) :=
  ⟨by decide, by decide, by decide, by decide, by decide,
    (debug_trap_follows_counter demoHost 13 (by decide)
      [entry "ags_snowrain.dll", entry "noDebug.dll"] Registry.initial .kGameInitErr_NoError
      twoRegistered (by decide) (by decide) (by decide) (by decide)
      [.request 0 0x2000, .request 1 0x2000, .unrequest 0 0x2000] (by decide)
      (afterCalls demoHost [.request 0 0x2000, .request 1 0x2000, .unrequest 0 0x2000]
        twoRegistered) (by decide)).1⟩

/-! ## C9: the counter across sessions -/

theorem twoRegistered_reachable : Reachable demoHost twoRegistered :=
  Reachable.register Registry.initial [entry "ags_snowrain.dll", entry "noDebug.dll"]
    .kGameInitErr_NoError twoRegistered Reachable.initial (by decide)

theorem stoppedSession_reachable : Reachable demoHost stoppedSession :=
  Reachable.stop _
    (Reachable.request twoRegistered 0 0x2000 (subscribed demoHost 0 0x2000 twoRegistered)
      twoRegistered_reachable (by decide) (by decide))

theorem nextSession_reachable : Reachable demoHost nextSession :=
  Reachable.register stoppedSession [entry "ags_snowrain.dll", entry "noDebug.dll"]
    .kGameInitErr_NoError nextSession stoppedSession_reachable (by decide)

/-- C9 (the code departs from the claim): `pl_stop_plugins` clears every `wantHook` mask and
removes the debug hook but leaves `pluginsWantingDebugHooks` as it was. After one plugin
subscribed to `AGSE_SCRIPTDEBUG` and `pl_stop_plugins` ran, the reachable registry has the
counter at 1 with no plugin registered or subscribed; the counter is still 1 at the start of
the next session, and there a plugin that subscribes and unsubscribes again leaves the
counter at 1 and the debug hook installed although no plugin is subscribed. -/
theorem counter_survives_stop :
    Reachable demoHost stoppedSession ∧
    stoppedSession.numPlugins = 0 ∧
    stoppedSession.pluginsWantingDebugHooks = 1 ∧
    debugSubscribers demoHost stoppedSession = 0 ∧
    Reachable demoHost nextSession ∧
    nextSession.pluginsWantingDebugHooks = 1 ∧
    debugSubscribers demoHost nextSession = 0 ∧
    (afterCalls demoHost [.request 0 0x2000, .unrequest 0 0x2000]
      nextSession).pluginsWantingDebugHooks = 1 ∧
    (afterCalls demoHost [.request 0 0x2000, .unrequest 0 0x2000]
      nextSession).ccDebugHook = true ∧
    debugSubscribers demoHost
      (afterCalls demoHost [.request 0 0x2000, .unrequest 0 0x2000] nextSession) = 0 := by
  refine ⟨stoppedSession_reachable, ?_, ?_, ?_, nextSession_reachable, ?_, ?_, ?_, ?_, ?_⟩ <;>
    decide

/-! ## C10: callbacks a subscription needs -/

theorem request_without_onEvent_quits (h : Host) (p : Nat) (event : Int) (st : Registry)
    (hon : (st.plugin p).onEvent = none) :
    RequestEventHook h p event st = .quit .requestInvalidEvent ∨
      RequestEventHook h p event st = .quit .requestNoOnEvent := by
  unfold RequestEventHook
  by_cases h1 : event ≥ h.AGSE_TOOHIGH
  · exact Or.inl (by rw [if_pos h1])
  · exact Or.inr (by rw [if_neg h1, if_pos hon])

/-- C10 (the code departs from the claim): `RequestEventHook` tests `onEvent` only. For the
second plugin of the demo session, which exports `AGS_EngineOnEvent` but no debug hook,
`RequestEventHook(AGSE_SCRIPTDEBUG)` returns normally and adds `AGSE_SCRIPTDEBUG` to the
mask; the next `pl_run_plugin_debug_hooks` then calls through the null `debugHook`. -/
theorem request_accepts_missing_debug_hook :
    (twoRegistered.plugin 1).onEvent = some 33 ∧
    (twoRegistered.plugin 1).debugHook = none ∧
    RequestEventHook demoHost 1 0x2000 twoRegistered =
      .ok (subscribed demoHost 1 0x2000 twoRegistered) ∧
    wantsEvent (subscribed demoHost 1 0x2000 twoRegistered) demoHost.AGSE_SCRIPTDEBUG 1 = true ∧
    pl_run_plugin_debug_hooks demoHost demoDebugHook
      (subscribed demoHost 1 0x2000 twoRegistered) "room1.asc".toList 12 = none := by
  decide

/-! ## C11: event values the subscription calls reject -/

theorem request_at_bound_quits (h : Host) (p : Nat) (event : Int) (st : Registry)
    (hev : h.AGSE_TOOHIGH ≤ event) :
    RequestEventHook h p event st = .quit .requestInvalidEvent := by
  unfold RequestEventHook
  rw [if_pos hev]

theorem unrequest_at_bound_quits (h : Host) (p : Nat) (event : Int) (st : Registry)
    (hev : h.AGSE_TOOHIGH ≤ event) :
    UnrequestEventHook h p event st = .quit .unrequestInvalidEvent := by
  unfold UnrequestEventHook
  rw [if_pos hev]

theorem request_audiodecode_quits (h : Host) (p : Nat) (event : Int) (st : Registry)
    (hev : bitAnd event h.AGSE_AUDIODECODE ≠ 0) :
    ∃ q, RequestEventHook h p event st = .quit q := by
  unfold RequestEventHook
  by_cases h1 : event ≥ h.AGSE_TOOHIGH
  · exact ⟨_, by rw [if_pos h1]⟩
  by_cases h2 : (st.plugin p).onEvent = none
  · exact ⟨_, by rw [if_neg h1, if_pos h2]⟩
  · refine ⟨.requestAudioDecode, ?_⟩
    rw [if_neg h1, if_neg h2]
    dsimp only
    rw [if_pos hev]

/-- C11 (the code departs from the claim): the only range test of `RequestEventHook` and
`UnrequestEventHook` is `event >= AGSE_TOOHIGH`, so negative event values pass it. On the
demo session `RequestEventHook(-16385)` (every bit but `AGSE_AUDIODECODE`) returns normally
and leaves the mask of plugin 0 at -16385, with the debug-interest counter raised and the
debug hook installed, and `UnrequestEventHook(-1)` returns normally. -/
theorem negative_events_are_accepted :
    (-16385 : Int) < demoHost.AGSE_TOOHIGH ∧
    RequestEventHook demoHost 0 (-16385) twoRegistered =
      .ok (subscribed demoHost 0 (-16385) twoRegistered) ∧
    ((subscribed demoHost 0 (-16385) twoRegistered).plugin 0).wantHook = -16385 ∧
    (subscribed demoHost 0 (-16385) twoRegistered).pluginsWantingDebugHooks = 1 ∧
    (subscribed demoHost 0 (-16385) twoRegistered).ccDebugHook = true ∧
    UnrequestEventHook demoHost 0 (-1) twoRegistered = .ok twoRegistered := by
  decide

/-! ## C12: a subscription call and the other plugins -/

/-- C12: a subscription call only changes the caller's own mask. A `RequestEventHook(event)`
that returns, made on the interface with `pluginId = i`, leaves in `plugins[i]` the old
record with `wantHook` replaced by `old | event`; an `UnrequestEventHook(event)` that returns
leaves the old record with `wantHook` replaced by `old & ~event`; in both cases every record
`plugins[j]` with `j ≠ i` and `numPlugins` are unchanged. -/
theorem subscription_changes_only_own_mask (h : Host) (i : Nat) (event : Int)
    (st st1 : Registry) (hi : i < st.plugins.length) :
    (RequestEventHook h i event st = .ok st1 →
      st1.plugin i = { st.plugin i with wantHook := bitOr (st.plugin i).wantHook event } ∧
      (∀ j, j ≠ i → st1.plugin j = st.plugin j) ∧
      st1.numPlugins = st.numPlugins ∧ st1.plugins.length = st.plugins.length) ∧
    (UnrequestEventHook h i event st = .ok st1 →
      st1.plugin i =
        { st.plugin i with wantHook := bitAnd (st.plugin i).wantHook (Int.lnot event) } ∧
      (∀ j, j ≠ i → st1.plugin j = st.plugin j) ∧
      st1.numPlugins = st.numPlugins ∧ st1.plugins.length = st.plugins.length) := by
  constructor
  · intro hr
    obtain ⟨_, hn, hset⟩ := request_ok_inv h i event st st1 hr
    refine ⟨?_, ?_, hn, by rw [hset, List.length_set]⟩
    · rw [plugin_of_set st st1 i _ hset i, if_pos ⟨rfl, hi⟩]
    · intro j hj
      rw [plugin_of_set st st1 i _ hset j, if_neg (fun hc => hj hc.1)]
  · intro hr
    obtain ⟨hn, hset⟩ := unrequest_ok_inv h i event st st1 hr
    refine ⟨?_, ?_, hn, by rw [hset, List.length_set]⟩
    · rw [plugin_of_set st st1 i _ hset i, if_pos ⟨rfl, hi⟩]
    · intro j hj
      rw [plugin_of_set st st1 i _ hset j, if_neg (fun hc => hj hc.1)]

/-- Witness of C12: the second plugin of the demo session subscribes to key presses and
mouse clicks (event 3); its mask becomes 3 and the first plugin's record is unchanged. -/
theorem subscription_changes_only_own_mask_witness :
    RequestEventHook demoHost 1 3 twoRegistered = .ok (subscribed demoHost 1 3 twoRegistered) ∧
    ((subscribed demoHost 1 3 twoRegistered).plugin 1).wantHook = 3 ∧
    (subscribed demoHost 1 3 twoRegistered).plugin 1 =
      { twoRegistered.plugin 1 with wantHook := bitOr (twoRegistered.plugin 1).wantHook 3 } ∧
    (∀ j, j ≠ 1 → (subscribed demoHost 1 3 twoRegistered).plugin j = twoRegistered.plugin j) :=
  have hreq : RequestEventHook demoHost 1 3 twoRegistered =
      .ok (subscribed demoHost 1 3 twoRegistered) := by decide
  have hall := (subscription_changes_only_own_mask demoHost 1 3 twoRegistered
    (subscribed demoHost 1 3 twoRegistered) (by decide)).1 hreq
  ⟨hreq, by decide, hall.1, hall.2.1⟩

/-! ## C13: reading the saved data -/

/-- C13: for a plugin whose stored blob is `blob` (`savedatasize` is its length and
`savedata` holds it when it is not empty) and a buffer of at least `bufsize` bytes,
`GetSavedData(buffer, bufsize)` ends in `quit` when `bufsize` is below the blob length;
otherwise it returns the blob length, the first bytes of the buffer are the blob, the bytes
behind them are unchanged and the buffer keeps its length; with an empty blob and
`bufsize ≥ 0` it returns 0 and leaves the buffer as it was. -/
theorem getSavedData_contract (p : Nat) (st : Registry) (blob buffer : List Nat)
    (bufsize : Int)
    (hsize : (st.plugin p).savedatasize = (blob.length : Int))
    (hdata : blob ≠ [] → (st.plugin p).savedata = some blob)
    (hbuf : bufsize ≤ (buffer.length : Int)) :
    (bufsize < (blob.length : Int) →
      GetSavedData p buffer bufsize st = .quit .savedDataBufferTooSmall) ∧
    ((blob.length : Int) ≤ bufsize →
      ∃ out, GetSavedData p buffer bufsize st = .ok ((blob.length : Int), out) ∧
        out.take blob.length = blob ∧ out.drop blob.length = buffer.drop blob.length ∧
        out.length = buffer.length) ∧
    (blob = [] → 0 ≤ bufsize → GetSavedData p buffer bufsize st = .ok (0, buffer)) := by
  refine ⟨?_, ?_, ?_⟩
  · intro hlt
    unfold GetSavedData
    simp only [hsize]
    rw [if_pos hlt]
  · intro hle
    have hnot : ¬ bufsize < (blob.length : Int) := by omega
    have hlen : blob.length ≤ buffer.length := by omega
    unfold GetSavedData
    simp only [hsize]
    rw [if_neg hnot]
    by_cases hpos : (blob.length : Int) > 0
    · have hne : blob ≠ [] := by
        intro hc
        rw [hc] at hpos
        simp at hpos
      rw [if_pos hpos, hdata hne]
      refine ⟨_, rfl, ?_, ?_, ?_⟩
      · simp [memcpy]
      · simp [memcpy]
      · simp [memcpy]
        omega
    · have hnil : blob = [] := by
        cases blob with
        | nil => rfl
        | cons a l =>
          exfalso
          apply hpos
          simp only [List.length_cons, Nat.cast_add, Nat.cast_one]
          omega
      rw [if_neg hpos]
      subst hnil
      exact ⟨buffer, rfl, rfl, rfl, rfl⟩
  · intro hnil hle
    subst hnil
    unfold GetSavedData
    simp only [hsize]
    have hnot : ¬ bufsize < ((([] : List Nat).length : Nat) : Int) := by
      simp only [List.length_nil, Nat.cast_zero]
      omega
    rw [if_neg hnot]
    simp

/-- Witness of C13: a blob of three bytes read into a buffer of five. -/
theorem getSavedData_contract_witness :
    GetSavedData 0 [1, 2, 3, 4, 5] 2 blobRegistered = .quit .savedDataBufferTooSmall ∧
    GetSavedData 0 [1, 2, 3, 4, 5] 5 blobRegistered = .ok (3, [7, 8, 9, 4, 5]) ∧
    (((([7, 8, 9] : List Nat).length : Nat) : Int) ≤ 5 →
      ∃ out, GetSavedData 0 [1, 2, 3, 4, 5] 5 blobRegistered =
          .ok (((([7, 8, 9] : List Nat).length : Nat) : Int), out) ∧
        out.take ([7, 8, 9] : List Nat).length = [7, 8, 9] ∧
        out.drop ([7, 8, 9] : List Nat).length =
          ([1, 2, 3, 4, 5] : List Nat).drop ([7, 8, 9] : List Nat).length ∧
        out.length = ([1, 2, 3, 4, 5] : List Nat).length) :=
  ⟨by decide, by decide,
    (getSavedData_contract 0 blobRegistered [7, 8, 9] [1, 2, 3, 4, 5] 5 (by decide)
      (fun _ => by decide) (by decide)).2.1⟩

/-! ## C14: saved data through registration -/

theorem registerEntry_failed_ne (h : Host) (info : PluginInfo) (st : Registry)
    (hr : registerEntry h info st = .failed .kGameInitErr_NoError) : False := by
  unfold registerEntry at hr
  split at hr
  · cases hr
  · split at hr
    · cases hr
    · split at hr
      · cases hr
      · split at hr <;> cases hr

theorem registerEntry_skipped_inv (h : Host) (info : PluginInfo) (st : Registry)
    (hr : registerEntry h info st = .skipped) : editorOnly info = true := by
  unfold registerEntry at hr
  split at hr
  · assumption
  · split at hr
    · cases hr
    · split at hr
      · cases hr
      · split at hr <;> cases hr

theorem registerLoop_noError_inv (h : Host) :
    ∀ (infos : List PluginInfo) (st st1 : Registry),
    registerLoop h infos st = .ok (.kGameInitErr_NoError, st1) →
    st.numPlugins ≤ MAXPLUGINS →
    st.numPlugins + (realEntries infos).length ≤ MAXPLUGINS ∧
    (∀ i ∈ realEntries infos, nameInvalid h i.Name = false) ∧
    (∀ i ∈ realEntries infos, loadsCleanly h i = true) := by
  intro infos
  induction infos with
  | nil =>
    intro st st1 _ hle
    simp [realEntries, hle]
  | cons info rest ih =>
    intro st st1 hr hle
    simp only [registerLoop] at hr
    cases hre : registerEntry h info st with
    | skipped =>
      rw [hre] at hr
      rw [realEntries_cons_skip info rest (registerEntry_skipped_inv h info st hre)]
      exact ih st st1 hr hle
    | failed e =>
      rw [hre] at hr
      simp only [Outcome.ok.injEq, Prod.mk.injEq] at hr
      rw [hr.1] at hre
      exact absurd hre (fun hc => registerEntry_failed_ne h info st hc)
    | registered st2 =>
      rw [hre] at hr
      obtain ⟨hed, hne, hwf, apl, hfill, hst2⟩ := registerEntry_registered_inv h info st st2 hre
      have hload := (fillSlot_ok_inv h info _ _ apl hfill).2
      have hn2 : st2.numPlugins = st.numPlugins + 1 := by rw [hst2]
      obtain ⟨h1, h2, h3⟩ := ih st2 st1 hr (by rw [hn2]; omega)
      rw [realEntries_cons_keep info rest hed]
      refine ⟨?_, ?_, ?_⟩
      · simp only [List.length_cons]
        omega
      · intro i hi
        rw [List.mem_cons] at hi
        rcases hi with hi | hi
        · rw [hi]
          exact hwf
        · exact h2 i hi
      · intro i hi
        rw [List.mem_cons] at hi
        rcases hi with hi | hi
        · rw [hi]
          exact hload
        · exact h3 i hi
    | quit q =>
      rw [hre] at hr
      cases hr

theorem register_noError_stored (h : Host) (infos : List PluginInfo) (st st1 : Registry)
    (hsize : st.plugins.length = MAXPLUGINS)
    (hreg : pl_register_plugins h infos st = .ok (.kGameInitErr_NoError, st1)) :
    st1.numPlugins = (realEntries infos).length ∧ st1.plugins.length = MAXPLUGINS ∧
    ∀ k e, (realEntries infos)[k]? = some e → k < st1.numPlugins ∧ Stored h e k (st1.plugin k) := by
  obtain ⟨hcount, hwf, hload⟩ :=
    registerLoop_noError_inv h infos { st with numPlugins := 0 } st1 hreg (Nat.zero_le _)
  obtain ⟨st2, h1, h2, h3, _, _, _, h7⟩ :=
    registerLoop_ok h infos { st with numPlugins := 0 } hsize hcount hwf hload
  have hst : st2 = st1 := by
    have := h1.symm.trans hreg
    simp only [Outcome.ok.injEq, Prod.mk.injEq, true_and] at this
    exact this
  subst hst
  simp only [Nat.zero_add] at h2 h7
  refine ⟨h2, h3, ?_⟩
  intro k e hk
  refine ⟨?_, h7 k e hk⟩
  rw [h2]
  by_contra hc
  rw [List.getElem?_eq_none (by omega)] at hk
  cases hk

theorem applyCalls_savedata (h : Host) :
    ∀ (calls : List HookCall) (st st1 : Registry), applyCalls h calls st = .ok st1 →
    ∀ j, (st1.plugin j).savedata = (st.plugin j).savedata ∧
      (st1.plugin j).savedatasize = (st.plugin j).savedatasize := by
  intro calls
  induction calls with
  | nil =>
    intro st st1 hr j
    simp only [applyCalls, Outcome.ok.injEq] at hr
    subst hr
    exact ⟨rfl, rfl⟩
  | cons c cs ih =>
    intro st st1 hr j
    simp only [applyCalls] at hr
    cases hc : applyCall h c st with
    | quit q =>
      rw [hc] at hr
      cases hr
    | ok st2 =>
      rw [hc] at hr
      have hstep : (st2.plugin j).savedata = (st.plugin j).savedata ∧
          (st2.plugin j).savedatasize = (st.plugin j).savedatasize := by
        cases c with
        | request p e =>
          obtain ⟨_, _, hset⟩ := request_ok_inv h p e st st2 hc
          rw [plugin_of_set st st2 p _ hset j]
          split
          · rename_i hjp
            rw [hjp.1]
            exact ⟨rfl, rfl⟩
          · exact ⟨rfl, rfl⟩
        | unrequest p e =>
          obtain ⟨_, hset⟩ := unrequest_ok_inv h p e st st2 hc
          rw [plugin_of_set st st2 p _ hset j]
          split
          · rename_i hjp
            rw [hjp.1]
            exact ⟨rfl, rfl⟩
          · exact ⟨rfl, rfl⟩
      obtain ⟨h1, h2⟩ := ih st2 st1 hr j
      exact ⟨h1.trans hstep.1, h2.trans hstep.2⟩

theorem toInt32_of_lt (n : Nat) (hn : n < 2 ^ 31) : toInt32 n = (n : Int) := by
  unfold toInt32
  have h1 : n % 2 ^ 32 = n := Nat.mod_eq_of_lt (by omega)
  rw [h1, if_pos hn]

/-- C14: saved state round-trips through registration. After `pl_register_plugins` returned
`kGameInitErr_NoError` on a manifest, and after any subscription calls that returned, for
the `k`-th non-editor-only entry `e` the slot `k` is registered and `GetSavedData` on the
interface of plugin `k`, with an int32 `bufsize` of at least `DataLen` and a buffer of at
least `bufsize` bytes, returns `DataLen` and leaves the `Data` bytes of `e` at the start of
the buffer, the rest of the buffer unchanged: whatever the other entries are. -/
theorem saved_data_round_trip (h : Host) (infos : List PluginInfo) (st st1 : Registry)
    (hsize : st.plugins.length = MAXPLUGINS)
    (hreg : pl_register_plugins h infos st = .ok (.kGameInitErr_NoError, st1))
    (calls : List HookCall) (st2 : Registry) (hcalls : applyCalls h calls st1 = .ok st2)
    (k : Nat) (e : PluginInfo) (hk : (realEntries infos)[k]? = some e)
    (buffer : List Nat) (bufsize : Int)
    (hint : bufsize < 2 ^ 31) (hcap : (e.DataLen : Int) ≤ bufsize)
    (hbuf : bufsize ≤ (buffer.length : Int)) :
    k < st1.numPlugins ∧
    GetSavedData k buffer bufsize st2 =
      .ok ((e.DataLen : Int), e.Data ++ buffer.drop e.DataLen) := by
  obtain ⟨_, _, hstored⟩ := register_noError_stored h infos st st1 hsize hreg
  obtain ⟨hlt, hst⟩ := hstored k e hk
  refine ⟨hlt, ?_⟩
  obtain ⟨hd, hs⟩ := applyCalls_savedata h calls st1 st2 hcalls k
  have hfit : e.DataLen < 2 ^ 31 := by omega
  have hsz : (st2.plugin k).savedatasize = (e.Data.length : Int) := by
    rw [hs, hst.2.2.2.1, toInt32_of_lt _ hfit]
    rfl
  have hdata : e.Data ≠ [] → (st2.plugin k).savedata = some e.Data := by
    intro hne
    rw [hd]
    apply hst.2.2.2.2.1
    intro hz
    apply hne
    exact List.length_eq_zero.mp hz
  obtain ⟨_, hok, _⟩ := getSavedData_contract k st2 e.Data buffer bufsize hsz hdata hbuf
  obtain ⟨out, hout, htake, hdrop, _⟩ := hok hcap
  rw [hout]
  have : out = e.Data ++ buffer.drop e.DataLen := by
    rw [← List.take_append_drop e.Data.length out, htake, hdrop]
    rfl
  rw [this]
  rfl

/-- Witness of C14: the demo manifest, whose second plugin has the blob 7, 8, 9; the blob
is read back after the first plugin subscribed to an event. -/
theorem saved_data_round_trip_witness :
    1 < (registered demoHost demoManifest).numPlugins ∧
    GetSavedData 1 [0, 0, 0, 0] 4
        (afterCalls demoHost [.request 0 1] (registered demoHost demoManifest)) =
      .ok (3, [7, 8, 9] ++ ([0, 0, 0, 0] : List Nat).drop 3) :=
  saved_data_round_trip demoHost demoManifest Registry.initial (registered demoHost demoManifest)
    (by decide) (by decide) [.request 0 1]
    (afterCalls demoHost [.request 0 1] (registered demoHost demoManifest)) (by decide)
    1 { Name := "noDebug.DLL".toList, Data := [7, 8, 9] } (by decide)
    [0, 0, 0, 0] 4 (by decide) (by decide) (by decide)

/-! ## C15: what `pl_stop_plugins` does -/

theorem stopSlot_plugin (a : Nat) (st : Registry) (j : Nat) :
    (stopSlot a st).plugin j = if j = a then stoppedRecord (st.plugin j) else st.plugin j := by
  unfold stopSlot
  dsimp only
  by_cases hav : (st.plugin a).available = true
  · rw [if_pos hav]
    by_cases hja : j = a
    · subst hja
      rw [if_pos rfl]
      by_cases hlen : j < st.plugins.length
      · rw [plugin_setPlugin_self st j _ hlen]
        simp [stoppedRecord, hav]
      · rw [plugin_out st j (by omega)] at hav
        cases hav
    · rw [if_neg hja]
      exact plugin_setPlugin_ne st a j _ (Ne.symm hja)
  · rw [if_neg hav]
    by_cases hja : j = a
    · subst hja
      simp [stoppedRecord, hav]
    · rw [if_neg hja]

theorem stopSlot_fields (a : Nat) (st : Registry) :
    (stopSlot a st).numPlugins = st.numPlugins ∧
    (stopSlot a st).pluginsWantingDebugHooks = st.pluginsWantingDebugHooks ∧
    (stopSlot a st).ccDebugHook = st.ccDebugHook ∧
    (stopSlot a st).plugins.length = st.plugins.length := by
  unfold stopSlot
  dsimp only
  split
  · simp [Registry.setPlugin]
  · exact ⟨rfl, rfl, rfl, rfl⟩

theorem stopLoop_plugin : ∀ (count a : Nat) (st : Registry) (j : Nat),
    (stopLoop count a st).plugin j =
      if a ≤ j ∧ j < a + count then stoppedRecord (st.plugin j) else st.plugin j := by
  intro count
  induction count with
  | zero =>
    intro a st j
    have : ¬ (a ≤ j ∧ j < a + 0) := by omega
    rw [if_neg this]
    rfl
  | succ count ih =>
    intro a st j
    show (stopLoop count (a + 1) (stopSlot a st)).plugin j = _
    rw [ih (a + 1) (stopSlot a st) j, stopSlot_plugin a st j]
    by_cases hja : j = a
    · subst hja
      have h1 : ¬ (j + 1 ≤ j ∧ j < j + 1 + count) := by omega
      have h2 : j ≤ j ∧ j < j + (count + 1) := by omega
      rw [if_neg h1, if_pos rfl, if_pos h2]
    · rw [if_neg hja]
      by_cases hin : a + 1 ≤ j ∧ j < a + 1 + count
      · have h2 : a ≤ j ∧ j < a + (count + 1) := by omega
        rw [if_pos hin, if_pos h2]
      · have h2 : ¬ (a ≤ j ∧ j < a + (count + 1)) := by omega
        rw [if_neg hin, if_neg h2]

theorem stopLoop_fields : ∀ (count a : Nat) (st : Registry),
    (stopLoop count a st).pluginsWantingDebugHooks = st.pluginsWantingDebugHooks ∧
    (stopLoop count a st).ccDebugHook = st.ccDebugHook ∧
    (stopLoop count a st).plugins.length = st.plugins.length := by
  intro count
  induction count with
  | zero => intro a st; exact ⟨rfl, rfl, rfl⟩
  | succ count ih =>
    intro a st
    obtain ⟨h1, h2, h3⟩ := ih (a + 1) (stopSlot a st)
    obtain ⟨_, g1, g2, g3⟩ := stopSlot_fields a st
    exact ⟨h1.trans g1, h2.trans g2, h3.trans g3⟩

theorem stop_plugin (st : Registry) (j : Nat) :
    (pl_stop_plugins st).plugin j =
      if j < st.numPlugins then stoppedRecord (st.plugin j) else st.plugin j := by
  have h1 := stopLoop_plugin st.numPlugins 0 { st with ccDebugHook := false } j
  have h2 : (pl_stop_plugins st).plugin j =
      (stopLoop st.numPlugins 0 { st with ccDebugHook := false }).plugin j := rfl
  rw [h2, h1]
  have h3 : ({ st with ccDebugHook := false } : Registry).plugin j = st.plugin j := rfl
  rw [h3]
  by_cases hj : j < st.numPlugins
  · rw [if_pos hj, if_pos ⟨Nat.zero_le _, by omega⟩]
  · rw [if_neg hj, if_neg (by omega)]

theorem stopLoopCalls_spec : ∀ (count a : Nat) (st : Registry),
    (stopLoopCalls count a st).Pairwise (· < ·) ∧
    ∀ b, b ∈ stopLoopCalls count a st ↔
      (a ≤ b ∧ b < a + count) ∧ (st.plugin b).available = true ∧
        (st.plugin b).engineShutdown ≠ none := by
  intro count
  induction count with
  | zero =>
    intro a st
    refine ⟨List.Pairwise.nil, ?_⟩
    intro b
    simp only [stopLoopCalls, List.not_mem_nil, false_iff]
    intro hc
    omega
  | succ count ih =>
    intro a st
    obtain ⟨hs, hm⟩ := ih (a + 1) (stopSlot a st)
    have hrest : ∀ b, b ∈ stopLoopCalls count (a + 1) (stopSlot a st) ↔
        (a + 1 ≤ b ∧ b < a + 1 + count) ∧ (st.plugin b).available = true ∧
          (st.plugin b).engineShutdown ≠ none := by
      intro b
      rw [hm b]
      constructor
      · intro hb
        have hne : b ≠ a := by omega
        rw [stopSlot_plugin a st b, if_neg hne] at hb
        exact hb
      · intro hb
        have hne : b ≠ a := by omega
        rw [stopSlot_plugin a st b, if_neg hne]
        exact hb
    simp only [stopLoopCalls]
    by_cases hc : (st.plugin a).available = true ∧ (st.plugin a).engineShutdown ≠ none
    · rw [if_pos hc]
      refine ⟨?_, ?_⟩
      · rw [List.singleton_append, List.pairwise_cons]
        exact ⟨fun b hb => by have := ((hrest b).1 hb).1; omega, hs⟩
      · intro b
        rw [List.singleton_append, List.mem_cons, hrest b]
        constructor
        · intro hb
          rcases hb with hb | hb
          · subst hb
            exact ⟨by omega, hc⟩
          · exact ⟨by omega, hb.2⟩
        · intro hb
          by_cases hba : b = a
          · exact Or.inl hba
          · exact Or.inr ⟨by omega, hb.2⟩
    · rw [if_neg hc]
      refine ⟨by simpa using hs, ?_⟩
      intro b
      rw [List.nil_append, hrest b]
      constructor
      · intro hb
        exact ⟨by omega, hb.2⟩
      · intro hb
        have hba : b ≠ a := by
          intro hba
          subst hba
          exact hc hb.2
        exact ⟨by omega, hb.2⟩

/-- C15: `pl_stop_plugins`, called on any registry (so in every reachable state, whether or
not `pl_startup_plugins` ran), calls `engineShutdown` in increasing slot order, once for each
registered available plugin that has one and for no other slot; afterwards `numPlugins = 0`
and every previously registered available plugin has `wantHook = 0` and a null `savedata`,
its library unloaded when it is not built-in and left alone when it is. -/
theorem stop_plugins_contract (st : Registry) :
    (pl_stop_plugins_calls st).Pairwise (· < ·) ∧
    (∀ a, a ∈ pl_stop_plugins_calls st ↔
      a < st.numPlugins ∧ (st.plugin a).available = true ∧
        (st.plugin a).engineShutdown ≠ none) ∧
    (pl_stop_plugins st).numPlugins = 0 ∧
    (∀ a, a < st.numPlugins → (st.plugin a).available = true →
      ((pl_stop_plugins st).plugin a).wantHook = 0 ∧
      ((pl_stop_plugins st).plugin a).savedata = none ∧
      ((st.plugin a).builtin = false → ((pl_stop_plugins st).plugin a).library = none) ∧
      ((st.plugin a).builtin = true →
        ((pl_stop_plugins st).plugin a).library = (st.plugin a).library)) := by
  obtain ⟨hs, hm⟩ := stopLoopCalls_spec st.numPlugins 0 { st with ccDebugHook := false }
  refine ⟨hs, ?_, rfl, ?_⟩
  · intro a
    have := hm a
    simp only [Nat.zero_add] at this
    rw [show pl_stop_plugins_calls st =
      stopLoopCalls st.numPlugins 0 { st with ccDebugHook := false } from rfl, this]
    constructor
    · intro hb
      exact ⟨hb.1.2, hb.2⟩
    · intro hb
      exact ⟨⟨Nat.zero_le _, hb.1⟩, hb.2⟩
  · intro a ha hav
    rw [stop_plugin st a, if_pos ha]
    simp only [stoppedRecord, hav, if_true]
    refine ⟨trivial, trivial, ?_, ?_⟩
    · intro hb
      simp [hb]
    · intro hb
      simp [hb]

/-! ## C16: registration followed by `pl_stop_plugins` -/

theorem fillSlot_fields (h : Host) (info : PluginInfo) (slot : Nat) (old apl : EnginePlugin)
    (hf : fillSlot h info slot old = .ok apl) :
    apl.builtin = old.builtin ∧ apl.library = h.Load (pluginFilename h info.Name) ∧
    apl.invalidatedRegion = old.invalidatedRegion ∧
    (h.Load (pluginFilename h info.Name) = none →
      apl.engineStartup = old.engineStartup ∧ apl.engineShutdown = old.engineShutdown ∧
      apl.onEvent = old.onEvent ∧ apl.debugHook = old.debugHook ∧
      apl.initGfxHook = old.initGfxHook) := by
  unfold fillSlot resolveImports at hf
  dsimp only at hf
  cases hm : h.Load (pluginFilename h info.Name) with
  | none =>
    simp only [hm] at hf
    injection hf with hf
    subst hf
    exact ⟨rfl, rfl, rfl, fun _ => ⟨rfl, rfl, rfl, rfl, rfl⟩⟩
  | some m =>
    simp only [hm] at hf
    cases h1 : m.AGS_PluginV2 with
    | false => simp [h1] at hf
    | true =>
      cases h2 : m.AGS_EngineStartup.isNone with
      | true => simp [h1, h2] at hf
      | false =>
        simp only [h1, h2, Bool.not_true, Bool.false_eq_true, if_false] at hf
        injection hf with hf
        subst hf
        exact ⟨rfl, rfl, rfl, fun hc => by cases hc⟩

theorem registerLoop_frame (h : Host) :
    ∀ (infos : List PluginInfo) (st : Registry) (e : GameInitError) (st1 : Registry),
    st.plugins.length = MAXPLUGINS → st.numPlugins ≤ MAXPLUGINS →
    registerLoop h infos st = .ok (e, st1) →
    st.numPlugins ≤ st1.numPlugins ∧ st1.numPlugins ≤ MAXPLUGINS ∧
    st1.plugins.length = MAXPLUGINS ∧
    st1.pluginsWantingDebugHooks = st.pluginsWantingDebugHooks ∧
    st1.ccDebugHook = st.ccDebugHook ∧
    (∀ j, j < st.numPlugins → st1.plugin j = st.plugin j) ∧
    (∀ j, st1.numPlugins ≤ j → st1.plugin j = st.plugin j) ∧
    (∀ k, st.numPlugins + k < st1.numPlugins →
      ∃ info, (realEntries infos)[k]? = some info ∧
        fillSlot h info (st.numPlugins + k) (st.plugin (st.numPlugins + k)) =
          .ok (st1.plugin (st.numPlugins + k))) := by
  intro infos
  induction infos with
  | nil =>
    intro st e st1 hsize hle hr
    simp only [registerLoop, Outcome.ok.injEq, Prod.mk.injEq] at hr
    obtain ⟨_, hst⟩ := hr
    subst hst
    exact ⟨le_refl _, hle, hsize, rfl, rfl, fun _ _ => rfl, fun _ _ => rfl,
      fun k hk => absurd hk (by omega)⟩
  | cons info rest ih =>
    intro st e st1 hsize hle hr
    simp only [registerLoop] at hr
    cases hre : registerEntry h info st with
    | skipped =>
      rw [hre] at hr
      rw [realEntries_cons_skip info rest (registerEntry_skipped_inv h info st hre)]
      exact ih st e st1 hsize hle hr
    | failed e2 =>
      rw [hre] at hr
      simp only [Outcome.ok.injEq, Prod.mk.injEq] at hr
      obtain ⟨_, hst⟩ := hr
      subst hst
      exact ⟨le_refl _, hle, hsize, rfl, rfl, fun _ _ => rfl, fun _ _ => rfl,
        fun k hk => absurd hk (by omega)⟩
    | registered st2 =>
      rw [hre] at hr
      obtain ⟨hed, hne, _, apl, hfill, hst2⟩ := registerEntry_registered_inv h info st st2 hre
      have hn2 : st2.numPlugins = st.numPlugins + 1 := by rw [hst2]
      have hlen2 : st2.plugins.length = MAXPLUGINS := by
        rw [hst2]
        simpa [Registry.setPlugin] using hsize
      have hp2 : ∀ j, st2.plugin j = if j = st.numPlugins then apl else st.plugin j := by
        intro j
        rw [hst2]
        by_cases hj : j = st.numPlugins
        · rw [if_pos hj, hj]
          exact plugin_setPlugin_self st _ apl (by omega)
        · rw [if_neg hj]
          exact plugin_setPlugin_ne st _ j apl (Ne.symm hj)
      have hc2 : st2.pluginsWantingDebugHooks = st.pluginsWantingDebugHooks ∧
          st2.ccDebugHook = st.ccDebugHook := by
        rw [hst2]
        exact ⟨rfl, rfl⟩
      obtain ⟨g1, g2, g3, g4, g5, g6, g7, g8⟩ :=
        ih st2 e st1 hlen2 (by rw [hn2]; omega) hr
      rw [realEntries_cons_keep info rest hed]
      refine ⟨by omega, g2, g3, g4.trans hc2.1, g5.trans hc2.2, ?_, ?_, ?_⟩
      · intro j hj
        rw [g6 j (by omega), hp2 j, if_neg (by omega)]
      · intro j hj
        rw [g7 j hj, hp2 j, if_neg (by omega)]
      · intro k hk
        cases k with
        | zero =>
          refine ⟨info, List.getElem?_cons_zero, ?_⟩
          rw [Nat.add_zero, g6 _ (by omega), hp2, if_pos rfl]
          exact hfill
        | succ k =>
          have e1 : st.numPlugins + (k + 1) = st2.numPlugins + k := by omega
          obtain ⟨info2, hi2, hf2⟩ := g8 k (by omega)
          refine ⟨info2, by simpa using hi2, ?_⟩
          rw [e1, ← hf2, hp2, if_neg (by omega)]
    | quit q =>
      rw [hre] at hr
      cases hr

theorem initial_plugin (j : Nat) : Registry.initial.plugin j = {} := by
  unfold Registry.plugin Registry.initial
  rw [List.getD_eq_getElem?_getD]
  by_cases hj : j < MAXPLUGINS
  · rw [List.getElem?_eq_getElem (by simpa using hj)]
    simp
  · rw [List.getElem?_eq_none (by simpa using hj)]
    rfl

/-- C16 (as amended): `pl_register_plugins` on the freshly constructed registry followed by
`pl_stop_plugins` leaves `numPlugins = 0`, the debug-interest counter at 0, no debug hook,
and in every record a zero subscription mask, a null saved-state buffer, no loaded module
and a clear built-in flag; the other members of a record that was registered (name,
availability, entry points, `savedatasize`, interface) are left as registration set them. -/
theorem register_then_stop_releases (h : Host) (infos : List PluginInfo)
    (e : GameInitError) (st1 : Registry)
    (hreg : pl_register_plugins h infos Registry.initial = .ok (e, st1)) :
    (pl_stop_plugins st1).numPlugins = 0 ∧
    (pl_stop_plugins st1).pluginsWantingDebugHooks = 0 ∧
    (pl_stop_plugins st1).ccDebugHook = false ∧
    (pl_stop_plugins st1).plugins.length = MAXPLUGINS ∧
    (∀ j, ((pl_stop_plugins st1).plugin j).wantHook = 0 ∧
      ((pl_stop_plugins st1).plugin j).savedata = none ∧
      ((pl_stop_plugins st1).plugin j).library = none ∧
      ((pl_stop_plugins st1).plugin j).builtin = false) ∧
    (∀ j, ((pl_stop_plugins st1).plugin j).filename = (st1.plugin j).filename ∧
      ((pl_stop_plugins st1).plugin j).available = (st1.plugin j).available ∧
      ((pl_stop_plugins st1).plugin j).engineStartup = (st1.plugin j).engineStartup ∧
      ((pl_stop_plugins st1).plugin j).engineShutdown = (st1.plugin j).engineShutdown ∧
      ((pl_stop_plugins st1).plugin j).onEvent = (st1.plugin j).onEvent ∧
      ((pl_stop_plugins st1).plugin j).debugHook = (st1.plugin j).debugHook ∧
      ((pl_stop_plugins st1).plugin j).initGfxHook = (st1.plugin j).initGfxHook ∧
      ((pl_stop_plugins st1).plugin j).savedatasize = (st1.plugin j).savedatasize ∧
      ((pl_stop_plugins st1).plugin j).eiface = (st1.plugin j).eiface) ∧
    (∀ j, j < st1.numPlugins → (st1.plugin j).available = true) := by
  obtain ⟨_, _, hlen, hc, ht, _, habove, hmid⟩ :=
    registerLoop_frame h infos { Registry.initial with numPlugins := 0 } e st1 rfl
      (Nat.zero_le _) hreg
  have hinit : ∀ j, ({ Registry.initial with numPlugins := 0 } : Registry).plugin j = {} :=
    fun j => initial_plugin j
  have hreginfo : ∀ j, j < st1.numPlugins →
      (st1.plugin j).available = true ∧ (st1.plugin j).builtin = false := by
    intro j hj
    obtain ⟨info, _, hf⟩ := hmid j (by simpa using hj)
    simp only [Nat.zero_add] at hf
    have hst := (fillSlot_ok_inv h info _ _ _ hf).1
    have hb := (fillSlot_fields h info _ _ _ hf).1
    rw [hinit] at hb
    exact ⟨hst.2.2.2.2.2.2, hb⟩
  obtain ⟨s1, s2, s3⟩ := stopLoop_fields st1.numPlugins 0 { st1 with ccDebugHook := false }
  refine ⟨rfl, ?_, ?_, ?_, ?_, ?_, fun j hj => (hreginfo j hj).1⟩
  · exact s1.trans hc
  · exact s2
  · exact s3.trans hlen
  · intro j
    rw [stop_plugin st1 j]
    by_cases hj : j < st1.numPlugins
    · obtain ⟨hav, hb⟩ := hreginfo j hj
      rw [if_pos hj]
      simp [stoppedRecord, hav, hb]
    · rw [if_neg hj, habove j (by omega), hinit]
      exact ⟨rfl, rfl, rfl, rfl⟩
  · intro j
    rw [stop_plugin st1 j]
    by_cases hj : j < st1.numPlugins
    · rw [if_pos hj]
      unfold stoppedRecord
      split <;> exact ⟨rfl, rfl, rfl, rfl, rfl, rfl, rfl, rfl, rfl⟩
    · rw [if_neg hj]
      exact ⟨rfl, rfl, rfl, rfl, rfl, rfl, rfl, rfl, rfl⟩

/-- Witness of C16: the demo manifest registered on the initial registry, then stopped. -/
theorem register_then_stop_releases_witness :
    (pl_stop_plugins (registered demoHost demoManifest)).numPlugins = 0 ∧
    (∀ j, ((pl_stop_plugins (registered demoHost demoManifest)).plugin j).savedata = none ∧
      ((pl_stop_plugins (registered demoHost demoManifest)).plugin j).library = none) :=
  have hall := register_then_stop_releases demoHost demoManifest .kGameInitErr_NoError
    (registered demoHost demoManifest) (by decide)
  ⟨hall.1, fun j => ⟨(hall.2.2.2.2.1 j).2.1, (hall.2.2.2.2.1 j).2.2.1⟩⟩

/-- Counterexample to C16 as stated: after `abcde.dll` is registered on the initial registry
and `pl_stop_plugins` has run, the registry is not the initial one: the record in slot 0
keeps its name, `available = true` and the interface version. -/
theorem register_then_stop_is_not_initial :
    pl_register_plugins bareHost [entry "abcde.dll"] Registry.initial =
      .ok (.kGameInitErr_NoError, registered bareHost [entry "abcde.dll"]) ∧
    pl_stop_plugins (registered bareHost [entry "abcde.dll"]) ≠ Registry.initial ∧
    ((pl_stop_plugins (registered bareHost [entry "abcde.dll"])).plugin 0).filename =
      "abcde".toList ∧
    ((pl_stop_plugins (registered bareHost [entry "abcde.dll"])).plugin 0).available = true ∧
    ((pl_stop_plugins (registered bareHost [entry "abcde.dll"])).plugin 0).eiface.version = 25 ∧
    (Registry.initial.plugin 0).filename = [] ∧
    (Registry.initial.plugin 0).available = false := by
  decide

/-! ## C17: an extension that cannot be loaded -/

/-- C17 (the code departs from the claim): when `Library::Load` fails, `pl_register_plugins`
only logs; it does not call `pl_use_builtin_plugin` and goes on to set `available = true`.
On a host where no module loads, `agsblend.dll` (a name of the built-in table) and
`abcde.dll` are both registered with `kGameInitErr_NoError`, marked available, not built-in
and without an `engineStartup`; `pl_is_plugin_loaded("abcde")` is true and
`pl_startup_plugins` calls through the null `engineStartup`. -/
theorem failed_load_is_marked_available :
    bareHost.Load "agsblend".toList = none ∧ bareHost.Load "abcde".toList = none ∧
    pl_register_plugins bareHost [entry "agsblend.dll", entry "abcde.dll"] Registry.initial =
      .ok (.kGameInitErr_NoError, unloadedRegistered) ∧
    (unloadedRegistered.plugin 0).available = true ∧
    (unloadedRegistered.plugin 0).builtin = false ∧
    (unloadedRegistered.plugin 0).engineStartup = none ∧
    (unloadedRegistered.plugin 1).available = true ∧
    (unloadedRegistered.plugin 1).engineStartup = none ∧
    pl_is_plugin_loaded (some "abcde".toList) unloadedRegistered = true ∧
    pl_startup_plugins unloadedRegistered = none := by
  decide

/-! ## C18: the startup entry point of an available plugin -/

/-- C18 (the code departs from the claim): a plugin whose module could not be loaded is
marked available although no `engineStartup` was resolved for it. After a registration
that returned `kGameInitErr_NoError`, slot 1 (`missing.dll`) is available with a null
`engineStartup` and `pl_startup_plugins` calls through it; after a register/stop cycle the
record of slot 0 is available with the `engineStartup` of the module that was unloaded, and
`pl_startup_plugins` calls that address. -/
theorem available_without_startup :
    pl_register_plugins demoHost [entry "agsblend.dll", entry "missing.dll"] Registry.initial =
      .ok (.kGameInitErr_NoError, mixedRegistered) ∧
    (mixedRegistered.plugin 1).available = true ∧
    (mixedRegistered.plugin 1).engineStartup = none ∧
    pl_startup_plugins mixedRegistered = none ∧
    pl_register_plugins demoHost [entry "missing.dll"]
        (pl_stop_plugins (registered demoHost [entry "agsblend.dll"])) =
      .ok (.kGameInitErr_NoError, staleRegistered) ∧
    (staleRegistered.plugin 0).available = true ∧
    (staleRegistered.plugin 0).library = none ∧
    (staleRegistered.plugin 0).engineStartup = some 11 ∧
    pl_startup_plugins staleRegistered = some [0] := by
  decide

/-! ## C19: the compatibility rename -/

/-- C19: after `pl_register_plugins` returned `kGameInitErr_NoError`, the `k`-th
non-editor-only entry `e` is registered in slot `k`; when its name without the last four
characters equals "ags_SnowRain20" case-insensitively, the record's file name is
"ags_snowrain" and the module asked of the loader is "ags_snowrain"; otherwise the file name
is exactly the name without its last four characters, and that is the module asked of the
loader. -/
theorem snowrain_rename_only (h : Host) (infos : List PluginInfo) (st st1 : Registry)
    (hsize : st.plugins.length = MAXPLUGINS)
    (hreg : pl_register_plugins h infos st = .ok (.kGameInitErr_NoError, st1))
    (k : Nat) (e : PluginInfo) (hk : (realEntries infos)[k]? = some e) :
    k < st1.numPlugins ∧
    (stricmpEq (e.Name.take (e.Name.length - 4)) "ags_SnowRain20".toList = true →
      (st1.plugin k).filename = "ags_snowrain".toList ∧
      (st1.plugin k).library = h.Load "ags_snowrain".toList) ∧
    (stricmpEq (e.Name.take (e.Name.length - 4)) "ags_SnowRain20".toList = false →
      (st1.plugin k).filename = e.Name.take (e.Name.length - 4) ∧
      (st1.plugin k).library = h.Load (e.Name.take (e.Name.length - 4))) := by
  obtain ⟨_, hwf, _⟩ :=
    registerLoop_noError_inv h infos { st with numPlugins := 0 } st1 hreg (Nat.zero_le _)
  obtain ⟨_, _, hstored⟩ := register_noError_stored h infos st st1 hsize hreg
  obtain ⟨hlt, hst⟩ := hstored k e hk
  obtain ⟨_, _, _, _, _, _, _, hmid⟩ :=
    registerLoop_frame h infos { st with numPlugins := 0 } .kGameInitErr_NoError st1 hsize
      (Nat.zero_le _) hreg
  obtain ⟨info, hinfo, hfill⟩ := hmid k (by simpa using hlt)
  simp only [Nat.zero_add] at hfill
  have hie : info = e := by
    rw [hk] at hinfo
    injection hinfo with hinfo
    exact hinfo.symm
  subst hie
  have hlib := (fillSlot_fields h info _ _ _ hfill).2.1
  have hvalid : nameInvalid h info.Name = false :=
    hwf info (List.getElem?_mem hk)
  have hname := pluginFilename_of_valid h info.Name hvalid
  refine ⟨hlt, ?_, ?_⟩
  · intro hs
    rw [if_pos hs] at hname
    rw [hlib, hst.1, hname]
    exact ⟨rfl, rfl⟩
  · intro hs
    rw [if_neg (by rw [hs]; exact Bool.false_ne_true)] at hname
    rw [hlib, hst.1, hname]
    exact ⟨rfl, rfl⟩

/-- Witness of C19: `ags_SnowRain20.dll` is registered as `ags_snowrain` with the module of
that name, `agsblend.dll` under its own name. -/
theorem snowrain_rename_only_witness :
    (threeRegistered.plugin 1).filename = "ags_snowrain".toList ∧
    (threeRegistered.plugin 1).library = demoHost.Load "ags_snowrain".toList ∧
    (threeRegistered.plugin 0).filename = "agsblend".toList ∧
    (threeRegistered.plugin 0).library = some (fullModule 10) :=
  have h1 := snowrain_rename_only demoHost
    [entry "agsblend.dll", entry "ags_SnowRain20.dll", entry "noDebug.dll"] Registry.initial
    threeRegistered (by decide) (by decide) 1 (entry "ags_SnowRain20.dll") (by decide)
  have h0 := snowrain_rename_only demoHost
    [entry "agsblend.dll", entry "ags_SnowRain20.dll", entry "noDebug.dll"] Registry.initial
    threeRegistered (by decide) (by decide) 0 (entry "agsblend.dll") (by decide)
  ⟨(h1.2.1 (by decide)).1, (h1.2.1 (by decide)).2, (h0.2.2 (by decide)).1, by decide⟩

/-! ## C20: a looping request for a streamed sound -/

/-- C20 (as amended): `PlaySoundChannel` with `soundType` `PSND_MP3STREAM` or
`PSND_OGGSTREAM` and `loop != 0` ends in `quit` for every channel and volume, after it has
stopped and destroyed the clip on the channel and, when the channel is the speech channel
and non-blocking voice speech is playing, stopped that speech; it loads no sound and
assigns no clip to the channel. -/
theorem looping_stream_is_rejected (c : SoundConsts) (w : SoundWorld)
    (channel soundType volume loop : Int)
    (hstream : soundType = c.PSND_MP3STREAM ∨ soundType = c.PSND_OGGSTREAM)
    (hloop : loop ≠ 0) :
    PlaySoundChannel c w channel soundType volume loop =
      (.stop_and_destroy_channel channel ::
        (if channel = c.SCHAN_SPEECH ∧ w.IsNonBlockingVoiceSpeech = true
          then [.stop_voice_nonblocking] else []),
        .quit .streamedSamplesCannotLoop) ∧
    (∀ t v l, SoundCall.my_load t v l ∉ (PlaySoundChannel c w channel soundType volume loop).1) ∧
    (∀ ch clip,
      SoundCall.set_clip_to_channel ch clip ∉
        (PlaySoundChannel c w channel soundType volume loop).1) := by
  have hrun : PlaySoundChannel c w channel soundType volume loop =
      (.stop_and_destroy_channel channel ::
        (if channel = c.SCHAN_SPEECH ∧ w.IsNonBlockingVoiceSpeech = true
          then [.stop_voice_nonblocking] else []),
        .quit .streamedSamplesCannotLoop) := by
    unfold PlaySoundChannel
    dsimp only
    rw [if_pos ⟨hstream, hloop⟩]
  refine ⟨hrun, ?_, ?_⟩
  · intro t v l
    rw [hrun]
    split <;> simp
  · intro ch clip
    rw [hrun]
    split <;> simp

/-- Witness of C20: a looping MP3 stream requested on channel 3. -/
theorem looping_stream_is_rejected_witness :
    PlaySoundChannel agsSound speakingWorld 3 2 100 1 =
      (.stop_and_destroy_channel 3 ::
        (if (3 : Int) = agsSound.SCHAN_SPEECH ∧ speakingWorld.IsNonBlockingVoiceSpeech = true
          then [.stop_voice_nonblocking] else []),
        .quit .streamedSamplesCannotLoop) :=
  (looping_stream_is_rejected agsSound speakingWorld 3 2 100 1 (by decide) (by decide)).1

/-- Counterexample to C20 as stated: a looping OGG stream requested on the speech channel
while non-blocking voice speech plays ends in `quit` only after the clip on the channel was
stopped and destroyed and the voice speech stopped. -/
theorem looping_stream_stops_channel_first :
    PlaySoundChannel agsSound speakingWorld 2 4 100 1 =
      ([.stop_and_destroy_channel 2, .stop_voice_nonblocking],
        .quit .streamedSamplesCannotLoop) := by
  decide

/-! ## C21: calling a script function -/

/-- C21 (as amended): for every name and arguments, `CallGameScriptFunction` invoked while
`inside_script` is set returns the error code -300 and runs nothing; invoked while
`inside_script` is clear it runs the function once, on the game instance when
`globalScript` is non-zero and on the room instance otherwise, with the three arguments, and
returns its result; `CanRunScriptFunctionNow` returns 1 exactly when `inside_script` is
clear, and 0 otherwise. -/
theorem call_script_function_contract (w : ScriptWorld) (name : List Char)
    (globalScript numArgs arg1 arg2 arg3 : Int) :
    (w.inside_script ≠ 0 →
      CallGameScriptFunction w name globalScript numArgs arg1 arg2 arg3 = (-300, [])) ∧
    (w.inside_script = 0 →
      CallGameScriptFunction w name globalScript numArgs arg1 arg2 arg3 =
        (w.RunScriptFunctionIfExists
            (if globalScript ≠ 0 then .kScInstGame else .kScInstRoom) name numArgs
            [arg1, arg2, arg3],
          [.RunScriptFunctionIfExists
            (if globalScript ≠ 0 then .kScInstGame else .kScInstRoom) name numArgs
            [arg1, arg2, arg3]])) ∧
    (CanRunScriptFunctionNow w = 1 ↔ w.inside_script = 0) ∧
    (CanRunScriptFunctionNow w = 0 ↔ w.inside_script ≠ 0) := by
  refine ⟨?_, ?_, ?_, ?_⟩
  · intro hin
    unfold CallGameScriptFunction
    rw [if_pos hin]
  · intro hout
    unfold CallGameScriptFunction instOf
    rw [if_neg (by rw [hout]; exact fun hc => hc rfl)]
  · unfold CanRunScriptFunctionNow
    by_cases hin : w.inside_script ≠ 0
    · rw [if_pos hin]
      simp [hin]
    · rw [if_neg hin]
      simp [not_not.mp hin]
  · unfold CanRunScriptFunctionNow
    by_cases hin : w.inside_script ≠ 0
    · rw [if_pos hin]
      simp [hin]
    · rw [if_neg hin]
      simp [not_not.mp hin]

/-- Witness of C21: the same call inside and outside a script. -/
theorem call_script_function_contract_witness :
    CallGameScriptFunction busyScript "on_key".toList 1 1 65 0 0 = (-300, []) ∧
    CallGameScriptFunction idleScript "on_key".toList 1 1 65 0 0 =
      (7, [.RunScriptFunctionIfExists .kScInstGame "on_key".toList 1 [65, 0, 0]]) :=
  ⟨(call_script_function_contract busyScript "on_key".toList 1 1 65 0 0).1 (by decide),
    (call_script_function_contract idleScript "on_key".toList 1 1 65 0 0).2.1 (by decide)⟩

/-- Counterexample to C21 as stated: invoked inside a script, `CallGameScriptFunction` does
not end in `quit`; it returns the result code -300. -/
theorem call_inside_script_returns_code :
    busyScript.inside_script ≠ 0 ∧
    CallGameScriptFunction busyScript "on_key".toList 1 1 65 0 0 = (-300, []) ∧
    CanRunScriptFunctionNow busyScript = 0 := by
  decide

/-! ## C22: the active file handle -/

/-- C22: after `pl_set_file_handle(h, s)` with a non-null stream `s`, `FRead` and `FWrite`
end in `quit` if and only if `handle != h`, and otherwise return what `s->Read` /
`s->Write` returns; after `pl_clear_file_handle` they end in `quit` for every handle value,
the stale `h` and -1 included. -/
theorem file_io_accepts_only_active_handle (streamRead streamWrite : Nat → Int → Int)
    (f : FileState) (h : Int) (s : Nat) (len handle : Int) :
    (FRead streamRead (pl_set_file_handle h (some s) f) len handle =
      if handle = h then .ok (streamRead s len) else .quit .fReadInvalidHandle) ∧
    (FWrite streamWrite (pl_set_file_handle h (some s) f) len handle =
      if handle = h then .ok (streamWrite s len) else .quit .fWriteInvalidHandle) ∧
    ((∃ q, FRead streamRead (pl_set_file_handle h (some s) f) len handle = .quit q) ↔
      handle ≠ h) ∧
    ((∃ q, FWrite streamWrite (pl_set_file_handle h (some s) f) len handle = .quit q) ↔
      handle ≠ h) ∧
    (FRead streamRead (pl_clear_file_handle (pl_set_file_handle h (some s) f)) len handle =
      if handle = -1 then .quit .fReadStreamNotSet else .quit .fReadInvalidHandle) ∧
    (FWrite streamWrite (pl_clear_file_handle (pl_set_file_handle h (some s) f)) len handle =
      if handle = -1 then .quit .fWriteStreamNotSet else .quit .fWriteInvalidHandle) := by
  have hr : FRead streamRead (pl_set_file_handle h (some s) f) len handle =
      if handle = h then .ok (streamRead s len) else .quit .fReadInvalidHandle := by
    unfold FRead pl_set_file_handle
    by_cases hh : handle = h
    · simp [hh]
    · simp [hh]
  have hw : FWrite streamWrite (pl_set_file_handle h (some s) f) len handle =
      if handle = h then .ok (streamWrite s len) else .quit .fWriteInvalidHandle := by
    unfold FWrite pl_set_file_handle
    by_cases hh : handle = h
    · simp [hh]
    · simp [hh]
  refine ⟨hr, hw, ?_, ?_, ?_, ?_⟩
  · rw [hr]
    by_cases hh : handle = h
    · simp [hh]
    · simp [hh]
  · rw [hw]
    by_cases hh : handle = h
    · simp [hh]
    · simp [hh]
  · unfold FRead pl_clear_file_handle
    by_cases hh : handle = -1
    · simp [hh]
    · simp [hh]
  · unfold FWrite pl_clear_file_handle
    by_cases hh : handle = -1
    · simp [hh]
    · simp [hh]

/-! ## C23: character and object indices -/

theorem getCharacter_below_count (numcharacters charnum : Int)
    (hhi : charnum < numcharacters) :
    GetCharacter numcharacters charnum = .ok charnum ∧
    GetObject numcharacters charnum = .ok charnum := by
  unfold GetCharacter GetObject
  rw [if_neg (by omega), if_neg (by omega)]
  exact ⟨rfl, rfl⟩

theorem getCharacter_too_high (numcharacters charnum : Int) (hhi : numcharacters ≤ charnum) :
    GetCharacter numcharacters charnum = .quit .getCharacterInvalid ∧
    GetObject numcharacters charnum = .quit .getObjectInvalid := by
  unfold GetCharacter GetObject
  rw [if_pos hhi, if_pos hhi]
  exact ⟨rfl, rfl⟩

/-- C23 (the code departs from the claim): `GetCharacter` and `GetObject` test the index
against the count only from above. In a game with 5 characters `GetCharacter(-1)` does not
end in `quit`: it returns the address of `game.chars[-1]`; in a room with 3 objects
`GetObject(-2147483648)` returns the address of `croom->obj[-2147483648]`. -/
theorem negative_index_is_not_fatal :
    GetCharacter 5 (-1) = .ok (-1) ∧
    GetObject 3 (-2147483648) = .ok (-2147483648) ∧
    GetCharacter 5 5 = .quit .getCharacterInvalid ∧
    GetObject 3 3 = .quit .getObjectInvalid ∧
    GetCharacter 5 4 = .ok 4 ∧
    GetObject 3 0 = .ok 0 := by
  decide

/-! ## C24: queueing a script function -/

/-- C24 (as amended): `QueueGameScriptFunction` invoked while `inside_script` is set and
with `0 <= numArgs <= 2` makes exactly one call `run_another(name, instance, numArgs, arg1,
arg2)` on the active script and runs nothing; with `numArgs` outside `0..2` it ends in
`quit` and neither queues nor runs anything. Invoked while `inside_script` is clear it makes
the calls of `CallGameScriptFunction(name, globalScript, numArgs, arg1, arg2, 0)`, queues
nothing and returns, whatever `numArgs` is. -/
theorem queue_script_function_contract (w : ScriptWorld) (name : List Char)
    (globalScript numArgs arg1 arg2 : Int) :
    (w.inside_script ≠ 0 → 0 ≤ numArgs → numArgs ≤ 2 →
      QueueGameScriptFunction w name globalScript numArgs arg1 arg2 =
        ([.run_another name (if globalScript ≠ 0 then .kScInstGame else .kScInstRoom)
          numArgs arg1 arg2], none)) ∧
    (w.inside_script ≠ 0 → (numArgs < 0 ∨ 2 < numArgs) →
      QueueGameScriptFunction w name globalScript numArgs arg1 arg2 =
        ([], some .queueInvalidNumberOfArguments)) ∧
    (w.inside_script = 0 →
      QueueGameScriptFunction w name globalScript numArgs arg1 arg2 =
        ((CallGameScriptFunction w name globalScript numArgs arg1 arg2 0).2, none) ∧
      (CallGameScriptFunction w name globalScript numArgs arg1 arg2 0).2 =
        [.RunScriptFunctionIfExists
          (if globalScript ≠ 0 then .kScInstGame else .kScInstRoom) name numArgs
          [arg1, arg2, 0]]) := by
  refine ⟨?_, ?_, ?_⟩
  · intro hin h0 h2
    unfold QueueGameScriptFunction instOf
    rw [if_neg (not_not.mpr hin), if_neg (by omega)]
  · intro hin hbad
    unfold QueueGameScriptFunction
    rw [if_neg (not_not.mpr hin), if_pos (by omega)]
  · intro hout
    have hn : ¬ w.inside_script ≠ 0 := by rw [hout]; exact fun hc => hc rfl
    constructor
    · unfold QueueGameScriptFunction
      rw [if_pos hn]
    · unfold CallGameScriptFunction instOf
      rw [if_neg hn]

/-- Witness of C24: a call queued from inside a script, and one rejected for its number of
arguments. -/
theorem queue_script_function_contract_witness :
    QueueGameScriptFunction busyScript "repeat".toList 0 2 10 20 =
      ([.run_another "repeat".toList .kScInstRoom 2 10 20], none) ∧
    QueueGameScriptFunction busyScript "repeat".toList 0 3 10 20 =
      ([], some .queueInvalidNumberOfArguments) :=
  ⟨(queue_script_function_contract busyScript "repeat".toList 0 2 10 20).1
      (by decide) (by decide) (by decide),
    (queue_script_function_contract busyScript "repeat".toList 0 3 10 20).2.1
      (by decide) (by decide)⟩

/-- Counterexample to C24 as stated: invoked while `inside_script` is clear with
`numArgs = 3` (and with `numArgs = -1`), `QueueGameScriptFunction` does not end in `quit`:
it runs the function at once with that number of arguments. -/
theorem queue_outside_script_skips_argument_check :
    idleScript.inside_script = 0 ∧
    QueueGameScriptFunction idleScript "repeat".toList 0 3 10 20 =
      ([.RunScriptFunctionIfExists .kScInstRoom "repeat".toList 3 [10, 20, 0]], none) ∧
    QueueGameScriptFunction idleScript "repeat".toList 0 (-1) 10 20 =
      ([.RunScriptFunctionIfExists .kScInstRoom "repeat".toList (-1) [10, 20, 0]], none) := by
  decide

/-! ## C25: invalidation after raw surface access -/

theorem wrapInt32_of_range (x : Int) (hlo : 0 ≤ x) (hhi : x < 2 ^ 31) : wrapInt32 x = x := by
  unfold wrapInt32
  have h1 : (x + 2 ^ 31) % 2 ^ 32 = x + 2 ^ 31 :=
    Int.emod_eq_of_lt (by omega) (by omega)
  rw [h1]
  omega

theorem applySurface_length (stage : Option Nat) (c : SurfaceCall) (st : Registry) :
    (applySurface stage c st).plugins.length = st.plugins.length := by
  cases c with
  | get p bmp =>
    simp only [applySurface, GetRawBitmapSurface]
    split
    · simp [Registry.setPlugin]
    · rfl
  | release p bmp => rfl
  | markDirty p => simp [applySurface, MarkRegionDirty, Registry.setPlugin]

theorem applySurface_invalidated (sb p : Nat) (c : SurfaceCall) (st : Registry)
    (hp : p < st.plugins.length) (hc : c ≠ .get p sb) :
    ((applySurface (some sb) c st).plugin p).invalidatedRegion =
      if c = .markDirty p then wrapInt32 ((st.plugin p).invalidatedRegion + 1)
      else (st.plugin p).invalidatedRegion := by
  cases c with
  | get q bmp =>
    rw [if_neg (by simp)]
    simp only [applySurface, GetRawBitmapSurface]
    by_cases hb : some sb = some bmp
    · rw [if_pos hb]
      have hbmp : sb = bmp := by injection hb
      have hq : q ≠ p := by
        intro hqp
        apply hc
        rw [hqp, hbmp]
      rw [plugin_setPlugin_ne st q p _ hq]
    · rw [if_neg hb]
  | release q bmp =>
    rw [if_neg (by simp)]
    rfl
  | markDirty q =>
    simp only [applySurface, MarkRegionDirty]
    by_cases hq : q = p
    · subst hq
      rw [if_pos rfl, plugin_setPlugin_self st q _ hp]
    · rw [if_neg (by simpa using hq), plugin_setPlugin_ne st q p _ hq]

theorem applySurfaces_invalidated (sb p : Nat) :
    ∀ (calls : List SurfaceCall) (st : Registry) (k : Nat),
    p < st.plugins.length → (∀ c ∈ calls, c ≠ .get p sb) →
    (st.plugin p).invalidatedRegion = (k : Int) → k + dirtyCount p calls < 2 ^ 31 →
    ((applySurfaces (some sb) calls st).plugin p).invalidatedRegion =
      ((k + dirtyCount p calls : Nat) : Int) := by
  intro calls
  induction calls with
  | nil =>
    intro st k _ _ hk _
    simpa [applySurfaces, dirtyCount] using hk
  | cons c cs ih =>
    intro st k hp hno hk hbound
    simp only [dirtyCount] at hbound ⊢
    have hc := hno c (List.mem_cons_self _ _)
    have hstep := applySurface_invalidated sb p c st hp hc
    have hlen : p < (applySurface (some sb) c st).plugins.length := by
      rw [applySurface_length]
      exact hp
    have hrest : ∀ c2 ∈ cs, c2 ≠ .get p sb := fun c2 h2 => hno c2 (List.mem_cons_of_mem _ h2)
    by_cases hm : c = .markDirty p
    · rw [if_pos hm] at hstep hbound ⊢
      rw [hk, wrapInt32_of_range _ (by omega) (by omega)] at hstep
      have := ih (applySurface (some sb) c st) (k + 1) hlen hrest (by
        rw [hstep]
        push_cast
        rfl) (by omega)
      simp only [applySurfaces]
      rw [this]
      congr 1
      omega
    · rw [if_neg hm] at hstep hbound ⊢
      rw [hk] at hstep
      have := ih (applySurface (some sb) c st) k hlen hrest hstep (by omega)
      simp only [applySurfaces]
      rw [this]
      congr 1
      omega

/-- C25: for a plugin `p` that calls `GetRawBitmapSurface` on the stage buffer and, after any
surface calls by any plugins among which it makes no further `GetRawBitmapSurface` on the
stage buffer and fewer than 2^31 `MarkRegionDirty` calls, calls `ReleaseBitmapSurface` on
the stage buffer, the release calls `invalidate_screen` if and only if `p` made no
`MarkRegionDirty` call in between; a release of another bitmap never calls it and a
`GetRawBitmapSurface` of another bitmap leaves the registry as it is. -/
theorem release_invalidates_iff_not_marked (sb p : Nat) (st : Registry)
    (between : List SurfaceCall)
    (hp : p < st.plugins.length)
    (hno : ∀ c ∈ between, c ≠ .get p sb)
    (hbound : dirtyCount p between < 2 ^ 31) :
    (ReleaseBitmapSurface (some sb) p sb
        (applySurfaces (some sb) between (GetRawBitmapSurface (some sb) p sb st)) = true ↔
      dirtyCount p between = 0) ∧
    (∀ q bmp s, bmp ≠ sb → ReleaseBitmapSurface (some sb) q bmp s = false) ∧
    (∀ q bmp s, bmp ≠ sb → GetRawBitmapSurface (some sb) q bmp s = s) := by
  refine ⟨?_, ?_, ?_⟩
  · have hst : GetRawBitmapSurface (some sb) p sb st =
        st.setPlugin p { st.plugin p with invalidatedRegion := 0 } := by
      unfold GetRawBitmapSurface
      rw [if_pos rfl]
    have h0 : ((GetRawBitmapSurface (some sb) p sb st).plugin p).invalidatedRegion =
        ((0 : Nat) : Int) := by
      rw [hst, plugin_setPlugin_self st p _ hp]
      rfl
    have hlen : p < (GetRawBitmapSurface (some sb) p sb st).plugins.length := by
      rw [hst]
      simpa [Registry.setPlugin] using hp
    have hv := applySurfaces_invalidated sb p between _ 0 hlen hno h0 (by omega)
    unfold ReleaseBitmapSurface
    rw [hv]
    simp
  · intro q bmp s hb
    unfold ReleaseBitmapSurface
    have : ¬ (some sb = some bmp) := by
      intro hc
      injection hc with hc
      exact hb hc.symm
    simp [this]
  · intro q bmp s hb
    unfold GetRawBitmapSurface
    have : ¬ (some sb = some bmp) := by
      intro hc
      injection hc with hc
      exact hb hc.symm
    rw [if_neg this]

/-- Witness of C25: plugin 0 takes the stage buffer (bitmap 9); plugin 1 marks a region
dirty and plugin 0 touches another bitmap in between; the release invalidates the screen. -/
theorem release_invalidates_iff_not_marked_witness :
    ReleaseBitmapSurface (some 9) 0 9
        (applySurfaces (some 9) [.markDirty 1, .get 0 4, .release 0 4]
          (GetRawBitmapSurface (some 9) 0 9 twoRegistered)) = true ∧
    ReleaseBitmapSurface (some 9) 0 9
        (applySurfaces (some 9) [.markDirty 1, .markDirty 0]
          (GetRawBitmapSurface (some 9) 0 9 twoRegistered)) = false :=
  ⟨(release_invalidates_iff_not_marked 9 0 twoRegistered [.markDirty 1, .get 0 4, .release 0 4]
      (by decide) (by decide) (by decide)).1.2 (by decide),
    by decide⟩

/-! ## C26: the built-in lookup -/

theorem stricmpEq_of_match (f n m : List Char) (h : stricmpEq f n = true) :
    stricmpEq f m = stricmpEq n m := by
  rw [stricmpEq_iff] at h
  simp only [stricmpEq, h]

theorem mem_builtinNames (b : Build) (n : List Char) (hn : n ∈ builtinNames b) :
    b.BUILTIN_PLUGINS = true ∧
    (n = "agsflashlight".toList ∨ n = "agsblend".toList ∨ n = "ags_snowrain".toList ∨
      n = "ags_parallax".toList ∨ n = "agspalrender".toList ∨
      (b.AGS_PLATFORM_OS_IOS = true ∧ n = "agstouch".toList)) := by
  unfold builtinNames at hn
  cases hB : b.BUILTIN_PLUGINS with
  | false => simp [hB] at hn
  | true =>
    refine ⟨rfl, ?_⟩
    cases hI : b.AGS_PLATFORM_OS_IOS with
    | false =>
      simp only [hB, hI, if_true, Bool.false_eq_true, if_false, List.append_nil,
        List.mem_cons, List.mem_singleton, List.not_mem_nil, or_false] at hn
      tauto
    | true =>
      simp only [hB, hI, if_true, List.mem_append, List.mem_cons, List.mem_singleton,
        List.not_mem_nil, or_false] at hn
      tauto

theorem use_builtin_match (b : Build) (apl : EnginePlugin) (n : List Char)
    (hn : n ∈ builtinNames b) (hm : stricmpEq apl.filename n = true) :
    pl_use_builtin_plugin b apl = (true, useBuiltin (b.fns n) apl) := by
  obtain ⟨hB, hcases⟩ := mem_builtinNames b n hn
  unfold pl_use_builtin_plugin
  rw [if_pos hB]
  rcases hcases with h | h | h | h | h | ⟨hI, h⟩
  all_goals subst h
  all_goals
    simp only [stricmpEq_of_match _ _ _ hm]
  all_goals first
    | rfl
    | (rw [hI]; rfl)

theorem use_builtin_no_match (b : Build) (apl : EnginePlugin)
    (hno : ∀ n ∈ builtinNames b, stricmpEq apl.filename n = false) :
    pl_use_builtin_plugin b apl = (false, apl) := by
  unfold pl_use_builtin_plugin
  cases hB : b.BUILTIN_PLUGINS with
  | false => simp
  | true =>
    have hmem : ∀ n, n ∈ ["agsflashlight".toList, "agsblend".toList, "ags_snowrain".toList,
        "ags_parallax".toList, "agspalrender".toList] → stricmpEq apl.filename n = false := by
      intro n hn
      apply hno
      unfold builtinNames
      rw [hB, if_pos rfl]
      exact List.mem_append_left _ hn
    have h1 := hmem "agsflashlight".toList (by simp)
    have h2 := hmem "agsblend".toList (by simp)
    have h3 := hmem "ags_snowrain".toList (by simp)
    have h4 := hmem "ags_parallax".toList (by simp)
    have h5 := hmem "agspalrender".toList (by simp)
    rw [if_pos rfl, h1, h2, h3, h4, h5]
    cases hI : b.AGS_PLATFORM_OS_IOS with
    | false => simp
    | true =>
      have h6 : stricmpEq apl.filename "agstouch".toList = false := by
        apply hno
        unfold builtinNames
        rw [hB, hI, if_pos rfl, if_pos rfl]
        simp
      rw [h6]
      simp

/-- C26: `pl_use_builtin_plugin` is a case-insensitive lookup of `apl->filename` among the
names built into the binary. When the filename matches a name `n` of the build it returns
true and the record has `engineStartup`, `engineShutdown`, `onEvent`, `debugHook` and
`initGfxHook` set to the functions of `n`, `available = true` and `builtin = true`, every
other field unchanged; when it matches no name of the build (as `agstouch` outside iOS, or
any name without `BUILTIN_PLUGINS`) it returns false and the record is unchanged; and
`pl_stop_plugins` leaves the library of a registered record with `builtin = true` as it is. -/
theorem builtin_lookup_contract (b : Build) (apl : EnginePlugin) :
    (∀ n ∈ builtinNames b, stricmpEq apl.filename n = true →
      pl_use_builtin_plugin b apl =
        (true, { apl with
          engineStartup := some (b.fns n).AGS_EngineStartup
          engineShutdown := some (b.fns n).AGS_EngineShutdown
          onEvent := some (b.fns n).AGS_EngineOnEvent
          debugHook := some (b.fns n).AGS_EngineDebugHook
          initGfxHook := some (b.fns n).AGS_EngineInitGfx
          available := true
          builtin := true })) ∧
    ((∀ n ∈ builtinNames b, stricmpEq apl.filename n = false) →
      pl_use_builtin_plugin b apl = (false, apl)) ∧
    (∀ (st : Registry) (j : Nat), j < st.numPlugins → (st.plugin j).builtin = true →
      ((pl_stop_plugins st).plugin j).library = (st.plugin j).library) := by
  refine ⟨?_, use_builtin_no_match b apl, ?_⟩
  · intro n hn hm
    exact use_builtin_match b apl n hn hm
  · intro st j hj hb
    rw [stop_plugin, if_pos hj]
    unfold stoppedRecord
    split
    · simp [hb]
    · rfl

/-- Witness of C26: on a desktop build `AGSBlend` is found whatever its case, and `agstouch`,
built in on iOS only, is not. -/
theorem builtin_lookup_contract_witness :
    pl_use_builtin_plugin desktopBuild { filename := "AGSBlend".toList } =
      (true,
        { filename := "AGSBlend".toList, engineStartup := some 81, engineShutdown := some 82,
          onEvent := some 83, debugHook := some 84, initGfxHook := some 85,
          available := true, builtin := true }) ∧
    pl_use_builtin_plugin desktopBuild { filename := "agstouch".toList } =
      (false, { filename := "agstouch".toList }) :=
  ⟨(builtin_lookup_contract desktopBuild { filename := "AGSBlend".toList }).1
      "agsblend".toList (by decide) (by decide),
    (builtin_lookup_contract desktopBuild { filename := "agstouch".toList }).2.1 (by decide)⟩

/-! ## C27: what a failed registration leaves -/

theorem registerEntry_failed_inv (h : Host) (info : PluginInfo) (st : Registry)
    (e : GameInitError) (hr : registerEntry h info st = .failed e) :
    editorOnly info = false ∧
    (st.numPlugins = MAXPLUGINS ∨ nameInvalid h info.Name = true) := by
  unfold registerEntry at hr
  by_cases h1 : editorOnly info = true
  · rw [if_pos h1] at hr
    cases hr
  · rw [if_neg h1] at hr
    refine ⟨by simpa using h1, ?_⟩
    by_cases h2 : st.numPlugins = MAXPLUGINS
    · exact Or.inl h2
    · rw [if_neg h2] at hr
      by_cases h3 : nameInvalid h info.Name = true
      · exact Or.inr h3
      · rw [if_neg h3] at hr
        split at hr <;> cases hr

theorem registerLoop_failed_split (h : Host) :
    ∀ (infos : List PluginInfo) (st : Registry) (e : GameInitError) (st1 : Registry),
    registerLoop h infos st = .ok (e, st1) → e ≠ .kGameInitErr_NoError →
    ∃ pre bad post, infos = pre ++ bad :: post ∧
      registerLoop h pre st = .ok (.kGameInitErr_NoError, st1) ∧
      editorOnly bad = false ∧
      (st1.numPlugins = MAXPLUGINS ∨ nameInvalid h bad.Name = true) := by
  intro infos
  induction infos with
  | nil =>
    intro st e st1 hr hne
    simp only [registerLoop, Outcome.ok.injEq, Prod.mk.injEq] at hr
    exact absurd hr.1.symm hne
  | cons info rest ih =>
    intro st e st1 hr hne
    simp only [registerLoop] at hr
    cases hre : registerEntry h info st with
    | skipped =>
      rw [hre] at hr
      obtain ⟨pre, bad, post, h1, h2, h3, h4⟩ := ih st e st1 hr hne
      refine ⟨info :: pre, bad, post, by rw [h1]; rfl, ?_, h3, h4⟩
      simp only [registerLoop, hre]
      exact h2
    | failed e2 =>
      rw [hre] at hr
      simp only [Outcome.ok.injEq, Prod.mk.injEq] at hr
      obtain ⟨_, hst⟩ := hr
      subst hst
      obtain ⟨g1, g2⟩ := registerEntry_failed_inv h info st e2 hre
      exact ⟨[], info, rest, rfl, rfl, g1, g2⟩
    | registered st2 =>
      rw [hre] at hr
      obtain ⟨pre, bad, post, h1, h2, h3, h4⟩ := ih st2 e st1 hr hne
      refine ⟨info :: pre, bad, post, by rw [h1]; rfl, ?_, h3, h4⟩
      simp only [registerLoop, hre]
      exact h2
    | quit q =>
      rw [hre] at hr
      cases hr

/-- C27: a failed registration keeps what it registered. When the non-editor-only entries
before a non-editor-only entry `bad` are at most `MAXPLUGINS`, well-formed and load
without a fatal error, and `bad` is the twenty-first of them or has a malformed name,
`pl_register_plugins` returns at `bad`: with `kGameInitErr_TooManyPlugins` when `bad` is the
twenty-first (malformed or not), with `kGameInitErr_PluginNameInvalid` otherwise. It leaves
the registry that registering the entries before `bad` alone leaves, whatever follows
`bad`: `numPlugins` is the number of non-editor-only entries before `bad`, and the k-th of
them is stored in slot k with its name and saved data. Every return of `pl_register_plugins`
with an error code arises in this way. -/
theorem register_failure_keeps_earlier_entries (h : Host) (pre post : List PluginInfo)
    (bad : PluginInfo) (st : Registry)
    (hsize : st.plugins.length = MAXPLUGINS)
    (hcount : (realEntries pre).length ≤ MAXPLUGINS)
    (hwf : ∀ i ∈ realEntries pre, nameInvalid h i.Name = false)
    (hload : ∀ i ∈ realEntries pre, loadsCleanly h i = true)
    (hbad : editorOnly bad = false)
    (hoff : (realEntries pre).length = MAXPLUGINS ∨ nameInvalid h bad.Name = true) :
    (∃ st1, pl_register_plugins h pre st = .ok (.kGameInitErr_NoError, st1) ∧
      pl_register_plugins h (pre ++ bad :: post) st =
        .ok (if (realEntries pre).length = MAXPLUGINS then .kGameInitErr_TooManyPlugins
          else .kGameInitErr_PluginNameInvalid, st1) ∧
      st1.numPlugins = (realEntries pre).length ∧
      ∀ k e, (realEntries pre)[k]? = some e → k < st1.numPlugins ∧ Stored h e k (st1.plugin k)) ∧
    (∀ infos err s1, pl_register_plugins h infos st = .ok (err, s1) →
      err ≠ .kGameInitErr_NoError →
      ∃ pre2 bad2 post2, infos = pre2 ++ bad2 :: post2 ∧ editorOnly bad2 = false ∧
        (realEntries pre2).length ≤ MAXPLUGINS ∧
        (∀ i ∈ realEntries pre2, nameInvalid h i.Name = false) ∧
        (∀ i ∈ realEntries pre2, loadsCleanly h i = true) ∧
        ((realEntries pre2).length = MAXPLUGINS ∨ nameInvalid h bad2.Name = true) ∧
        pl_register_plugins h pre2 st = .ok (.kGameInitErr_NoError, s1)) := by
  constructor
  · obtain ⟨st1, h1, h2, _, _, _, _, h7⟩ :=
      registerLoop_ok h pre { st with numPlugins := 0 } hsize (by simpa using hcount) hwf hload
    simp only [Nat.zero_add] at h2 h7
    refine ⟨st1, h1, ?_, h2, ?_⟩
    · unfold pl_register_plugins
      rw [registerLoop_append h (bad :: post) pre _ st1 h1]
      by_cases hfull : (realEntries pre).length = MAXPLUGINS
      · simp [registerLoop, registerEntry, hbad, h2, hfull]
      · have hname : nameInvalid h bad.Name = true := by
          rcases hoff with hc | hc
          · exact absurd hc hfull
          · exact hc
        simp [registerLoop, registerEntry, hbad, h2, hfull, hname]
    · intro k e hk
      refine ⟨?_, h7 k e hk⟩
      rw [h2]
      have := List.getElem?_eq_some_iff.mp hk
      exact this.1
  · intro infos err s1 hr hne
    unfold pl_register_plugins at hr
    obtain ⟨pre2, bad2, post2, g1, g2, g3, g4⟩ :=
      registerLoop_failed_split h infos _ err s1 hr hne
    obtain ⟨c1, c2, c3⟩ :=
      registerLoop_noError_inv h pre2 { st with numPlugins := 0 } s1 g2 (Nat.zero_le _)
    obtain ⟨st2, k1, k2, _⟩ :=
      registerLoop_ok h pre2 { st with numPlugins := 0 } hsize c1 c2 c3
    have hst : st2 = s1 := by
      have := k1.symm.trans g2
      simp only [Outcome.ok.injEq, Prod.mk.injEq, true_and] at this
      exact this
    subst hst
    simp only [Nat.zero_add] at k2 c1
    refine ⟨pre2, bad2, post2, g1, g3, c1, c2, c3, ?_, g2⟩
    rcases g4 with g | g
    · exact Or.inl (k2.symm.trans g)
    · exact Or.inr g

/-- Witness of C27: after two plugins and an editor-only entry the entry `x` has a
malformed name; the two plugins stay registered and the entry after `x` is not. -/
theorem register_failure_keeps_earlier_entries_witness :
    ∃ st1, pl_register_plugins demoHost demoManifest Registry.initial =
        .ok (.kGameInitErr_NoError, st1) ∧
      pl_register_plugins demoHost (demoManifest ++ entry "x" :: [entry "ags_snowrain.dll"])
        Registry.initial = .ok (.kGameInitErr_PluginNameInvalid, st1) ∧
      st1.numPlugins = 2 :=
  match (register_failure_keeps_earlier_entries demoHost demoManifest [entry "ags_snowrain.dll"]
      (entry "x") Registry.initial (by decide) (by decide) (by decide) (by decide) (by decide)
      (Or.inr (by decide))).1 with
  | ⟨st1, h1, h2, h3, _⟩ => ⟨st1, h1, h2, h3⟩

/-! ## C28: dispatch and absent callbacks -/

/-- C28: in every registry reachable through `pl_register_plugins`, `RequestEventHook`,
`UnrequestEventHook` and `pl_stop_plugins`, every registered plugin with a non-zero
`wantHook` mask has a non-null `onEvent`, and `pl_run_plugin_hooks` returns for every event,
data and behaviour of the callbacks, having called only slots of registered plugins whose
`onEvent` is not null. -/
theorem dispatch_never_calls_absent_callback (h : Host) (st : Registry)
    (hr : Reachable h st) :
    (∀ i, i < st.numPlugins → (st.plugin i).wantHook ≠ 0 → (st.plugin i).onEvent ≠ none) ∧
    (∀ (onEventFn : Nat → Int → Int → Int) (event data : Int),
      ∃ retval invoked, pl_run_plugin_hooks onEventFn st event data = some (retval, invoked) ∧
        ∀ j ∈ invoked, j < st.numPlugins ∧ (st.plugin j).onEvent ≠ none) := by
  have hb := reachable_hooks_backed h st hr
  refine ⟨hb, ?_⟩
  intro onEventFn event data
  obtain ⟨retval, invoked, hrun, _, hinv, _⟩ :=
    runHooksLoop_spec onEventFn st event data st.numPlugins 0
      (fun j _ hj hw => hb j (by omega) (wantsEvent_wantHook_ne st event j hw))
  refine ⟨retval, invoked, hrun, ?_⟩
  intro j hj
  obtain ⟨_, hlt, hw⟩ := hinv j hj
  have hlt2 : j < st.numPlugins := by omega
  exact ⟨hlt2, hb j hlt2 (wantsEvent_wantHook_ne st event j hw)⟩

/-- Witness of C28: three registered plugins, each subscribed to event 1. -/
theorem dispatch_never_calls_absent_callback_witness :
    (∀ i, i < threeSubscribed.numPlugins → (threeSubscribed.plugin i).wantHook ≠ 0 →
      (threeSubscribed.plugin i).onEvent ≠ none) ∧
    (∀ (onEventFn : Nat → Int → Int → Int) (event data : Int),
      ∃ retval invoked,
        pl_run_plugin_hooks onEventFn threeSubscribed event data = some (retval, invoked) ∧
        ∀ j ∈ invoked, j < threeSubscribed.numPlugins ∧
          (threeSubscribed.plugin j).onEvent ≠ none) :=
  dispatch_never_calls_absent_callback demoHost threeSubscribed threeSubscribed_reachable

/-! ## C29: the subscription query -/

theorem anyWantHookLoop_iff (st : Registry) (event : Int) :
    ∀ (count i : Nat), anyWantHookLoop st event count i = true ↔
      ∃ j, i ≤ j ∧ j < i + count ∧ wantsEvent st event j = true := by
  intro count
  induction count with
  | zero =>
    intro i
    simp only [anyWantHookLoop, Bool.false_eq_true, false_iff]
    rintro ⟨j, h1, h2, _⟩
    omega
  | succ n ih =>
    intro i
    simp only [anyWantHookLoop]
    by_cases hw : bitAnd (st.plugin i).wantHook event ≠ 0
    · rw [if_pos hw]
      simp only [true_iff]
      exact ⟨i, le_refl _, by omega, by simp [wantsEvent, hw]⟩
    · rw [if_neg hw, ih (i + 1)]
      constructor
      · rintro ⟨j, h1, h2, h3⟩
        exact ⟨j, by omega, by omega, h3⟩
      · rintro ⟨j, h1, h2, h3⟩
        have hji : j ≠ i := by
          intro hc
          subst hc
          simp [wantsEvent, hw] at h3
        exact ⟨j, by omega, by omega, h3⟩

theorem runHooksLoop_quiet (onEventFn : Nat → Int → Int → Int) (st : Registry)
    (event data : Int) :
    ∀ (count i : Nat), anyWantHookLoop st event count i = false →
      runHooksLoop onEventFn st event data count i = some (0, []) := by
  intro count
  induction count with
  | zero =>
    intro i _
    rfl
  | succ n ih =>
    intro i ha
    simp only [anyWantHookLoop] at ha
    simp only [runHooksLoop]
    by_cases hw : bitAnd (st.plugin i).wantHook event ≠ 0
    · rw [if_pos hw] at ha
      cases ha
    · rw [if_neg hw] at ha
      rw [if_neg hw]
      exact ih (i + 1) ha

theorem runHooksLoop_nil_inv (onEventFn : Nat → Int → Int → Int) (st : Registry)
    (event data : Int) :
    ∀ (count i : Nat) (r : Int), runHooksLoop onEventFn st event data count i = some (r, []) →
      anyWantHookLoop st event count i = false := by
  intro count
  induction count with
  | zero =>
    intro i r _
    rfl
  | succ n ih =>
    intro i r hr
    simp only [runHooksLoop] at hr
    simp only [anyWantHookLoop]
    by_cases hw : bitAnd (st.plugin i).wantHook event ≠ 0
    · exfalso
      rw [if_pos hw] at hr
      cases hoe : (st.plugin i).onEvent with
      | none =>
        rw [hoe] at hr
        cases hr
      | some f =>
        rw [hoe] at hr
        simp only at hr
        by_cases hret : onEventFn f event data ≠ 0
        · rw [if_pos hret] at hr
          simp at hr
        · rw [if_neg hret] at hr
          cases hrec : runHooksLoop onEventFn st event data n (i + 1) with
          | none =>
            rw [hrec] at hr
            cases hr
          | some v =>
            rw [hrec] at hr
            simp at hr
    · rw [if_neg hw] at hr
      rw [if_neg hw]
      exact ih (i + 1) r hr

/-- C29: `pl_any_want_hook` agrees with dispatch. For every registry, event and data,
`pl_any_want_hook(event)` is true exactly when the `wantHook` mask of some registered plugin
overlaps `event`; it is false exactly when `pl_run_plugin_hooks(event, data)` returns 0
without calling any handler; when every subscribed registered plugin has an `onEvent`, as in
every reachable registry, it is true exactly when `pl_run_plugin_hooks` returns having
called at least one handler; and after `pl_stop_plugins` it is false for every event. -/
theorem any_want_hook_agrees_with_dispatch (onEventFn : Nat → Int → Int → Int)
    (st : Registry) (event data : Int) :
    (pl_any_want_hook st event = true ↔
      ∃ j, j < st.numPlugins ∧ wantsEvent st event j = true) ∧
    (pl_any_want_hook st event = false ↔
      pl_run_plugin_hooks onEventFn st event data = some (0, [])) ∧
    ((∀ j, j < st.numPlugins → (st.plugin j).wantHook ≠ 0 → (st.plugin j).onEvent ≠ none) →
      (pl_any_want_hook st event = true ↔
        ∃ retval invoked, pl_run_plugin_hooks onEventFn st event data = some (retval, invoked) ∧
          invoked ≠ [])) ∧
    (∀ ev, pl_any_want_hook (pl_stop_plugins st) ev = false) := by
  have hquiet : pl_any_want_hook st event = false ↔
      pl_run_plugin_hooks onEventFn st event data = some (0, []) :=
    ⟨runHooksLoop_quiet onEventFn st event data st.numPlugins 0,
      runHooksLoop_nil_inv onEventFn st event data st.numPlugins 0 0⟩
  refine ⟨?_, hquiet, ?_, ?_⟩
  · unfold pl_any_want_hook
    rw [anyWantHookLoop_iff]
    constructor
    · rintro ⟨j, _, h2, h3⟩
      exact ⟨j, by omega, h3⟩
    · rintro ⟨j, h2, h3⟩
      exact ⟨j, Nat.zero_le _, by omega, h3⟩
  · intro hb
    obtain ⟨retval, invoked, hrun, _, _, hnz, _⟩ :=
      runHooksLoop_spec onEventFn st event data st.numPlugins 0
        (fun j _ hj hw => hb j (by omega) (wantsEvent_wantHook_ne st event j hw))
    constructor
    · intro ha
      refine ⟨retval, invoked, hrun, ?_⟩
      intro hnil
      subst hnil
      have hz : retval = 0 := by
        by_contra hne
        obtain ⟨k, hk, _⟩ := hnz hne
        cases hk
      subst hz
      have := hquiet.mpr hrun
      rw [ha] at this
      cases this
    · rintro ⟨r, inv, hrun2, hne⟩
      cases ha : pl_any_want_hook st event with
      | true => rfl
      | false =>
        have := (hquiet.mp ha).symm.trans hrun2
        simp only [Option.some.injEq, Prod.mk.injEq] at this
        exact absurd this.2.symm hne
  · intro ev
    rfl

/-- Witness of C29: three plugins subscribed to event 1 only; the query is true for event 1
and false for event 2, which dispatch answers with 0 without a call. -/
theorem any_want_hook_agrees_with_dispatch_witness :
    pl_any_want_hook threeSubscribed 1 = true ∧
    (∃ retval invoked, pl_run_plugin_hooks demoOnEvent threeSubscribed 1 0 =
      some (retval, invoked) ∧ invoked ≠ []) ∧
    pl_any_want_hook threeSubscribed 2 = false ∧
    pl_run_plugin_hooks demoOnEvent threeSubscribed 2 0 = some (0, []) :=
  ⟨by decide,
    ((any_want_hook_agrees_with_dispatch demoOnEvent threeSubscribed 1 0).2.2.1
      (by decide)).1 (by decide),
    by decide,
    (any_want_hook_agrees_with_dispatch demoOnEvent threeSubscribed 2 0).2.1.1 (by decide)⟩

end AGS3
